import Mathlib

/-!
# Cone compiler: semantic passes over the abstract syntax tree

A shallow embedding of the node lists (`ast/nodes.c`), of the declaration passes and
the implicit-return sugar (`ast/vardcl.c`), of the assignment and function-call checks
(`ast/copyexpr.c`), of the name-use pass (`ast/nameuse.c`), of the dereference and
logic passes (`ast/expr.c`), of the block pass (`ast/block.c`), of the literal test
(`ir/exp/literal.c`), of struct equality (`ir/types/struct.c`), of the return check
(`ir/stmt/return.c`), of the permissions (`ir/types/permission.h`) and of the size
computation (`genllvm/genlexpr.c`) of the Cone C compiler.

Conventions of the embedding:

* a value of `AstNode` stands for a C pointer `AstNode *`; `AstNode.null` is `NULL`;
* every node carries its header tag `asttype`; the constructor fixes the C struct
  (the fields) the node was allocated with;
* a C function that mutates a node in place becomes a function returning the
  changed node; the diagnostics sink is a list that grows at its end;
* a function returns `none` where the C code reads through `NULL`, reads a list
  slot outside `0 .. used-1`, writes a slot outside the allocated block, or reads a
  field the node's struct does not have;
* functions, macros and tables that the sources use but do not define are
  parameters of the definitions that call them, or are modelled from the specification
  where a property needs their effect (the diagnostics sink, the name table);
* the name table holds, for each hooked declaration, the declaration as it was when it
  was hooked.
-/

namespace Cone

/-- A name symbol (`Name *`), an entry of the symbol table; C compares them by address. -/
abbrev Name := Nat

/-- The node tags (`asttype`) that the sources name; `other n` is any further tag. -/
inductive AstTag where
  | VoidType
  | RefType
  | PtrType
  | FnSigType
  | FnSig
  | VarNameDclNode
  | NameUseNode
  | MemberUseNode
  | VarNameUseTag
  | MbrNameUseTag
  | DerefNode
  | DotOpNode
  | AssignNode
  | FnCallNode
  | AddrNode
  | CastNode
  | SizeofNode
  | ULitNode
  | FLitNode
  | SLitNode
  | NotLogicNode
  | AndLogicNode
  | BlockNode
  | StmtExpNode
  | ReturnNode
  | PgmNode
  | ModuleNode
  | IfTag
  | VTupleTag
  | TTupleTag
  | AllocType
  | other (n : Nat)
  deriving DecidableEq, Repr

/-- The error codes passed to `errorMsgNode` in the sources. -/
inductive ErrorCode where
  | ErrorBadLval
  | ErrorInvType
  | ErrorNoMut
  | ErrorNoMeth
  | ErrorNotFn
  | ErrorManyArgs
  | ErrorFewArgs
  | ErrorNotLval
  | ErrorBadPerm
  | ErrorBadTerm
  | ErrorNoRet
  | ErrorDupName
  | ErrorNotLit
  | ErrorNoType
  | ErrorUnkName
  | ErrorNotPtr
  deriving DecidableEq, Repr

/-- The compiler passes switched on by `pstate->pass`. -/
inductive Pass where
  | NameResolution
  | TypeCheck
  | otherPass (n : Nat)
  deriving DecidableEq, Repr

/-- A node list (`Nodes`): the header fields `avail` and `used` followed by the slots.
`elems` holds the slots `0 .. used-1`, so `used` is its length. The header's field
types are declared outside the sources; the counts are naturals, and a capacity is
bounded where the code hands it to `newNodes` (see `nodesGrow`). -/
structure Nodes (α : Type) where
  avail : Nat
  elems : List α

/-- The `used` field of a node list. -/
def Nodes.used {α : Type} (nodes : Nodes α) : Nat := nodes.elems.length

/-- Function `newNodes` of nodes.c: an empty block with room for `size` slots. -/
def newNodes {α : Type} (size : Nat) : Nodes α :=
  { avail := size, elems := [] }

/-- The block `if (nodes->used >= nodes->avail)` of `nodesAdd` in nodes.c: a full list is
moved to a block of twice the capacity (`avail << 1`) keeping the `used` slots. The new
capacity is handed to `newNodes` as an `int`, taken as 32 bits wide: there is no result
when it is `2^31` or more, nor when the `memcpy` of the `used` slots does not fit the new
block. -/
def nodesGrow {α : Type} (nodes : Nodes α) : Option (Nodes α) :=
  if nodes.used ≥ nodes.avail then
    if nodes.avail <<< 1 < 2 ^ 31 ∧ nodes.used ≤ nodes.avail <<< 1 then
      some { avail := nodes.avail <<< 1,
             elems := (newNodes (nodes.avail <<< 1)).elems ++ nodes.elems }
    else none
  else some nodes

/-- Function `nodesAdd` of nodes.c: grow the list when it is full, then write the node in
slot `used`. There is no result when that slot lies outside the block, which is the case
for a list of capacity 0 (twice 0 is 0). -/
def nodesAdd {α : Type} (nodesp : Nodes α) (node : α) : Option (Nodes α) :=
  match nodesGrow nodesp with
  | none => none
  | some nodes =>
    if nodes.used < nodes.avail then
      some { avail := nodes.avail, elems := nodes.elems ++ [node] }
    else none

/-- Modelled from the spec: the `nodesLast` macro of the node-list header, which is not
among the sources ("examine the last statement"): the slot `used - 1`. There is no such
slot in an empty list. -/
def nodesLast {α : Type} (nodes : Nodes α) : Option α :=
  nodes.elems.getLast?

/-- Modelled from the spec: an assignment through the `nodesLast` macro
("replace it with a return"), writing slot `used - 1`. -/
def nodesSetLast {α : Type} (nodes : Nodes α) (node : α) : Nodes α :=
  { avail := nodes.avail, elems := nodes.elems.dropLast ++ [node] }

/-- A named node list (`Inodes`): the header fields `avail` and `used` followed by the
slots, each a `SymNode` pair of a name symbol and a node. -/
structure Inodes (α : Type) where
  avail : Nat
  elems : List (Name × α)

/-- The `used` field of a named node list. -/
def Inodes.used {α : Type} (inodes : Inodes α) : Nat := inodes.elems.length

/-- Function `newInodes` of nodes.c: an empty block with room for `size` pairs. -/
def newInodes {α : Type} (size : Nat) : Inodes α :=
  { avail := size, elems := [] }

/-- Function `inodesAdd` of nodes.c: when the list is full, move it to a block of twice
the capacity keeping the `used` pairs; then write the pair in slot `used`. -/
def inodesAdd {α : Type} (nodesp : Inodes α) (name : Name) (node : α) : Inodes α :=
  let inodes : Inodes α :=
    if nodesp.used ≥ nodesp.avail then
      { avail := nodesp.avail <<< 1,
        elems := (newInodes (nodesp.avail <<< 1)).elems ++ nodesp.elems }
    else nodesp
  { avail := inodes.avail, elems := inodes.elems ++ [(name, node)] }

/-- Function `inodesFind` of nodes.c: the first pair, from slot 0 on, whose name is the
given name symbol; `none` is the result `NULL`. -/
def inodesFind {α : Type} (inodes : Inodes α) (name : Name) : Option (Name × α) :=
  inodes.elems.find? (fun symnode => decide (symnode.1 = name))

/-- The AST nodes, one constructor per C struct read by the embedded functions. -/
inductive AstNode where
  /-- The pointer `NULL`. -/
  | null
  /-- The global `voidType` node; C tests for it by address. -/
  | voidType
  /-- A type node whose fields the embedded functions do not read. -/
  | typ (asttype : AstTag) (id : Nat)
  /-- Struct `PtrAstNode`: reference and pointer types. -/
  | ptr (asttype : AstTag) (pvtype perm alloc : AstNode)
  /-- Struct `FnSigAstNode` of fnsig.h; its parameters are a named node list. -/
  | fnsig (asttype : AstTag) (rettype : AstNode) (parms : Inodes AstNode)
  /-- Struct `MethodTypeAstNode`: a type with a list of methods. -/
  | methtype (asttype : AstTag) (id : Nat) (methods : Nodes AstNode)
  /-- Struct `VarDclAstNode`. -/
  | vardcl (asttype : AstTag) (namesym : Name) (vtype perm value : AstNode) (scope : Int)
  /-- Struct `NameUseAstNode`. -/
  | nameuse (asttype : AstTag) (namesym : Name) (mod dclnode vtype : AstNode)
  /-- Struct `FnCallAstNode`. -/
  | fncall (asttype : AstTag) (fn : AstNode) (args : Nodes AstNode) (vtype : AstNode)
  /-- Struct `AssignAstNode`. -/
  | assign (asttype : AstTag) (assignType : Int) (lval rval vtype : AstNode)
  /-- Struct `DerefAstNode`. -/
  | deref (asttype : AstTag) (exp vtype : AstNode)
  /-- Struct `BlockAstNode`. -/
  | block (asttype : AstTag) (stmts : Nodes AstNode)
  /-- Struct `StmtExpAstNode`: expression statements and return statements. -/
  | stmtexp (asttype : AstTag) (exp : AstNode)
  /-- Any other typed expression node (`TypedAstNode` header only). -/
  | exp (asttype : AstTag) (id : Nat) (vtype : AstNode)
  /-- Struct `ModuleAstNode`: a module with its named nodes; `id` stands for its address. -/
  | module (asttype : AstTag) (id : Nat) (namednodes : Inodes AstNode)
  /-- Struct `AddrAstNode`: the address-of expression; `vtype` is its reference type. -/
  | addr (asttype : AstTag) (exp vtype : AstNode)
  /-- Struct `TupleNode`: a tuple of values (`VTupleTag`) or of types (`TTupleTag`). -/
  | tuple (asttype : AstTag) (elems : Nodes AstNode) (vtype : AstNode)
  /-- Struct `BreakRetNode`: the return statement of return.c. -/
  | breakret (asttype : AstTag) (exp dealias : AstNode)
  /-- Struct `LogicAstNode`: the logic operators; `not` has the operand `lexp` only. -/
  | logic (asttype : AstTag) (lexp rexp vtype : AstNode)
  /-- A pointer to a name symbol (`Name *`) where the code reads a node pointer: the
  first half of a pair of a named node list that is walked as `AstNode **`. It has none of
  the fields of a node. -/
  | nameptr (namesym : Name)

/-- The header field `node->asttype`; reading it through `NULL` is undefined. -/
def AstNode.asttype : AstNode → Option AstTag
  | .null => none
  | .voidType => some AstTag.VoidType
  | .typ t _ => some t
  | .ptr t _ _ _ => some t
  | .fnsig t _ _ => some t
  | .methtype t _ _ => some t
  | .vardcl t _ _ _ _ _ => some t
  | .nameuse t _ _ _ _ => some t
  | .fncall t _ _ _ => some t
  | .assign t _ _ _ _ => some t
  | .deref t _ _ => some t
  | .block t _ => some t
  | .stmtexp t _ => some t
  | .exp t _ _ => some t
  | .module t _ _ => some t
  | .addr t _ _ => some t
  | .tuple t _ _ => some t
  | .breakret t _ _ => some t
  | .logic t _ _ _ => some t
  | .nameptr _ => none

/-- The field `((TypedAstNode*)node)->vtype` of the nodes that have one. -/
def AstNode.vtype : AstNode → Option AstNode
  | .vardcl _ _ vtype _ _ _ => some vtype
  | .nameuse _ _ _ _ vtype => some vtype
  | .fncall _ _ _ vtype => some vtype
  | .assign _ _ _ _ vtype => some vtype
  | .deref _ _ vtype => some vtype
  | .exp _ _ vtype => some vtype
  | .addr _ _ vtype => some vtype
  | .tuple _ _ vtype => some vtype
  | .logic _ _ _ vtype => some vtype
  | _ => none

/-- The test `type == voidType`, a comparison of addresses with the global void node. -/
def isVoidType : AstNode → Bool
  | .voidType => true
  | _ => false

/-- A diagnostic: the error code and the node it is anchored at. -/
abbrev Diag := ErrorCode × AstNode

/-- The diagnostics sink, oldest first. -/
abbrev Errors := List Diag

/-- Modelled from the spec: `errorMsgNode` of the error module, which is not among the
sources: "buffers an error anchored at a node's source location and increments a
counter". The count of errors is the length of the list. -/
def errorMsgNode (errs : Errors) (node : AstNode) (code : ErrorCode) : Errors :=
  errs ++ [(code, node)]

/-- The error codes recorded so far, oldest first. -/
def errorCodes (errs : Errors) : List ErrorCode := errs.map Prod.fst

/-! ## block.c -/

/-- Function `newReturnNode` of block.c: a `ReturnNode` whose expression is `voidType`. -/
def newReturnNode : AstNode := .stmtexp AstTag.ReturnNode .voidType

/-! ## vardcl.c -/

/-- Function `fnImplicitReturn` of vardcl.c. `isExpNode` is the macro of the AST header that
tells expression nodes from the others. The block and the sink are returned as the
function leaves them. -/
def fnImplicitReturn (isExpNode : AstNode → Bool) (rettype blk : AstNode) (errs : Errors) :
    Option (AstNode × Errors) :=
  match blk with
  | .block blktag stmts =>
    match nodesLast stmts with
    | none => none
    | some laststmt =>
      match laststmt.asttype with
      | none => none
      | some lasttag =>
        if isVoidType rettype then
          if lasttag ≠ AstTag.ReturnNode then
            match nodesAdd stmts newReturnNode with
            | none => none
            | some stmts1 => some (.block blktag stmts1, errs)
          else some (blk, errs)
        else
          if isExpNode laststmt then
            some (.block blktag (nodesSetLast stmts (.stmtexp AstTag.ReturnNode laststmt)), errs)
          else if lasttag ≠ AstTag.ReturnNode then
            some (blk, errorMsgNode errs laststmt ErrorCode.ErrorNoRet)
          else some (blk, errs)
  | _ => none

/-! ## copyexpr.c -/

/-- Function `isLval` of copyexpr.c. -/
def isLval (node : AstNode) : Option Bool :=
  match node.asttype with
  | none => none
  | some AstTag.VarNameUseTag => some true
  | some AstTag.DerefNode => some true
  | some AstTag.DotOpNode => some true
  | some _ => some false

/-- The test `ptr == NULL`. -/
def isNull : AstNode → Bool
  | .null => true
  | _ => false

/-- The pass state handed from node to node (`PassState`). -/
structure PassState where
  pass : Pass
  scope : Int
  fnsig : AstNode
  blk : AstNode
  mod : AstNode

/-- The state a pass threads through the tree: its pass state and the diagnostics sink. -/
structure Ctx where
  pstate : PassState
  errs : Errors

/-- The dispatcher `astPass` is not among the sources: it is a parameter of this type.
It gives back the state and the node as the walk of the node leaves them. -/
abbrev AstPass := Ctx → AstNode → Option (Ctx × AstNode)

/-- The loop `for (nodesFor(nodes, cnt, nodesp)) astPass(pstate, *nodesp)`. -/
def passNodes (astPass : AstPass) : Ctx → List AstNode → Option (Ctx × List AstNode)
  | c, [] => some (c, [])
  | c, node :: rest =>
    match astPass c node with
    | none => none
    | some (c1, node1) =>
      match passNodes astPass c1 rest with
      | none => none
      | some (c2, rest1) => some (c2, node1 :: rest1)

/-- The `case TypeCheck:` of `assignPass` in copyexpr.c, on the sink. `typeCoerces to from`
gives the success flag and the expression left in the slot `from`; `handleCopy` has an
empty body in the sources. -/
def assignTypeCheck (typeCoerces : AstNode → AstNode → Bool × AstNode)
    (permIsMutable : AstNode → Bool) (node : AstNode) (errs : Errors) :
    Option (AstNode × Errors) :=
  match node with
  | .assign tag assignType lval rval _ =>
    match isLval lval with
    | none => none
    | some lvalok =>
      let checked : AstNode × Errors :=
        if !lvalok then
          (rval, errorMsgNode errs lval ErrorCode.ErrorBadLval)
        else if !(typeCoerces lval rval).1 then
          ((typeCoerces lval rval).2,
            errorMsgNode errs (typeCoerces lval rval).2 ErrorCode.ErrorInvType)
        else if !permIsMutable lval then
          ((typeCoerces lval rval).2, errorMsgNode errs lval ErrorCode.ErrorNoMut)
        else
          ((typeCoerces lval rval).2, errs)
      match checked.1.vtype with
      | none => none
      | some rvtype => some (.assign tag assignType lval checked.1 rvtype, checked.2)
  | _ => none

/-- Function `assignPass` of copyexpr.c. -/
def assignPass (astPass : AstPass) (typeCoerces : AstNode → AstNode → Bool × AstNode)
    (permIsMutable : AstNode → Bool) (c : Ctx) (node : AstNode) : Option (Ctx × AstNode) :=
  match node with
  | .assign tag assignType lval rval vtype =>
    match astPass c lval with
    | none => none
    | some (c1, lval1) =>
      match astPass c1 rval with
      | none => none
      | some (c2, rval1) =>
        match c2.pstate.pass with
        | Pass.TypeCheck =>
          match assignTypeCheck typeCoerces permIsMutable
              (.assign tag assignType lval1 rval1 vtype) c2.errs with
          | none => none
          | some (node1, errs1) => some ({ pstate := c2.pstate, errs := errs1 }, node1)
        | _ => some (c2, .assign tag assignType lval1 rval1 vtype)
  | _ => none

/-- The loop of `fnCallFindMethod` over the methods that are left, with the best
imprecise match found so far. `fnSigMatchesCall` returns a C `int`. -/
def fnCallFindMethodLoop (fnSigMatchesCall : AstNode → AstNode → Int) (node : AstNode)
    (methsym : Name) : List AstNode → Int → AstNode → Option AstNode
  | [], _, bestmethod => some bestmethod
  | method :: rest, bestnbr, bestmethod =>
    match method with
    | .vardcl _ namesym vtype _ _ _ =>
      if namesym = methsym then
        if fnSigMatchesCall vtype node = 0 then
          fnCallFindMethodLoop fnSigMatchesCall node methsym rest bestnbr bestmethod
        else if fnSigMatchesCall vtype node = 1 then
          some method
        else if fnSigMatchesCall vtype node < bestnbr then
          fnCallFindMethodLoop fnSigMatchesCall node methsym rest
            (fnSigMatchesCall vtype node) method
        else
          fnCallFindMethodLoop fnSigMatchesCall node methsym rest bestnbr bestmethod
      else
        fnCallFindMethodLoop fnSigMatchesCall node methsym rest bestnbr bestmethod
    | _ => none

/-- The type whose methods `fnCallFindMethod` searches: the value type of the first
argument, and for a reference or pointer type the value type of what it points to. -/
def fnCallObjType (typeGetVtype : AstNode → AstNode) (node : AstNode) : Option AstNode :=
  match node with
  | .fncall _ _ args _ =>
    match args.elems.head? with
    | none => none
    | some arg0 =>
      match (typeGetVtype arg0).asttype with
      | none => none
      | some objtag =>
        if objtag = AstTag.RefType ∨ objtag = AstTag.PtrType then
          match typeGetVtype arg0 with
          | .ptr _ pvtype _ _ => some (typeGetVtype pvtype)
          | _ => none
        else some (typeGetVtype arg0)
  | _ => none

/-- Function `fnCallFindMethod` of copyexpr.c; `AstNode.null` is the result `NULL`.
`typeGetVtype`, `isMethodType` and `fnSigMatchesCall` are not among the sources. -/
def fnCallFindMethod (typeGetVtype : AstNode → AstNode) (isMethodType : AstNode → Bool)
    (fnSigMatchesCall : AstNode → AstNode → Int) (node : AstNode) (methsym : Name)
    (errs : Errors) : Option (AstNode × Errors) :=
  match fnCallObjType typeGetVtype node with
  | none => none
  | some objtype =>
    if !isMethodType objtype then
      some (.null, errorMsgNode errs node ErrorCode.ErrorNoMeth)
    else
      match objtype with
      | .methtype _ _ methods =>
        match fnCallFindMethodLoop fnSigMatchesCall node methsym methods.elems 0x7fffffff .null with
        | none => none
        | some method => some (method, errs)
      | _ => none

/-! ## expr.c -/

/-- Function `derefAuto` of expr.c on the slot `node`: a reference gets wrapped in a new
`DerefNode` whose value type is what the node's own type points to. -/
def derefAuto (typeGetVtype : AstNode → AstNode) (node : AstNode) : Option AstNode :=
  match (typeGetVtype node).asttype with
  | none => none
  | some t =>
    if t ≠ AstTag.RefType then some node
    else
      match node.vtype with
      | some (.ptr _ pvtype _ _) => some (.deref AstTag.DerefNode node pvtype)
      | _ => none

/-! ## copyexpr.c: function calls -/

/-- The slots of a named node list as a walk with an `AstNode **` reads them, the way
`fnCallPass` walks the parameters: each pair (`SymNode`) is two pointers, the name symbol
and then the node, the order in which `inodesAdd` writes them. -/
def inodesSlots : List (Name × AstNode) → List AstNode
  | [] => []
  | symnode :: rest => .nameptr symnode.1 :: symnode.2 :: inodesSlots rest

/-- The loop of `fnCallPass` that coerces each argument to the slot `*parmp` and steps
`parmp` by one pointer. It gives the arguments as the coercions leave them, the sink, and
the slots from `parmp` on. -/
def fnCallCoerceArgs (typeCoerces : AstNode → AstNode → Bool × AstNode) :
    List AstNode → List AstNode → Errors → Option (List AstNode × Errors × List AstNode)
  | parmp, [], errs => some ([], errs, parmp)
  | [], _ :: _, _ => none
  | parm :: parmp, arg :: args, errs =>
    match fnCallCoerceArgs typeCoerces parmp args
        (if !(typeCoerces parm arg).1 then
          errorMsgNode errs (typeCoerces parm arg).2 ErrorCode.ErrorInvType
        else errs) with
    | none => none
    | some (args1, errs1, parmp1) => some ((typeCoerces parm arg).2 :: args1, errs1, parmp1)

/-- The loop `while (argsunder--)` of `fnCallPass`: append the field `value` of what each
slot from `parmp` on points to, read as a declaration, to the arguments. A slot that
holds a name symbol has no such field. -/
def fnCallAddDefaults : Nat → List AstNode → Nodes AstNode → Option (Nodes AstNode)
  | 0, _, args => some args
  | _ + 1, [], _ => none
  | argsunder + 1, parm :: parmp, args =>
    match parm with
    | .vardcl _ _ _ _ value _ =>
      match nodesAdd args value with
      | none => none
      | some args1 => fnCallAddDefaults argsunder parmp args1
    | _ => none

/-- Lines 160 to 198 of `fnCallPass`, from "Capture return vtype" on: the callee must be
a function, the arguments may not outnumber the parameters, every argument is coerced,
and missing arguments are taken from the fields `value` the walk finds. The parameters
are the named node list that fnsig.h declares (`parms->used` counts its pairs); the code
walks it with `AstNode **parmp` from `&nodesGet(parms, 0)` on, one pointer at a time, so
`*parmp` is in turn the name symbol and the node of each pair (`inodesSlots`). -/
def fnCallCheckSig (typeGetVtype : AstNode → AstNode)
    (typeCoerces : AstNode → AstNode → Bool × AstNode)
    (tag : AstTag) (fn : AstNode) (args : Nodes AstNode) (vtype : AstNode) (errs : Errors) :
    Option (AstNode × Errors) :=
  match (typeGetVtype fn).asttype with
  | none => none
  | some sigtag =>
    if sigtag = AstTag.FnSigType then
      match typeGetVtype fn with
      | .fnsig _ rettype parms =>
        if (parms.used : Int) - (args.used : Int) < 0 then
          some (.fncall tag fn args rettype,
            errorMsgNode errs (.fncall tag fn args rettype) ErrorCode.ErrorManyArgs)
        else
          match fnCallCoerceArgs typeCoerces (inodesSlots parms.elems) args.elems errs with
          | none => none
          | some (elems1, errs1, parmp) =>
            if (parms.used : Int) - (args.used : Int) > 0 then
              match parmp with
              | .vardcl _ _ _ _ value _ :: _ =>
                if isNull value then
                  some (.fncall tag fn { avail := args.avail, elems := elems1 } rettype,
                    errorMsgNode errs1
                      (.fncall tag fn { avail := args.avail, elems := elems1 } rettype)
                      ErrorCode.ErrorFewArgs)
                else
                  match fnCallAddDefaults (parms.used - args.used) parmp
                      { avail := args.avail, elems := elems1 } with
                  | none => none
                  | some args1 => some (.fncall tag fn args1 rettype, errs1)
              | _ => none
            else
              some (.fncall tag fn { avail := args.avail, elems := elems1 } rettype, errs1)
      | _ => none
    else
      some (.fncall tag fn args vtype, errorMsgNode errs fn ErrorCode.ErrorNotFn)

/-- Lines 140 to 158 of `fnCallPass`: a member name as callee is resolved to a method of
the first argument's type, any other callee is dereferenced when it is a reference.
The result is the callee and the sink, and `false` when the function has returned
(no method was found). -/
def fnCallResolveFn (typeGetVtype : AstNode → AstNode) (isMethodType : AstNode → Bool)
    (fnSigMatchesCall : AstNode → AstNode → Int) (node : AstNode) (errs : Errors) :
    Option (AstNode × Errors × Bool) :=
  match node with
  | .fncall _ fn _ _ =>
    match fn.asttype with
    | none => none
    | some fntag =>
      if fntag = AstTag.MbrNameUseTag then
        match fn with
        | .nameuse _ methsym mod _ _ =>
          match fnCallFindMethod typeGetVtype isMethodType fnSigMatchesCall node methsym errs with
          | none => none
          | some (method, errs1) =>
            if !isNull method then
              match method.vtype with
              | none => none
              | some methvtype =>
                some (.nameuse AstTag.VarNameUseTag methsym mod method methvtype, errs1, true)
            else
              some (fn, errorMsgNode errs1 node ErrorCode.ErrorNoMeth, false)
        | _ => none
      else
        match derefAuto typeGetVtype fn with
        | none => none
        | some fn1 => some (fn1, errs, true)
  | _ => none

/-- The `case TypeCheck:` of `fnCallPass` in copyexpr.c. -/
def fnCallTypeCheck (typeGetVtype : AstNode → AstNode) (isMethodType : AstNode → Bool)
    (fnSigMatchesCall : AstNode → AstNode → Int)
    (typeCoerces : AstNode → AstNode → Bool × AstNode) (node : AstNode) (errs : Errors) :
    Option (AstNode × Errors) :=
  match node with
  | .fncall tag _ args vtype =>
    match fnCallResolveFn typeGetVtype isMethodType fnSigMatchesCall node errs with
    | none => none
    | some (fn1, errs1, false) => some (.fncall tag fn1 args vtype, errs1)
    | some (fn1, errs1, true) => fnCallCheckSig typeGetVtype typeCoerces tag fn1 args vtype errs1
  | _ => none

/-- Function `fnCallPass` of copyexpr.c. -/
def fnCallPass (astPass : AstPass) (typeGetVtype : AstNode → AstNode)
    (isMethodType : AstNode → Bool) (fnSigMatchesCall : AstNode → AstNode → Int)
    (typeCoerces : AstNode → AstNode → Bool × AstNode) (c : Ctx) (node : AstNode) :
    Option (Ctx × AstNode) :=
  match node with
  | .fncall tag fn args vtype =>
    match passNodes astPass c args.elems with
    | none => none
    | some (c1, elems1) =>
      match astPass c1 fn with
      | none => none
      | some (c2, fn1) =>
        match c2.pstate.pass with
        | Pass.TypeCheck =>
          match fnCallTypeCheck typeGetVtype isMethodType fnSigMatchesCall typeCoerces
              (.fncall tag fn1 { avail := args.avail, elems := elems1 } vtype) c2.errs with
          | none => none
          | some (node1, errs1) => some ({ pstate := c2.pstate, errs := errs1 }, node1)
        | _ => some (c2, .fncall tag fn1 { avail := args.avail, elems := elems1 } vtype)
  | _ => none

/-! ## The name table -/

/-- One binding of the name table: the name symbol, the owner that hooked it, and the
declaration it is bound to. -/
structure Hook where
  namesym : Name
  owner : AstNode
  node : AstNode

/-- Modelled from the spec: the global name table of the name-table module, which is not
among the sources: "maps each name symbol to a stack of bindings". The bindings are
listed from the newest to the oldest; the stack of a symbol is the bindings of that symbol
in this order. -/
abbrev NameTbl := List Hook

/-- Modelled from the spec: the field read `namesym->node`, the lookup of the name
table: "return current top binding or nil". -/
def nameLookup (tbl : NameTbl) (namesym : Name) : AstNode :=
  match tbl.find? (fun h => decide (h.namesym = namesym)) with
  | some h => h.node
  | none => .null

/-- Modelled from the spec: `nameHook` of the name-table module, which is not among the
sources: "prepend `decl` onto `sym`'s binding stack; record owner for later bulk
unhook". -/
def nameHook (tbl : NameTbl) (owner namenode : AstNode) (namesym : Name) : NameTbl :=
  { namesym := namesym, owner := owner, node := namenode } :: tbl

/-- The state of the compiler during a pass: the pass state, the diagnostics sink and the
global name table. `Ctx` is the part of it that the checks of copyexpr.c use. -/
structure CompState where
  pstate : PassState
  errs : Errors
  nametbl : NameTbl

/-- The dispatcher `astPass` as a parameter of the functions that also resolve names:
it gives back the state and the node as the walk of the node leaves them. -/
abbrev AstWalk := CompState → AstNode → Option (CompState × AstNode)

/-! ## literal.c -/

/-- Function `litIsLiteral` of literal.c. -/
def litIsLiteral (node : AstNode) : Option Bool :=
  match node.asttype with
  | none => none
  | some t => some (decide (t = AstTag.FLitNode ∨ t = AstTag.ULitNode))

/-! ## vardcl.c: declarations -/

/-- Function `varDclFnNameResolve` of vardcl.c. The functions `inodesHook` and
`nameUnhook` of the name-table module are not among the sources; they are parameters
that map the name table, the owner and (for `inodesHook`) the parameter list to the
name table they leave. -/
def varDclFnNameResolve (astPass : AstWalk)
    (inodesHook : NameTbl → AstNode → Inodes AstNode → NameTbl)
    (nameUnhook : NameTbl → AstNode → NameTbl)
    (c : CompState) (name : AstNode) : Option (CompState × AstNode) :=
  match name with
  | .vardcl tag namesym (.fnsig sigtag rettype parms) perm value scope =>
    match astPass
        { pstate := { c.pstate with scope := 1 }, errs := c.errs,
          nametbl := inodesHook c.nametbl name parms } value with
    | none => none
    | some (c1, value1) =>
      some ({ pstate := { c1.pstate with scope := c.pstate.scope }, errs := c1.errs,
              nametbl := nameUnhook c1.nametbl name },
            .vardcl tag namesym (.fnsig sigtag rettype parms) perm value1 scope)
  | _ => none

/-- The first statement of `varDclNameResolve`, for a local variable: either the two
ErrorDupName errors, or the new `scope` and the hook. It gives the state and the
`scope` field of the declaration. The binding hooked for a declaration is the
declaration as it is at that moment (its `scope` just set). -/
def varDclHookLocal (c : CompState) (name : AstNode) : Option (CompState × Int) :=
  match name with
  | .vardcl tag namesym vtype perm value scope =>
    if c.pstate.scope > 1 then
      match nameLookup c.nametbl namesym with
      | .null =>
        some ({ pstate := c.pstate, errs := c.errs,
                nametbl := nameHook c.nametbl c.pstate.blk
                  (.vardcl tag namesym vtype perm value c.pstate.scope) namesym },
              c.pstate.scope)
      | .vardcl btag bsym bvtype bperm bvalue bscope =>
        if c.pstate.scope = bscope then
          some ({ pstate := c.pstate,
                  errs := errorMsgNode (errorMsgNode c.errs name ErrorCode.ErrorDupName)
                    (.vardcl btag bsym bvtype bperm bvalue bscope) ErrorCode.ErrorDupName,
                  nametbl := c.nametbl },
                scope)
        else
          some ({ pstate := c.pstate, errs := c.errs,
                  nametbl := nameHook c.nametbl c.pstate.blk
                    (.vardcl tag namesym vtype perm value c.pstate.scope) namesym },
                c.pstate.scope)
      | _ => none
    else some (c, scope)
  | _ => none

/-- Function `varDclNameResolve` of vardcl.c. -/
def varDclNameResolve (astPass : AstWalk) (c : CompState) (name : AstNode) :
    Option (CompState × AstNode) :=
  match name with
  | .vardcl tag namesym vtype perm value _ =>
    match varDclHookLocal c name with
    | none => none
    | some (c1, scope1) =>
      if !isNull value then
        match astPass c1 value with
        | none => none
        | some (c2, value1) => some (c2, .vardcl tag namesym vtype perm value1 scope1)
      else some (c1, .vardcl tag namesym vtype perm value scope1)
  | _ => none

/-- Function `varDclFnTypeCheck` of vardcl.c. -/
def varDclFnTypeCheck (astPass : AstWalk) (c : CompState) (varnode : AstNode) :
    Option (CompState × AstNode) :=
  match varnode with
  | .vardcl tag namesym vtype perm value scope =>
    match astPass { pstate := { c.pstate with fnsig := vtype }, errs := c.errs,
                    nametbl := c.nametbl } value with
    | none => none
    | some (c1, value1) =>
      some ({ pstate := { c1.pstate with fnsig := c.pstate.fnsig }, errs := c1.errs,
              nametbl := c1.nametbl },
            .vardcl tag namesym vtype perm value1 scope)
  | _ => none

/-- Function `varDclTypeCheck` of vardcl.c. The literal test is made for `scope <= 1`
only (`&&`). -/
def varDclTypeCheck (astPass : AstWalk) (typeCoerces : AstNode → AstNode → Bool × AstNode)
    (c : CompState) (name : AstNode) : Option (CompState × AstNode) :=
  match name with
  | .vardcl tag namesym vtype perm value scope =>
    match astPass c value with
    | none => none
    | some (c1, value1) =>
      let errs1 : Option Errors :=
        if scope ≤ 1 then
          match litIsLiteral value1 with
          | none => none
          | some lit =>
            if !lit then some (errorMsgNode c1.errs value1 ErrorCode.ErrorNotLit)
            else some c1.errs
        else some c1.errs
      match errs1 with
      | none => none
      | some errs1 =>
        if isVoidType vtype then
          match value1.vtype with
          | none => none
          | some valuevtype =>
            some ({ pstate := c1.pstate, errs := errs1, nametbl := c1.nametbl },
                  .vardcl tag namesym valuevtype perm value1 scope)
        else if !(typeCoerces vtype value1).1 then
          some ({ pstate := c1.pstate,
                  errs := errorMsgNode errs1 (typeCoerces vtype value1).2 ErrorCode.ErrorInvType,
                  nametbl := c1.nametbl },
                .vardcl tag namesym vtype perm (typeCoerces vtype value1).2 scope)
        else
          some ({ pstate := c1.pstate, errs := errs1, nametbl := c1.nametbl },
                .vardcl tag namesym vtype perm (typeCoerces vtype value1).2 scope)
  | _ => none

/-- The `case TypeCheck:` of `varDclPass`, on the declaration as the walks of its
permission and type left it; `vtype` is `typeGetVtype(name->vtype)`. -/
def varDclPassTypeCheck (astPass : AstWalk) (isExpNode : AstNode → Bool)
    (typeCoerces : AstNode → AstNode → Bool × AstNode)
    (c : CompState) (name vtype : AstNode) : Option (CompState × AstNode) :=
  match name with
  | .vardcl tag namesym namevtype perm value scope =>
    if !isNull value then
      match vtype.asttype with
      | none => none
      | some vtag =>
        if vtag = AstTag.FnSig then
          match namevtype with
          | .fnsig _ rettype _ =>
            match fnImplicitReturn isExpNode rettype value c.errs with
            | none => none
            | some (value1, errs1) =>
              varDclFnTypeCheck astPass
                { pstate := c.pstate, errs := errs1, nametbl := c.nametbl }
                (.vardcl tag namesym namevtype perm value1 scope)
          | _ => none
        else varDclTypeCheck astPass typeCoerces c name
    else if isVoidType vtype then
      some ({ pstate := c.pstate, errs := errorMsgNode c.errs name ErrorCode.ErrorNoType,
              nametbl := c.nametbl }, name)
    else some (c, name)
  | _ => none

/-- Function `varDclPass` of vardcl.c. -/
def varDclPass (astPass : AstWalk) (typeGetVtype : AstNode → AstNode)
    (isExpNode : AstNode → Bool) (typeCoerces : AstNode → AstNode → Bool × AstNode)
    (inodesHook : NameTbl → AstNode → Inodes AstNode → NameTbl)
    (nameUnhook : NameTbl → AstNode → NameTbl)
    (c : CompState) (name : AstNode) : Option (CompState × AstNode) :=
  match name with
  | .vardcl tag namesym vtype perm value scope =>
    match astPass c perm with
    | none => none
    | some (c1, perm1) =>
      match astPass c1 vtype with
      | none => none
      | some (c2, vtype1) =>
        match c2.pstate.pass with
        | Pass.NameResolution =>
          match (typeGetVtype vtype1).asttype with
          | none => none
          | some vtag =>
            if vtag = AstTag.FnSig then
              if !isNull value then
                varDclFnNameResolve astPass inodesHook nameUnhook c2
                  (.vardcl tag namesym vtype1 perm1 value scope)
              else some (c2, .vardcl tag namesym vtype1 perm1 value scope)
            else varDclNameResolve astPass c2 (.vardcl tag namesym vtype1 perm1 value scope)
        | Pass.TypeCheck =>
          varDclPassTypeCheck astPass isExpNode typeCoerces c2
            (.vardcl tag namesym vtype1 perm1 value scope) (typeGetVtype vtype1)
        | _ => some (c2, .vardcl tag namesym vtype1 perm1 value scope)
  | _ => none

/-! ## nameuse.c -/

/-- The test `name->mod == pstate->mod` on two modules, a comparison of addresses. -/
def sameModule : AstNode → AstNode → Bool
  | .module _ id1 _, .module _ id2 _ => decide (id1 = id2)
  | _, _ => false

/-- Function `nameUsePass` of nameuse.c. -/
def nameUsePass (c : CompState) (name : AstNode) : Option (CompState × AstNode) :=
  match name with
  | .nameuse tag namesym mod dclnode vtype =>
    match c.pstate.pass with
    | Pass.NameResolution =>
      let dclnode1 : Option AstNode :=
        if isNull mod || sameModule mod c.pstate.mod then
          some (nameLookup c.nametbl namesym)
        else
          match mod with
          | .module _ _ namednodes =>
            match inodesFind namednodes namesym with
            | some symnode => some symnode.2
            | none => some dclnode
          | _ => none
      match dclnode1 with
      | none => none
      | some dclnode1 =>
        if isNull dclnode1 then
          some ({ pstate := c.pstate,
                  errs := errorMsgNode c.errs (.nameuse tag namesym mod dclnode1 vtype)
                    ErrorCode.ErrorUnkName,
                  nametbl := c.nametbl },
                .nameuse tag namesym mod dclnode1 vtype)
        else some (c, .nameuse tag namesym mod dclnode1 vtype)
    | Pass.TypeCheck =>
      match dclnode.vtype with
      | none => none
      | some dclvtype => some (c, .nameuse tag namesym mod dclnode dclvtype)
    | _ => some (c, name)
  | _ => none

/-! ## copyexpr.c: address-of -/

/-- Function `addrTypeCheckBorrow` of copyexpr.c, on the sink. `permMatches` of the
permission module is not among the sources. -/
def addrTypeCheckBorrow (permMatches : AstNode → AstNode → Bool) (node ptype : AstNode)
    (errs : Errors) : Option Errors :=
  match node with
  | .addr _ exp _ =>
    match exp.asttype with
    | none => none
    | some exptag =>
      if exptag ≠ AstTag.VarNameUseTag then
        some (errorMsgNode errs node ErrorCode.ErrorNotLval)
      else
        match exp with
        | .nameuse _ _ _ dclnode _ =>
          match dclnode.asttype with
          | none => none
          | some dcltag =>
            if dcltag ≠ AstTag.VarNameDclNode then
              some (errorMsgNode errs node ErrorCode.ErrorNotLval)
            else
              match ptype, dclnode with
              | .ptr _ _ perm _, .vardcl _ _ _ dclperm _ _ =>
                if !permMatches perm dclperm then
                  some (errorMsgNode errs node ErrorCode.ErrorBadPerm)
                else some errs
              | _, _ => none
        | _ => none
  | _ => none

/-- Function `addrPass` of copyexpr.c. The macro `isValueNode` and the function
`allocAllocate` are not among the sources. An element type inferred for the reference
type is written into the type node the address-of node points to. -/
def addrPass (astPass : AstPass) (isValueNode : AstNode → Bool)
    (permMatches : AstNode → AstNode → Bool)
    (allocAllocate : Ctx → AstNode → Option (Ctx × AstNode))
    (c : Ctx) (node : AstNode) : Option (Ctx × AstNode) :=
  match node with
  | .addr tag exp vtype =>
    match astPass c exp with
    | none => none
    | some (c1, exp1) =>
      if c1.pstate.pass = Pass.TypeCheck then
        if !isValueNode exp1 then
          some ({ pstate := c1.pstate, errs := errorMsgNode c1.errs exp1 ErrorCode.ErrorBadTerm },
                .addr tag exp1 vtype)
        else
          match vtype with
          | .ptr ptag pvtype perm alloc =>
            let ptype : Option AstNode :=
              if isNull pvtype then
                match exp1.vtype with
                | none => none
                | some expvtype => some (.ptr ptag expvtype perm alloc)
              else some vtype
            match ptype with
            | none => none
            | some ptype =>
              if isVoidType alloc then
                match addrTypeCheckBorrow permMatches (.addr tag exp1 ptype) ptype c1.errs with
                | none => none
                | some errs1 => some ({ pstate := c1.pstate, errs := errs1 }, .addr tag exp1 ptype)
              else allocAllocate c1 (.addr tag exp1 ptype)
          | _ => none
      else some (c1, .addr tag exp1 vtype)
  | _ => none

/-! ## expr.c: dereference -/

/-- Function `derefPass` of expr.c. -/
def derefPass (astPass : AstPass) (c : Ctx) (node : AstNode) : Option (Ctx × AstNode) :=
  match node with
  | .deref tag exp vtype =>
    match astPass c exp with
    | none => none
    | some (c1, exp1) =>
      if c1.pstate.pass = Pass.TypeCheck then
        match exp1.vtype with
        | none => none
        | some ptype =>
          match ptype.asttype with
          | none => none
          | some ptag =>
            if ptag = AstTag.RefType ∨ ptag = AstTag.PtrType then
              match ptype with
              | .ptr _ pvtype _ _ => some (c1, .deref tag exp1 pvtype)
              | _ => none
            else
              some ({ pstate := c1.pstate,
                      errs := errorMsgNode c1.errs (.deref tag exp1 vtype) ErrorCode.ErrorNotPtr },
                    .deref tag exp1 vtype)
      else some (c1, .deref tag exp1 vtype)
  | _ => none

/-! ## expr.c: logic operators -/

/-- Function `newLogicAstNode` of expr.c, with the operands the parser then stores in
the node. The global `boolType` is not among the sources; it is a parameter. -/
def newLogicAstNode (boolType : AstNode) (typ : AstTag) (lexp rexp : AstNode) : AstNode :=
  .logic typ lexp rexp boolType

/-- Function `logicNotPass` of expr.c. The flag that `typeCoerces` returns is dropped;
the operand is the expression that `typeCoerces` leaves in the slot. -/
def logicNotPass (astPass : AstPass) (typeCoerces : AstNode → AstNode → Bool × AstNode)
    (boolType : AstNode) (c : Ctx) (node : AstNode) : Option (Ctx × AstNode) :=
  match node with
  | .logic tag lexp rexp vtype =>
    match astPass c lexp with
    | none => none
    | some (c1, lexp1) =>
      if c1.pstate.pass = Pass.TypeCheck then
        some (c1, .logic tag (typeCoerces boolType lexp1).2 rexp vtype)
      else some (c1, .logic tag lexp1 rexp vtype)
  | _ => none

/-- Function `logicPass` of expr.c. The flags that `typeCoerces` returns are dropped. -/
def logicPass (astPass : AstPass) (typeCoerces : AstNode → AstNode → Bool × AstNode)
    (boolType : AstNode) (c : Ctx) (node : AstNode) : Option (Ctx × AstNode) :=
  match node with
  | .logic tag lexp rexp vtype =>
    match astPass c lexp with
    | none => none
    | some (c1, lexp1) =>
      match astPass c1 rexp with
      | none => none
      | some (c2, rexp1) =>
        if c2.pstate.pass = Pass.TypeCheck then
          some (c2, .logic tag (typeCoerces boolType lexp1).2 (typeCoerces boolType rexp1).2
            vtype)
        else some (c2, .logic tag lexp1 rexp1 vtype)
  | _ => none

/-! ## struct.c -/

/-- Struct `StructNode` of struct.c with the name, the subtypes and the field list;
the field list is modelled as a node list of field declarations. -/
structure StructNode where
  namesym : Name
  subtypes : Nodes AstNode
  fields : Nodes AstNode

/-- Function `newStructNode` of struct.c (the name space and the method list that
`iNsTypeInit` sets up are left out). -/
def newStructNode (namesym : Name) : StructNode :=
  { namesym := namesym, subtypes := newNodes 0, fields := newNodes 8 }

/-- Function `structEqual` of struct.c: its body is `return 1`. -/
def structEqual (_node1 _node2 : StructNode) : Bool := true

/-! ## return.c -/

/-- The loop of `returnTypeCheck` over the return types: each return type is coerced to
from the value `*retnodesp`, which steps along. `iexpTypeCheckCoerce` is not among
the sources: it gives the state, the success flag and the expression left in the slot.
The values beyond the last return type are not looked at. -/
def returnCoerceElems (iexpTypeCheckCoerce : Ctx → AstNode → AstNode → Option (Ctx × Bool × AstNode)) :
    Ctx → List AstNode → List AstNode → Option (Ctx × List AstNode)
  | c, [], retnodes => some (c, retnodes)
  | _, _ :: _, [] => none
  | c, rettype :: rettypes, retnode :: retnodes =>
    match iexpTypeCheckCoerce c rettype retnode with
    | none => none
    | some (c1, ok, retnode1) =>
      match returnCoerceElems iexpTypeCheckCoerce
          (if !ok then
            { pstate := c1.pstate,
              errs := errorMsgNode c1.errs retnode1 ErrorCode.ErrorInvType }
          else c1) rettypes retnodes with
      | none => none
      | some (c2, retnodes1) => some (c2, retnode1 :: retnodes1)

/-- Function `returnTypeCheck` of return.c. `ifRemoveReturns` is not among the sources:
it gives the `if` node as it leaves it. -/
def returnTypeCheck (ifRemoveReturns : AstNode → AstNode)
    (iexpTypeCheckCoerce : Ctx → AstNode → AstNode → Option (Ctx × Bool × AstNode))
    (c : Ctx) (node : AstNode) : Option (Ctx × AstNode) :=
  match node with
  | .breakret tag exp0 dealias =>
    match exp0.asttype with
    | none => none
    | some exptag0 =>
      match c.pstate.fnsig with
      | .fnsig _ rettype _ =>
        match rettype.asttype with
        | none => none
        | some rettag =>
          if rettag = AstTag.TTupleTag then
            match (if exptag0 = AstTag.IfTag then ifRemoveReturns exp0 else exp0).asttype with
            | none => none
            | some exptag =>
              if exptag ≠ AstTag.VTupleTag then
                some ({ pstate := c.pstate,
                        errs := errorMsgNode c.errs
                          (if exptag0 = AstTag.IfTag then ifRemoveReturns exp0 else exp0)
                          ErrorCode.ErrorBadTerm },
                      .breakret tag
                        (if exptag0 = AstTag.IfTag then ifRemoveReturns exp0 else exp0) dealias)
              else
                match (if exptag0 = AstTag.IfTag then ifRemoveReturns exp0 else exp0), rettype with
                | .tuple etag retnodes evtype, .tuple _ rettypes _ =>
                  if rettypes.used > retnodes.used then
                    some ({ pstate := c.pstate,
                            errs := errorMsgNode c.errs (.tuple etag retnodes evtype)
                              ErrorCode.ErrorBadTerm },
                          .breakret tag (.tuple etag retnodes evtype) dealias)
                  else
                    match returnCoerceElems iexpTypeCheckCoerce c rettypes.elems
                        retnodes.elems with
                    | none => none
                    | some (c1, elems1) =>
                      some (c1, .breakret tag
                        (.tuple etag { avail := retnodes.avail, elems := elems1 } rettype)
                        dealias)
                | _, _ => none
          else
            match iexpTypeCheckCoerce c rettype
                (if exptag0 = AstTag.IfTag then ifRemoveReturns exp0 else exp0) with
            | none => none
            | some (c1, ok, exp1) =>
              if !ok then
                some ({ pstate := c1.pstate,
                        errs := errorMsgNode
                          (errorMsgNode c1.errs (.breakret tag exp1 dealias)
                            ErrorCode.ErrorInvType)
                          rettype ErrorCode.ErrorInvType },
                      .breakret tag exp1 dealias)
              else some (c1, .breakret tag exp1 dealias)
      | _ => none
  | _ => none

/-! ## block.c: blocks -/

/-- The loop `for (nodesFor(nodes, cnt, nodesp)) astPass(pstate, *nodesp)` on the state
with the name table. -/
def walkNodes (astPass : AstWalk) :
    CompState → List AstNode → Option (CompState × List AstNode)
  | c, [] => some (c, [])
  | c, node :: rest =>
    match astPass c node with
    | none => none
    | some (c1, node1) =>
      match walkNodes astPass c1 rest with
      | none => none
      | some (c2, rest1) => some (c2, node1 :: rest1)

/-- Function `blockPass` of block.c: the loop over the statements and nothing else. The
list of a block node is never `NULL` here (`newBlockNode` allocates it). -/
def blockPass (astPass : AstWalk) (c : CompState) (blk : AstNode) :
    Option (CompState × AstNode) :=
  match blk with
  | .block tag stmts =>
    match walkNodes astPass c stmts.elems with
    | none => none
    | some (c1, elems1) => some (c1, .block tag { avail := stmts.avail, elems := elems1 })
  | _ => none

/-! ## permission.h -/

/-- The permission types (`enum Perm` of permission.h), the field `ptype` of a
permission node. -/
inductive Perm where
  | UniPerm
  | MutPerm
  | ImmPerm
  | ConstPerm
  | MutxPerm
  | IdPerm
  | LockPerm
  deriving DecidableEq, Repr

/-- Modelled from the spec: `permMatches` of the permission module, which permission.h
declares and no source defines. The first argument is the permission asked for (the
target), the second one the permission at hand (the source), as `addrTypeCheckBorrow`
calls it. The table "Target accepts source": `uni` accepts `uni` only; `mut` accepts
`uni`, `mut`; `imm` accepts `uni`, `imm`; `const` accepts any; `mutx` accepts `uni`,
`mut`, `mutx`; `id` accepts any; `lock` accepts `lock`. -/
def permMatches : Perm → Perm → Bool
  | Perm.UniPerm, source => decide (source = Perm.UniPerm)
  | Perm.MutPerm, source => decide (source = Perm.UniPerm ∨ source = Perm.MutPerm)
  | Perm.ImmPerm, source => decide (source = Perm.UniPerm ∨ source = Perm.ImmPerm)
  | Perm.ConstPerm, _ => true
  | Perm.MutxPerm, source =>
    decide (source = Perm.UniPerm ∨ source = Perm.MutPerm ∨ source = Perm.MutxPerm)
  | Perm.IdPerm, _ => true
  | Perm.LockPerm, source => decide (source = Perm.LockPerm)

/-! ## genlexpr.c -/

/-- Function `genlSizeof` of genlexpr.c: the `size` it hands to `LLVMConstInt`. The LLVM
functions are not among the sources: `LLVMABISizeOfType vtype` stands for the call
`LLVMABISizeOfType(gen->datalayout, genlType(gen, vtype))` and `LLVMPointerSize` for the
result of `LLVMPointerSize(gen->datalayout)`. The variable `size` is an
`unsigned long long`: the sums wrap at `2^64`; the constant `0xFFFFFFFC` has 32 bits. -/
def genlSizeof (LLVMABISizeOfType : AstNode → Nat) (LLVMPointerSize : Nat)
    (vtype : AstNode) : Option Nat :=
  match vtype.asttype with
  | none => none
  | some t =>
    if t = AstTag.AllocType then
      if LLVMPointerSize = 32 then
        some (((LLVMABISizeOfType vtype % 2 ^ 64 + 3) % 2 ^ 64) &&& 0xFFFFFFFC)
      else
        some (((LLVMABISizeOfType vtype % 2 ^ 64 + 7) % 2 ^ 64) &&& 0xFFFFFFFFFFFFFFF8)
    else some (LLVMABISizeOfType vtype % 2 ^ 64)

/-! ## Definitions used to state the properties -/

/-- The field `value` of a variable declaration (its initializer or default value). -/
def dclValue : AstNode → Option AstNode
  | .vardcl _ _ _ _ value _ => some value
  | _ => none

/-- Whether the node is a declaration whose `namesym` is the given name symbol. -/
def methodNamed (methsym : Name) : AstNode → Bool
  | .vardcl _ namesym _ _ _ _ => decide (namesym = methsym)
  | _ => false

/-- The score `fnSigMatchesCall` gives the declaration's signature against the call. -/
def methodScore (fnSigMatchesCall : AstNode → AstNode → Int) (node : AstNode) : AstNode → Int
  | .vardcl _ _ vtype _ _ _ => fnSigMatchesCall vtype node
  | _ => 0

/-- The arguments as the coercions to the parameters leave them, in order. -/
def coercedArgs (typeCoerces : AstNode → AstNode → Bool × AstNode)
    (parms args : List AstNode) : List AstNode :=
  List.zipWith (fun parm arg => (typeCoerces parm arg).2) parms args

/-- One ErrorInvType per argument whose coercion to its parameter fails, anchored at
that argument, in the order of the arguments. -/
def coerceErrors (typeCoerces : AstNode → AstNode → Bool × AstNode)
    (parms args : List AstNode) : Errors :=
  (List.zipWith (fun parm arg => typeCoerces parm arg) parms args).filterMap
    (fun r => if r.1 then none else some (ErrorCode.ErrorInvType, r.2))

/-- The field `scope` of a variable declaration. -/
def dclScope : AstNode → Option Int
  | .vardcl _ _ _ _ _ scope => some scope
  | _ => none

/-- A function body with no statement, as `newBlockNode` allocates it. -/
def emptyBlock : AstNode := .block AstTag.BlockNode (newNodes 8)

/-! ## Concrete inputs -/

/-- A stand-in for `typeGetVtype` on concrete inputs: the node's `vtype` field when it
has one, else the node itself. -/
def exTypeGetVtype (node : AstNode) : AstNode :=
  match node.vtype with
  | some vtype => vtype
  | none => node

/-- A stand-in for `isMethodType` on concrete inputs: the nodes allocated as method types. -/
def exIsMethodType : AstNode → Bool
  | .methtype _ _ _ => true
  | _ => false

/-- The method `scale` (name symbol 7) of the struct `exStruct`; its one parameter is
the object `self` (name symbol 13). -/
def exMethod : AstNode :=
  .vardcl AstTag.VarNameDclNode 7
    (.fnsig AstTag.FnSigType .voidType
      (inodesAdd (newInodes 1) 13 (.vardcl AstTag.VarNameDclNode 13 (.typ (AstTag.other 4) 0)
        .null .null 1)))
    .null .null 0

/-- A struct type whose only method is `exMethod`. -/
def exStruct : AstNode :=
  .methtype (AstTag.other 1) 0 (Nodes.mk 1 [exMethod])

/-- The call `p.scale()`: the callee is the member name 7, the only argument is the
object `p` of type `exStruct`. -/
def exMethodCall : AstNode :=
  .fncall AstTag.FnCallNode (.nameuse AstTag.MbrNameUseTag 7 .null .null .voidType)
    (Nodes.mk 1 [.exp (AstTag.other 2) 0 exStruct]) .voidType

/-- A stand-in for `fnSigMatchesCall` that gives every signature the largest `int`. -/
def exScoreMax : AstNode → AstNode → Int := fun _ _ => 0x7fffffff

/-- A stand-in for `fnSigMatchesCall` that gives every signature the score 2. -/
def exScoreTwo : AstNode → AstNode → Int := fun _ _ => 2

/-- A stand-in for the `isExpNode` macro on concrete inputs: calls, assignments, name
uses, dereferences and the other typed expression nodes. -/
def exIsExpNode : AstNode → Bool
  | .fncall _ _ _ _ => true
  | .assign _ _ _ _ _ => true
  | .nameuse _ _ _ _ _ => true
  | .deref _ _ _ => true
  | .exp _ _ _ => true
  | _ => false

/-- The number type `i32`. -/
def exI32 : AstNode := .typ (AstTag.other 0) 32

/-- The function `g` (name symbol 3) with the signature `fn() i32`. -/
def exFnDcl : AstNode :=
  .vardcl AstTag.VarNameDclNode 3 (.fnsig AstTag.FnSigType exI32 (newInodes 0)) .null .null 0

/-- The call `g()` used as a statement. -/
def exCallStmt : AstNode :=
  .fncall AstTag.FnCallNode
    (.nameuse AstTag.VarNameUseTag 3 .null exFnDcl (.fnsig AstTag.FnSigType exI32 (newInodes 0)))
    (newNodes 0) exI32

/-- The declaration `imm x i32 = 0` (name symbol 5) of a local variable. -/
def exVarDcl : AstNode :=
  .vardcl AstTag.VarNameDclNode 5 exI32 (.typ (AstTag.other 3) 2)
    (.exp AstTag.ULitNode 0 exI32) 2

/-- A use of the variable `x`. -/
def exVarUse : AstNode := .nameuse AstTag.VarNameUseTag 5 .null exVarDcl exI32

/-- The literal `1` of type `i32`. -/
def exOne : AstNode := .exp AstTag.ULitNode 1 exI32

/-- A stand-in for `typeCoerces` on concrete inputs: every expression coerces as it is. -/
def exCoerces : AstNode → AstNode → Bool × AstNode := fun _ from1 => (true, from1)

/-- A stand-in for `permIsMutable` on concrete inputs: no lval may be written. -/
def exPermImmutable : AstNode → Bool := fun _ => false

/-- A stand-in for the dispatcher `astPass`: the walk of a child changes nothing. -/
def exAstPass : AstPass := fun c node => some (c, node)

/-- A state of the TypeCheck pass with an empty sink. -/
def exTypeCheckCtx : Ctx :=
  { pstate := { pass := Pass.TypeCheck, scope := 2, fnsig := .null, blk := .null, mod := .null },
    errs := [] }

/-- The call `g(1)` of the parameterless function `g`. -/
def exCallOneArg : AstNode :=
  .fncall AstTag.FnCallNode
    (.nameuse AstTag.VarNameUseTag 3 .null exFnDcl (.fnsig AstTag.FnSigType exI32 (newInodes 0)))
    (Nodes.mk 1 [exOne]) .voidType

/-- The literal `5` of type `i32`. -/
def exFive : AstNode := .exp AstTag.ULitNode 5 exI32

/-- The literal `7` of type `i32`. -/
def exSeven : AstNode := .exp AstTag.ULitNode 7 exI32

/-- The parameters `a i32` (name symbol 11) and `b i32 = 5` (name symbol 12). -/
def exParms : Inodes AstNode :=
  inodesAdd (inodesAdd (newInodes 2) 11 (.vardcl AstTag.VarNameDclNode 11 exI32 .null .null 1))
    12 (.vardcl AstTag.VarNameDclNode 12 exI32 .null exFive 1)

/-- A stand-in for `typeCoerces` on concrete inputs: no expression coerces, and the
expression is left as it is. -/
def exCoerceFails : AstNode → AstNode → Bool × AstNode := fun _ from1 => (false, from1)

/-- The signature `fn(self)` of the method `exMethod`. -/
def exMethodSig : AstNode :=
  .fnsig AstTag.FnSigType .voidType
    (inodesAdd (newInodes 1) 13 (.vardcl AstTag.VarNameDclNode 13 (.typ (AstTag.other 4) 0)
      .null .null 1))

/-- A stand-in for the dispatcher `astPass` on the full state: the walk of a child
changes nothing. -/
def exAstWalk : AstWalk := fun c node => some (c, node)

/-- A state of the TypeCheck pass at module level with an empty sink and an empty name
table. -/
def exTypeCheckState : CompState :=
  { pstate := { pass := Pass.TypeCheck, scope := 0, fnsig := .null, blk := .null, mod := .null },
    errs := [], nametbl := [] }

/-- The string literal `"hi"`; its type is the type node 40. -/
def exStrLit : AstNode := .exp AstTag.SLitNode 2 (.typ (AstTag.other 5) 40)

/-- The global declaration `imm s = "hi"` (name symbol 8, scope 0) without a
declared type. -/
def exGlobalStr : AstNode :=
  .vardcl AstTag.VarNameDclNode 8 .voidType (.typ (AstTag.other 3) 2) exStrLit 0

/-- The global declaration `imm u` (name symbol 9) with neither a type nor an
initializer. -/
def exUntypedDcl : AstNode :=
  .vardcl AstTag.VarNameDclNode 9 .voidType (.typ (AstTag.other 3) 2) .null 0

/-- A state of the NameResolution pass inside the block of a function body (scope
depth 2) with an empty sink and an empty name table. -/
def exNameResState : CompState :=
  { pstate := { pass := Pass.NameResolution, scope := 2, fnsig := .null,
                blk := emptyBlock, mod := .null },
    errs := [], nametbl := [] }

/-- The declaration `imm x i32 = 0` (name symbol 5) as the parser leaves it, with the
scope field 0. -/
def exDclFirst : AstNode :=
  .vardcl AstTag.VarNameDclNode 5 exI32 (.typ (AstTag.other 3) 2)
    (.exp AstTag.ULitNode 0 exI32) 0

/-- The declaration `imm x i32 = 1` (name symbol 5) as the parser leaves it. -/
def exDclSecond : AstNode :=
  .vardcl AstTag.VarNameDclNode 5 exI32 (.typ (AstTag.other 3) 2) exOne 0

/-- A use of the name symbol 99, which no declaration binds. -/
def exUnknownUse : AstNode := .nameuse AstTag.NameUseNode 99 .null .null .voidType

/-- The module with the address 1 whose named nodes hold the global declaration
`imm x i32 = 0` under the name symbol 5. -/
def exModule : AstNode :=
  .module AstTag.ModuleNode 1 (inodesAdd (newInodes 4) 5 exDclFirst)

/-- A state of the NameResolution pass at scope depth 2 while the module `exModule` is
resolved: the name `x` is bound to the global declaration and, on top of it, to the
local declaration `exVarDcl`. -/
def exModuleState : CompState :=
  { pstate := { pass := Pass.NameResolution, scope := 2, fnsig := .null,
                blk := emptyBlock, mod := exModule },
    errs := [],
    nametbl := nameHook (nameHook [] exModule exDclFirst 5) emptyBlock exVarDcl 5 }

/-- The state `exModuleState`, but while another module (address 2) is resolved. -/
def exOtherModuleState : CompState :=
  { pstate := { pass := Pass.NameResolution, scope := 2, fnsig := .null,
                blk := emptyBlock, mod := .module AstTag.ModuleNode 2 (newInodes 4) },
    errs := [],
    nametbl := nameHook (nameHook [] exModule exDclFirst 5) emptyBlock exVarDcl 5 }

/-- The use `exModule::x` of the name `x` with a reference to the module `exModule`. -/
def exQualifiedUse : AstNode := .nameuse AstTag.NameUseNode 5 exModule .null .voidType

/-- The permission `imm`, a type node. -/
def exImmPerm : AstNode := .typ (AstTag.other 3) 2

/-- The permission `mut`, a type node. -/
def exMutPerm : AstNode := .typ (AstTag.other 3) 1

/-- The borrow `&mut x` of the immutable variable `x`: the reference type has the
permission `mut`, the element type `i32` and the allocator void. -/
def exBorrowMut : AstNode :=
  .addr AstTag.AddrNode exVarUse (.ptr AstTag.RefType exI32 exMutPerm .voidType)

/-- The borrow `&imm 1` of a literal. -/
def exBorrowLit : AstNode :=
  .addr AstTag.AddrNode exOne (.ptr AstTag.RefType exI32 exImmPerm .voidType)

/-- A stand-in for `permMatches` on concrete inputs: no permission matches another. -/
def exPermMatchesNone : AstNode → AstNode → Bool := fun _ _ => false

/-- A stand-in for `allocAllocate` on concrete inputs: it changes nothing. -/
def exAllocAllocate : Ctx → AstNode → Option (Ctx × AstNode) := fun c node => some (c, node)

/-- A use of a variable `r` (name symbol 15) of the type `&imm i32`. -/
def exRefUse : AstNode :=
  .nameuse AstTag.VarNameUseTag 15 .null .null (.ptr AstTag.RefType exI32 exImmPerm .voidType)

/-- The struct `A` (name symbol 20) without fields. -/
def exStructNoField : StructNode := newStructNode 20

/-- The struct `B` (name symbol 21) with the one field `x i32`. -/
def exStructOneField : StructNode :=
  { namesym := 21, subtypes := newNodes 0,
    fields := Nodes.mk 8 [.vardcl AstTag.VarNameDclNode 5 exI32 exMutPerm .null 0] }

/-- The tuple type `(i32, i32)`. -/
def exTupleType : AstNode :=
  .tuple AstTag.TTupleTag (Nodes.mk 2 [exI32, exI32]) .null

/-- The value tuple `1, 5, 7`. -/
def exTupleThree : AstNode :=
  .tuple AstTag.VTupleTag (Nodes.mk 4 [exOne, exFive, exSeven])
    .voidType

/-- A state of the type check inside a function that returns `(i32, i32)`. -/
def exTupleFnCtx : Ctx :=
  { pstate := { pass := Pass.TypeCheck, scope := 2,
                fnsig := .fnsig AstTag.FnSigType exTupleType (newInodes 0),
                blk := .null, mod := .null },
    errs := [] }

/-- A stand-in for `iexpTypeCheckCoerce` on concrete inputs: every expression coerces as
it is. -/
def exCoerceOk : Ctx → AstNode → AstNode → Option (Ctx × Bool × AstNode) :=
  fun c _ node => some (c, true, node)

/-- A stand-in for the `isExpNode` macro that looks at the tag only: declarations,
blocks, expression statements and returns are not expressions. -/
def exIsExpTag (node : AstNode) : Bool :=
  match node.asttype with
  | none => false
  | some AstTag.ReturnNode => false
  | some AstTag.StmtExpNode => false
  | some AstTag.BlockNode => false
  | some AstTag.VarNameDclNode => false
  | some _ => true

/-- The type `bool`, standing for the global `boolType`. -/
def exBool : AstNode := .typ (AstTag.other 0) 1

/-- A state of the NameResolution pass inside a function body as `varDclFnNameResolve`
walks it (scope depth 1), with an empty sink and an empty name table. -/
def exFnBodyState : CompState :=
  { pstate := { pass := Pass.NameResolution, scope := 1, fnsig := .null,
                blk := emptyBlock, mod := .null },
    errs := [], nametbl := [] }

/-- A state of the NameResolution pass at module level (scope depth 0), with an empty
sink and an empty name table. -/
def exGlobalState : CompState :=
  { pstate := { pass := Pass.NameResolution, scope := 0, fnsig := .null,
                blk := .null, mod := .null },
    errs := [], nametbl := [] }

/-- A stand-in for `astPass` on concrete inputs: a variable declaration goes to
`varDclNameResolve`, any other node is left as it is. -/
def exDclWalk : AstWalk := fun c node =>
  match node with
  | .vardcl _ _ _ _ _ _ => varDclNameResolve exAstWalk c node
  | _ => some (c, node)

/-- A stand-in for `astPass` on concrete inputs that leaves the scope depth at 7. -/
def exScopeWalk : AstWalk := fun c node =>
  some ({ pstate := { c.pstate with scope := 7 }, errs := c.errs, nametbl := c.nametbl },
    node)

/-- The name symbol that stands for the address of an owner on concrete inputs. -/
def exOwnerId : AstNode → Option Name
  | .vardcl _ namesym _ _ _ _ => some namesym
  | _ => none

/-- A stand-in for `inodesHook` on concrete inputs: every node of the list is hooked
under the owner and its name symbol, in order. -/
def exInodesHook : NameTbl → AstNode → Inodes AstNode → NameTbl := fun tbl owner parms =>
  parms.elems.foldl (fun t symnode => nameHook t owner symnode.2 symnode.1) tbl

/-- A stand-in for `nameUnhook` on concrete inputs: the bindings hooked under the owner
are dropped; owners are compared by `exOwnerId`. -/
def exNameUnhook : NameTbl → AstNode → NameTbl := fun tbl owner =>
  tbl.filter (fun h => decide (exOwnerId h.owner ≠ exOwnerId owner))

/-- The function `fn f(a i32, b i32 = 5) i32` (name symbol 3) whose body holds the one
statement `g()`. -/
def exFnWithParms : AstNode :=
  .vardcl AstTag.VarNameDclNode 3 (.fnsig AstTag.FnSig exI32 exParms) .null
    (.block AstTag.BlockNode (Nodes.mk 8 [exCallStmt])) 0

/-- An alloc type; the embedded functions read its tag only. -/
def exAllocType : AstNode := .typ AstTag.AllocType 50

/-- A stand-in for `astPass` on concrete inputs that sends a variable declaration to
`varDclPass` and leaves any other node as it is. -/
def exDispatch : AstWalk := fun c node =>
  match node with
  | .vardcl _ _ _ _ _ _ =>
    varDclPass exAstWalk exTypeGetVtype exIsExpNode exCoerces (fun tbl _ _ => tbl)
      (fun tbl _ => tbl) c node
  | _ => some (c, node)

/-! ## Node lists -/

theorem nodesAdd_some {α : Type} (nodes nodes1 : Nodes α) (node : α)
    (h : nodesAdd nodes node = some nodes1) :
    nodes1.elems = nodes.elems ++ [node] ∧ nodes1.used = nodes.used + 1
    ∧ nodes1.used ≤ nodes1.avail
    ∧ (nodes.used < nodes.avail → nodes1.avail = nodes.avail)
    ∧ (nodes.avail ≤ nodes.used → nodes1.avail = nodes.avail * 2) := by
  have hu : nodes.used = nodes.elems.length := rfl
  unfold nodesAdd nodesGrow at h
  by_cases hfull : nodes.used ≥ nodes.avail
  · rw [if_pos hfull] at h
    by_cases hfit : nodes.avail <<< 1 < 2 ^ 31 ∧ nodes.used ≤ nodes.avail <<< 1
    · rw [if_pos hfit] at h
      simp only [newNodes, List.nil_append, Nodes.used] at h
      split at h
      · rename_i hlt
        simp only [Option.some.injEq] at h
        rw [← h]
        simp only [Nat.shiftLeft_eq, pow_one] at hlt
        refine ⟨rfl, ?_, ?_, ?_, ?_⟩
        · simp [Nodes.used]
        · simp only [Nodes.used, List.length_append, List.length_singleton,
            Nat.shiftLeft_eq, pow_one]
          omega
        · intro hlt2
          omega
        · intro _
          simp [Nat.shiftLeft_eq]
      · simp at h
    · rw [if_neg hfit] at h
      simp at h
  · rw [if_neg hfull] at h
    have hlt : nodes.used < nodes.avail := by omega
    simp only [hlt, ↓reduceIte, Option.some.injEq] at h
    rw [← h]
    refine ⟨rfl, ?_, ?_, ?_, ?_⟩
    · simp [Nodes.used]
    · simp only [Nodes.used, List.length_append, List.length_singleton]
      omega
    · intro _
      rfl
    · intro hle
      omega

theorem nodesAdd_defined {α : Type} (nodes : Nodes α) (node : α)
    (hpos : 0 < nodes.avail) (hcap : nodes.used ≤ nodes.avail) (hfit : nodes.avail < 2 ^ 30) :
    ∃ nodes1, nodesAdd nodes node = some nodes1 := by
  have hu : nodes.used = nodes.elems.length := rfl
  unfold nodesAdd nodesGrow
  by_cases hfull : nodes.used ≥ nodes.avail
  · rw [if_pos hfull]
    have hfit2 : nodes.avail <<< 1 < 2 ^ 31 ∧ nodes.used ≤ nodes.avail <<< 1 := by
      simp only [Nat.shiftLeft_eq, pow_one]
      omega
    rw [if_pos hfit2]
    have hlt : (Nodes.mk (nodes.avail <<< 1)
        ((newNodes (nodes.avail <<< 1)).elems ++ nodes.elems)).used
        < (Nodes.mk (nodes.avail <<< 1)
          ((newNodes (nodes.avail <<< 1)).elems ++ nodes.elems)).avail := by
      simp only [Nodes.used, newNodes, List.nil_append, Nat.shiftLeft_eq, pow_one]
      omega
    simp only [hlt, ↓reduceIte]
    exact ⟨_, rfl⟩
  · rw [if_neg hfull]
    have hlt : nodes.used < nodes.avail := by omega
    simp only [hlt, ↓reduceIte]
    exact ⟨_, rfl⟩

theorem nodesLast_dropLast {α : Type} (nodes : Nodes α) (last : α)
    (h : nodesLast nodes = some last) : nodes.elems = nodes.elems.dropLast ++ [last] := by
  unfold nodesLast at h
  rcases List.eq_nil_or_concat nodes.elems with hnil | ⟨front, x, hx⟩
  · simp [hnil] at h
  · rw [hx] at h ⊢
    simp at h
    simp [h]

theorem nodesAdd_after_last {α : Type} (nodes : Nodes α) (last node : α)
    (hlast : nodesLast nodes = some last) (hcap : nodes.used ≤ nodes.avail)
    (hfit : nodes.used = nodes.avail → nodes.avail < 2 ^ 30) :
    ∃ nodes1, nodesAdd nodes node = some nodes1 := by
  have hpos : 0 < nodes.used := by
    have h := congrArg List.length (nodesLast_dropLast nodes last hlast)
    simp only [List.length_append, List.length_singleton] at h
    show 0 < nodes.elems.length
    omega
  by_cases hfull : nodes.used = nodes.avail
  · exact nodesAdd_defined nodes node (by omega) hcap (hfit hfull)
  · have hlt : nodes.used < nodes.avail := by omega
    have hnf : ¬ nodes.used ≥ nodes.avail := by omega
    exact ⟨{ avail := nodes.avail, elems := nodes.elems ++ [node] },
      by simp [nodesAdd, nodesGrow, hnf, hlt]⟩

/-! ## Implicit return -/

/-- C2: with the void return type and a block whose last statement is a node, a last
statement other than a return gets one return-void node appended after the unchanged
statements, and a last statement that is a return leaves the block as it is; no error
is recorded. The statement list is within its capacity, and the capacity below `2^30`,
where it has to be doubled. -/
theorem fnImplicitReturn_void (isExpNode : AstNode → Bool) (blktag : AstTag)
    (stmts : Nodes AstNode) (laststmt : AstNode) (lasttag : AstTag) (errs : Errors)
    (hlast : nodesLast stmts = some laststmt) (htag : laststmt.asttype = some lasttag)
    (hcap : stmts.used ≤ stmts.avail) (hfit : stmts.used = stmts.avail → stmts.avail < 2 ^ 30) :
    (lasttag ≠ AstTag.ReturnNode →
      ∃ stmts1, fnImplicitReturn isExpNode .voidType (.block blktag stmts) errs
          = some (.block blktag stmts1, errs)
        ∧ stmts1.elems = stmts.elems ++ [.stmtexp AstTag.ReturnNode .voidType]
        ∧ stmts1.used = stmts.used + 1)
    ∧ (lasttag = AstTag.ReturnNode →
      fnImplicitReturn isExpNode .voidType (.block blktag stmts) errs
        = some (.block blktag stmts, errs)) := by
  constructor
  · intro hne
    obtain ⟨stmts1, hadd⟩ := nodesAdd_after_last stmts laststmt newReturnNode hlast hcap hfit
    obtain ⟨helems, hused, -⟩ := nodesAdd_some stmts stmts1 newReturnNode hadd
    refine ⟨stmts1, ?_, ?_, hused⟩
    · simp [fnImplicitReturn, hlast, htag, isVoidType, hne, hadd]
    · simpa [newReturnNode] using helems
  · intro heq
    simp [fnImplicitReturn, hlast, htag, isVoidType, heq]

/-- C3: with a return type other than void and a block whose last statement is an
expression node, the last statement is replaced by a return node holding it; the
earlier statements and the statement count are unchanged and no error is recorded. -/
theorem fnImplicitReturn_wraps_expression (isExpNode : AstNode → Bool) (rettype : AstNode)
    (blktag : AstTag) (stmts : Nodes AstNode) (laststmt : AstNode) (lasttag : AstTag)
    (errs : Errors)
    (hret : isVoidType rettype = false)
    (hlast : nodesLast stmts = some laststmt) (htag : laststmt.asttype = some lasttag)
    (hexp : isExpNode laststmt = true) :
    ∃ stmts1, fnImplicitReturn isExpNode rettype (.block blktag stmts) errs
        = some (.block blktag stmts1, errs)
      ∧ stmts1.elems = stmts.elems.dropLast ++ [.stmtexp AstTag.ReturnNode laststmt]
      ∧ nodesLast stmts1 = some (.stmtexp AstTag.ReturnNode laststmt)
      ∧ stmts1.used = stmts.used := by
  refine ⟨nodesSetLast stmts (.stmtexp AstTag.ReturnNode laststmt), ?_, ?_, ?_, ?_⟩
  · simp [fnImplicitReturn, hlast, htag, hret, hexp]
  · simp [nodesSetLast]
  · simp [nodesSetLast, nodesLast]
  · have h := congrArg List.length (nodesLast_dropLast stmts laststmt hlast)
    simp [Nodes.used, nodesSetLast] at h ⊢
    omega

/-- C4: with a return type other than void and a block whose last statement is a node,
the error ErrorNoRet is recorded if and only if the last statement is neither an
expression node nor a return node; it is then anchored at that statement and the block
is left as it was. -/
theorem fnImplicitReturn_ErrorNoRet_iff (isExpNode : AstNode → Bool) (rettype : AstNode)
    (blktag : AstTag) (stmts : Nodes AstNode) (laststmt : AstNode) (lasttag : AstTag)
    (errs : Errors)
    (hret : isVoidType rettype = false)
    (hlast : nodesLast stmts = some laststmt) (htag : laststmt.asttype = some lasttag) :
    ∃ blk1 new, fnImplicitReturn isExpNode rettype (.block blktag stmts) errs
        = some (blk1, errs ++ new)
      ∧ (ErrorCode.ErrorNoRet ∈ errorCodes new
          ↔ (isExpNode laststmt = false ∧ lasttag ≠ AstTag.ReturnNode))
      ∧ ((isExpNode laststmt = false ∧ lasttag ≠ AstTag.ReturnNode) →
          blk1 = .block blktag stmts ∧ new = [(ErrorCode.ErrorNoRet, laststmt)]) := by
  by_cases hexp : isExpNode laststmt = true
  · refine ⟨.block blktag (nodesSetLast stmts (.stmtexp AstTag.ReturnNode laststmt)), [], ?_, ?_, ?_⟩
    · simp [fnImplicitReturn, hlast, htag, hret, hexp]
    · simp [errorCodes, hexp]
    · simp [hexp]
  · have hexp : isExpNode laststmt = false := by simpa using hexp
    by_cases hr : lasttag = AstTag.ReturnNode
    · refine ⟨.block blktag stmts, [], ?_, ?_, ?_⟩
      · simp [fnImplicitReturn, hlast, htag, hret, hexp, hr]
      · simp [errorCodes, hr]
      · simp [hr]
    · refine ⟨.block blktag stmts, [(ErrorCode.ErrorNoRet, laststmt)], ?_, ?_, ?_⟩
      · simp [fnImplicitReturn, hlast, htag, hret, hexp, hr, errorMsgNode]
      · simp [errorCodes, hexp, hr]
      · simp

/-- C5: on a function body without statements, whatever its capacity and whatever the
return type, the implicit-return step has no defined result: it reads the slot before
the first one. No block ending in a return comes out of it, and no error either. -/
theorem fnImplicitReturn_empty_undefined (isExpNode : AstNode → Bool) (rettype : AstNode)
    (blktag : AstTag) (size : Nat) (errs : Errors) :
    fnImplicitReturn isExpNode rettype (.block blktag (newNodes size)) errs = none := by
  have hlast : nodesLast (newNodes size : Nodes AstNode) = none := rfl
  simp [fnImplicitReturn, hlast]

/-- C6: on the empty function body with the return type i32 (a type node other than
void) no result is defined, so no sink holding ErrorNoRet comes out of the step. -/
theorem fnImplicitReturn_empty_nonvoid_no_error (isExpNode : AstNode → Bool) :
    isVoidType (.typ (AstTag.other 0) 32) = false
    ∧ ¬ ∃ blk1 errs1,
        fnImplicitReturn isExpNode (.typ (AstTag.other 0) 32) emptyBlock [] = some (blk1, errs1)
        ∧ ErrorCode.ErrorNoRet ∈ errorCodes errs1 := by
  refine ⟨rfl, ?_⟩
  rintro ⟨blk1, errs1, h, -⟩
  simp [fnImplicitReturn, emptyBlock, nodesLast, newNodes] at h

/-- C8: the function isLval is defined on every node that has a tag, and there it
answers true exactly for the tags VarNameUseTag, DerefNode and DotOpNode. -/
theorem isLval_eq (node : AstNode) :
    isLval node = node.asttype.map (fun t =>
      decide (t = AstTag.VarNameUseTag ∨ t = AstTag.DerefNode ∨ t = AstTag.DotOpNode)) := by
  unfold isLval
  cases h : node.asttype with
  | none => rfl
  | some t => cases t <;> simp

/-! ## Assignment -/

/-- C7: in the TypeCheck pass, once both sides have been walked, assignPass records
exactly the first failing check: ErrorBadLval at the left side when it is not an lval;
else ErrorInvType at the right side when it does not coerce to the left side; else
ErrorNoMut at the left side when its permission is not mutable; else nothing. -/
theorem assignPass_first_failing_check (astPass : AstPass)
    (typeCoerces : AstNode → AstNode → Bool × AstNode) (permIsMutable : AstNode → Bool)
    (c c1 c2 : Ctx) (tag : AstTag) (assignType : Int) (lval rval vtype lval1 rval1 : AstNode)
    (lvaltag : AstTag)
    (hl : astPass c lval = some (c1, lval1)) (hr : astPass c1 rval = some (c2, rval1))
    (hpass : c2.pstate.pass = Pass.TypeCheck)
    (hltag : lval1.asttype = some lvaltag)
    (hrv : rval1.vtype ≠ none) (hcv : (typeCoerces lval1 rval1).2.vtype ≠ none) :
    ∃ node1 new,
      assignPass astPass typeCoerces permIsMutable c (.assign tag assignType lval rval vtype)
        = some ({ pstate := c2.pstate, errs := c2.errs ++ new }, node1)
      ∧ (isLval lval1 = some false → new = [(ErrorCode.ErrorBadLval, lval1)])
      ∧ (isLval lval1 = some true → (typeCoerces lval1 rval1).1 = false →
          new = [(ErrorCode.ErrorInvType, (typeCoerces lval1 rval1).2)])
      ∧ (isLval lval1 = some true → (typeCoerces lval1 rval1).1 = true →
          permIsMutable lval1 = false → new = [(ErrorCode.ErrorNoMut, lval1)])
      ∧ (isLval lval1 = some true → (typeCoerces lval1 rval1).1 = true →
          permIsMutable lval1 = true → new = []) := by
  obtain ⟨rvt, hrvt⟩ := Option.ne_none_iff_exists'.mp hrv
  obtain ⟨cvt, hcvt⟩ := Option.ne_none_iff_exists'.mp hcv
  have hlv : isLval lval1 = some (decide (lvaltag = AstTag.VarNameUseTag
      ∨ lvaltag = AstTag.DerefNode ∨ lvaltag = AstTag.DotOpNode)) := by
    unfold isLval
    rw [hltag]
    cases lvaltag <;> simp
  by_cases hisl : (decide (lvaltag = AstTag.VarNameUseTag
      ∨ lvaltag = AstTag.DerefNode ∨ lvaltag = AstTag.DotOpNode)) = true
  · rw [hisl] at hlv
    by_cases hco : (typeCoerces lval1 rval1).1 = true
    · by_cases hmu : permIsMutable lval1 = true
      · refine ⟨.assign tag assignType lval1 (typeCoerces lval1 rval1).2 cvt, [], ?_, ?_⟩
        · simp [assignPass, hl, hr, hpass, assignTypeCheck, hlv, hco, hmu, hcvt]
        · simp [hlv, hco, hmu]
      · have hmu : permIsMutable lval1 = false := by simpa using hmu
        refine ⟨.assign tag assignType lval1 (typeCoerces lval1 rval1).2 cvt,
          [(ErrorCode.ErrorNoMut, lval1)], ?_, ?_⟩
        · simp [assignPass, hl, hr, hpass, assignTypeCheck, hlv, hco, hmu, hcvt, errorMsgNode]
        · simp [hlv, hco, hmu]
    · have hco : (typeCoerces lval1 rval1).1 = false := by simpa using hco
      refine ⟨.assign tag assignType lval1 (typeCoerces lval1 rval1).2 cvt,
        [(ErrorCode.ErrorInvType, (typeCoerces lval1 rval1).2)], ?_, ?_⟩
      · simp [assignPass, hl, hr, hpass, assignTypeCheck, hlv, hco, hcvt, errorMsgNode]
      · simp [hlv, hco]
  · have hisl : (decide (lvaltag = AstTag.VarNameUseTag
        ∨ lvaltag = AstTag.DerefNode ∨ lvaltag = AstTag.DotOpNode)) = false := by
      simpa using hisl
    rw [hisl] at hlv
    refine ⟨.assign tag assignType lval1 rval1 rvt, [(ErrorCode.ErrorBadLval, lval1)], ?_, ?_⟩
    · simp [assignPass, hl, hr, hpass, assignTypeCheck, hlv, hrvt, errorMsgNode]
    · simp [hlv]

/-! ## Method dispatch -/

theorem dclValue_isSome (m : AstNode) (h : (dclValue m).isSome = true) :
    ∃ t n vt p v s, m = AstNode.vardcl t n vt p v s := by
  cases m <;> simp [dclValue] at h ⊢

theorem fnCallFindMethodLoop_spec (f : AstNode → AstNode → Int) (node : AstNode)
    (methsym : Name) :
    ∀ (rest pre : List AstNode) (bestnbr : Int) (best : AstNode),
    (∀ m ∈ rest, (dclValue m).isSome = true) →
    (∀ m ∈ rest, methodNamed methsym m = true →
        0 ≤ methodScore f node m ∧ methodScore f node m < 0x7fffffff) →
    (∀ m ∈ pre, methodNamed methsym m = true → methodScore f node m ≠ 1) →
    ((isNull best = true ∧ bestnbr = 0x7fffffff ∧
        ∀ m ∈ pre, methodNamed methsym m = true → methodScore f node m = 0)
      ∨ (isNull best = false ∧ methodNamed methsym best = true
          ∧ methodScore f node best = bestnbr ∧ 1 < bestnbr
          ∧ (∀ m ∈ pre, methodNamed methsym m = true → 0 < methodScore f node m →
              bestnbr ≤ methodScore f node m)
          ∧ ∃ p1 p2, pre = p1 ++ best :: p2 ∧
              ∀ m ∈ p1, methodNamed methsym m = true → methodScore f node m ≠ bestnbr)) →
    ∃ r, fnCallFindMethodLoop f node methsym rest bestnbr best = some r ∧
      (isNull r = true ↔
        ∀ m ∈ pre ++ rest, methodNamed methsym m = true → methodScore f node m = 0) ∧
      (isNull r = false → ∃ p1 p2, pre ++ rest = p1 ++ r :: p2
          ∧ methodNamed methsym r = true ∧ 0 < methodScore f node r
          ∧ (∀ m ∈ pre ++ rest, methodNamed methsym m = true → 0 < methodScore f node m →
              methodScore f node r ≤ methodScore f node m)
          ∧ ∀ m ∈ p1, methodNamed methsym m = true →
              methodScore f node m ≠ methodScore f node r) := by
  intro rest
  induction rest with
  | nil =>
    intro pre bestnbr best _ _ _ hinv
    refine ⟨best, by simp [fnCallFindMethodLoop], ?_, ?_⟩
    · rcases hinv with ⟨hnull, _, hzero⟩ | ⟨hnn, hnamed, hscore, hgt, _, p1, p2, hpre, _⟩
      · simpa [hnull] using hzero
      · simp only [hnn, List.append_nil, Bool.false_eq_true, false_iff]
        intro hall
        have hmem : best ∈ pre := by rw [hpre]; simp
        have := hall best hmem hnamed
        omega
    · intro hnn
      rcases hinv with ⟨hnull, _, _⟩ | ⟨_, hnamed, hscore, hgt, hmin, p1, p2, hpre, hfirst⟩
      · rw [hnull] at hnn; cases hnn
      · refine ⟨p1, p2, by simpa using hpre, hnamed, by omega, ?_, ?_⟩
        · intro m hm hn hpos
          rw [hscore]
          exact hmin m (by simpa using hm) hn hpos
        · intro m hm hn
          rw [hscore]
          exact hfirst m hm hn
  | cons method rest ih =>
    intro pre bestnbr best hdcl hrange hone hinv
    obtain ⟨t, n, vt, p, v, s, rfl⟩ : ∃ t n vt p v s, method = AstNode.vardcl t n vt p v s := by
      exact dclValue_isSome method (hdcl method (by simp))
    have hdcl1 : ∀ m ∈ rest, (dclValue m).isSome = true :=
      fun m hm => hdcl m (List.mem_cons_of_mem _ hm)
    have hrange1 : ∀ m ∈ rest, methodNamed methsym m = true →
        0 ≤ methodScore f node m ∧ methodScore f node m < 0x7fffffff :=
      fun m hm => hrange m (List.mem_cons_of_mem _ hm)
    have happ : pre ++ AstNode.vardcl t n vt p v s :: rest
        = (pre ++ [AstNode.vardcl t n vt p v s]) ++ rest := by simp
    rw [happ]
    by_cases hn : n = methsym
    · have hnamed : methodNamed methsym (AstNode.vardcl t n vt p v s) = true := by
        simp [methodNamed, hn]
      have hsc : methodScore f node (AstNode.vardcl t n vt p v s) = f vt node := rfl
      have hr := hrange _ (by simp) hnamed
      rw [hsc] at hr
      by_cases h0 : f vt node = 0
      · have hstep : fnCallFindMethodLoop f node methsym (AstNode.vardcl t n vt p v s :: rest)
            bestnbr best = fnCallFindMethodLoop f node methsym rest bestnbr best := by
          simp [fnCallFindMethodLoop, hn, h0]
        rw [hstep]
        apply ih (pre ++ [AstNode.vardcl t n vt p v s]) bestnbr best hdcl1 hrange1
        · intro m hm hnm
          rcases List.mem_append.mp hm with hm | hm
          · exact hone m hm hnm
          · simp at hm; subst hm; rw [hsc, h0]; decide
        · rcases hinv with ⟨hnull, hb, hzero⟩ | ⟨hnn, hbn, hbs, hgt, hmin, p1, p2, hpre, hfirst⟩
          · left
            refine ⟨hnull, hb, ?_⟩
            intro m hm hnm
            rcases List.mem_append.mp hm with hm | hm
            · exact hzero m hm hnm
            · simp at hm; subst hm; rw [hsc, h0]
          · right
            refine ⟨hnn, hbn, hbs, hgt, ?_, p1, p2 ++ [AstNode.vardcl t n vt p v s], ?_, hfirst⟩
            · intro m hm hnm hpos
              rcases List.mem_append.mp hm with hm | hm
              · exact hmin m hm hnm hpos
              · simp at hm; subst hm; rw [hsc, h0] at hpos; omega
            · rw [hpre]; simp
      · by_cases h1 : f vt node = 1
        · refine ⟨AstNode.vardcl t n vt p v s, by simp [fnCallFindMethodLoop, hn, h1], ?_, ?_⟩
          · simp only [isNull, Bool.false_eq_true, false_iff]
            intro hall
            have := hall (AstNode.vardcl t n vt p v s) (by simp) hnamed
            rw [hsc, h1] at this
            omega
          · intro _
            refine ⟨pre, rest, by simp, hnamed, by rw [hsc, h1]; decide, ?_, ?_⟩
            · intro m hm hnm hpos
              rw [hsc, h1]
              omega
            · intro m hm hnm
              rw [hsc, h1]
              exact hone m hm hnm
        · by_cases hlt : f vt node < bestnbr
          · have hstep : fnCallFindMethodLoop f node methsym
                (AstNode.vardcl t n vt p v s :: rest) bestnbr best
                = fnCallFindMethodLoop f node methsym rest (f vt node)
                    (AstNode.vardcl t n vt p v s) := by
              simp [fnCallFindMethodLoop, hn, h0, h1, hlt]
            rw [hstep]
            apply ih (pre ++ [AstNode.vardcl t n vt p v s]) (f vt node)
              (AstNode.vardcl t n vt p v s) hdcl1 hrange1
            · intro m hm hnm
              rcases List.mem_append.mp hm with hm | hm
              · exact hone m hm hnm
              · simp at hm; subst hm; rw [hsc]; exact h1
            · right
              refine ⟨rfl, hnamed, hsc, by omega, ?_, pre, [], rfl, ?_⟩
              · intro m hm hnm hpos
                rcases List.mem_append.mp hm with hm | hm
                · rcases hinv with ⟨_, _, hzero⟩ | ⟨_, _, _, _, hmin, _⟩
                  · have := hzero m hm hnm; omega
                  · have := hmin m hm hnm hpos; omega
                · simp at hm; subst hm; rw [hsc]
              · intro m hm hnm
                rcases hinv with ⟨_, _, hzero⟩ | ⟨_, _, _, _, hmin, _⟩
                · have := hzero m hm hnm; omega
                · intro heq
                  have := hmin m hm hnm (by omega)
                  omega
          · have hstep : fnCallFindMethodLoop f node methsym
                (AstNode.vardcl t n vt p v s :: rest) bestnbr best
                = fnCallFindMethodLoop f node methsym rest bestnbr best := by
              simp [fnCallFindMethodLoop, hn, h0, h1, hlt]
            rw [hstep]
            apply ih (pre ++ [AstNode.vardcl t n vt p v s]) bestnbr best hdcl1 hrange1
            · intro m hm hnm
              rcases List.mem_append.mp hm with hm | hm
              · exact hone m hm hnm
              · simp at hm; subst hm; rw [hsc]; exact h1
            · rcases hinv with ⟨_, hb, _⟩ | ⟨hnn, hbn, hbs, hgt, hmin, p1, p2, hpre, hfirst⟩
              · omega
              · right
                refine ⟨hnn, hbn, hbs, hgt, ?_, p1, p2 ++ [AstNode.vardcl t n vt p v s], ?_,
                  hfirst⟩
                · intro m hm hnm hpos
                  rcases List.mem_append.mp hm with hm | hm
                  · exact hmin m hm hnm hpos
                  · simp at hm; subst hm; rw [hsc]; omega
                · rw [hpre]; simp
    · have hnamed : methodNamed methsym (AstNode.vardcl t n vt p v s) = false := by
        simp [methodNamed, hn]
      have hstep : fnCallFindMethodLoop f node methsym (AstNode.vardcl t n vt p v s :: rest)
          bestnbr best = fnCallFindMethodLoop f node methsym rest bestnbr best := by
        simp [fnCallFindMethodLoop, hn]
      rw [hstep]
      apply ih (pre ++ [AstNode.vardcl t n vt p v s]) bestnbr best hdcl1 hrange1
      · intro m hm hnm
        rcases List.mem_append.mp hm with hm | hm
        · exact hone m hm hnm
        · simp at hm; subst hm; rw [hnamed] at hnm; cases hnm
      · rcases hinv with ⟨hnull, hb, hzero⟩ | ⟨hnn, hbn, hbs, hgt, hmin, p1, p2, hpre, hfirst⟩
        · left
          refine ⟨hnull, hb, ?_⟩
          intro m hm hnm
          rcases List.mem_append.mp hm with hm | hm
          · exact hzero m hm hnm
          · simp at hm; subst hm; rw [hnamed] at hnm; cases hnm
        · right
          refine ⟨hnn, hbn, hbs, hgt, ?_, p1, p2 ++ [AstNode.vardcl t n vt p v s], ?_, hfirst⟩
          · intro m hm hnm hpos
            rcases List.mem_append.mp hm with hm | hm
            · exact hmin m hm hnm hpos
            · simp at hm; subst hm; rw [hnamed] at hnm; cases hnm
          · rw [hpre]; simp


/-- C1 (counterexample): a score function that returns only non-negative integers, a
call whose first argument has a method type, and one method of the searched name whose
score 0x7fffffff is strictly positive: fnCallFindMethod returns NULL. -/
theorem fnCallFindMethod_sentinel_score_counterexample :
    (∀ vtype node : AstNode, 0 ≤ exScoreMax vtype node)
    ∧ fnCallObjType exTypeGetVtype exMethodCall = some exStruct
    ∧ exIsMethodType exStruct = true
    ∧ methodNamed 7 exMethod = true
    ∧ 0 < methodScore exScoreMax exMethodCall exMethod
    ∧ fnCallFindMethod exTypeGetVtype exIsMethodType exScoreMax exMethodCall 7 []
        = some (.null, []) := by
  refine ⟨fun _ _ => by simp [exScoreMax], rfl, rfl, rfl, by decide, ?_⟩
  rfl

/-- C1 (amended): for a call whose first argument's type, after stripping one reference
or pointer layer, is a method type whose methods are declarations, and a score function
whose scores of the methods named methsym are non-negative and below 0x7fffffff,
fnCallFindMethod records nothing and returns the first-declared method among those named
methsym whose score is the smallest strictly positive one; it returns NULL exactly when
no method of that name has a strictly positive score. -/
theorem fnCallFindMethod_best (typeGetVtype : AstNode → AstNode)
    (isMethodType : AstNode → Bool) (f : AstNode → AstNode → Int) (node : AstNode)
    (methsym : Name) (errs : Errors) (t : AstTag) (id : Nat) (methods : Nodes AstNode)
    (hobj : fnCallObjType typeGetVtype node = some (.methtype t id methods))
    (hmt : isMethodType (.methtype t id methods) = true)
    (hdcl : ∀ m ∈ methods.elems, (dclValue m).isSome = true)
    (hrange : ∀ m ∈ methods.elems, methodNamed methsym m = true →
      0 ≤ methodScore f node m ∧ methodScore f node m < 0x7fffffff) :
    ∃ r, fnCallFindMethod typeGetVtype isMethodType f node methsym errs = some (r, errs)
      ∧ (isNull r = true ↔
          ∀ m ∈ methods.elems, methodNamed methsym m = true → ¬ 0 < methodScore f node m)
      ∧ (isNull r = false → ∃ p1 p2, methods.elems = p1 ++ r :: p2
          ∧ methodNamed methsym r = true ∧ 0 < methodScore f node r
          ∧ (∀ m ∈ methods.elems, methodNamed methsym m = true → 0 < methodScore f node m →
              methodScore f node r ≤ methodScore f node m)
          ∧ ∀ m ∈ p1, methodNamed methsym m = true →
              methodScore f node m ≠ methodScore f node r) := by
  obtain ⟨r, hloop, hnull, hbest⟩ := fnCallFindMethodLoop_spec f node methsym methods.elems []
    0x7fffffff .null hdcl hrange (by simp) (Or.inl ⟨rfl, rfl, by simp⟩)
  refine ⟨r, ?_, ?_, ?_⟩
  · simp [fnCallFindMethod, hobj, hmt, hloop]
  · rw [hnull]
    simp only [List.nil_append]
    constructor
    · intro h m hm hn
      rw [h m hm hn]
      decide
    · intro h m hm hn
      have h1 := h m hm hn
      have h2 := (hrange m hm hn).1
      omega
  · simpa using hbest

/-- C1 (witness): with the score 2 the only method of the searched name is returned. -/
theorem fnCallFindMethod_best_witness :
    ∃ r, fnCallFindMethod exTypeGetVtype exIsMethodType exScoreTwo exMethodCall 7 []
        = some (r, [])
      ∧ (isNull r = true ↔ ∀ m ∈ (Nodes.mk 1 [exMethod]).elems,
          methodNamed 7 m = true → ¬ 0 < methodScore exScoreTwo exMethodCall m)
      ∧ (isNull r = false → ∃ p1 p2, (Nodes.mk 1 [exMethod]).elems = p1 ++ r :: p2
          ∧ methodNamed 7 r = true ∧ 0 < methodScore exScoreTwo exMethodCall r
          ∧ (∀ m ∈ (Nodes.mk 1 [exMethod]).elems, methodNamed 7 m = true →
              0 < methodScore exScoreTwo exMethodCall m →
              methodScore exScoreTwo exMethodCall r
                ≤ methodScore exScoreTwo exMethodCall m)
          ∧ ∀ m ∈ p1, methodNamed 7 m = true →
              methodScore exScoreTwo exMethodCall m
                ≠ methodScore exScoreTwo exMethodCall r) :=
  fnCallFindMethod_best exTypeGetVtype exIsMethodType exScoreTwo exMethodCall 7 []
    (AstTag.other 1) 0 (Nodes.mk 1 [exMethod]) rfl rfl
    (by intro m hm; simp at hm; subst hm; rfl)
    (by intro m hm _; simp at hm; subst hm; decide)

/-! ## Instances on concrete inputs -/

/-- C2 (witness): the body holding the one statement `g()` and the void return type
gets a return-void appended. -/
theorem fnImplicitReturn_void_witness :
    ∃ stmts1, fnImplicitReturn exIsExpNode .voidType
        (.block AstTag.BlockNode (Nodes.mk 8 [exCallStmt])) []
        = some (.block AstTag.BlockNode stmts1, [])
      ∧ stmts1.elems = (Nodes.mk 8 [exCallStmt]).elems
          ++ [.stmtexp AstTag.ReturnNode .voidType]
      ∧ stmts1.used = (Nodes.mk 8 [exCallStmt]).used + 1 :=
  (fnImplicitReturn_void exIsExpNode AstTag.BlockNode (Nodes.mk 8 [exCallStmt])
    exCallStmt AstTag.FnCallNode [] rfl rfl (by decide) (by decide)).1 (by decide)

/-- C3 (witness): the body holding the one statement `g()` and the return type i32. -/
theorem fnImplicitReturn_wraps_expression_witness :
    ∃ stmts1, fnImplicitReturn exIsExpNode exI32
        (.block AstTag.BlockNode (Nodes.mk 8 [exCallStmt])) []
        = some (.block AstTag.BlockNode stmts1, [])
      ∧ stmts1.elems = (Nodes.mk 8 [exCallStmt]).elems.dropLast
          ++ [.stmtexp AstTag.ReturnNode exCallStmt]
      ∧ nodesLast stmts1 = some (.stmtexp AstTag.ReturnNode exCallStmt)
      ∧ stmts1.used = (Nodes.mk 8 [exCallStmt]).used :=
  fnImplicitReturn_wraps_expression exIsExpNode exI32 AstTag.BlockNode
    (Nodes.mk 8 [exCallStmt]) exCallStmt AstTag.FnCallNode [] rfl rfl rfl rfl

/-- C4 (witness): the body holding the one declaration `imm x i32 = 0`, which is
neither an expression nor a return, and the return type i32. -/
theorem fnImplicitReturn_ErrorNoRet_iff_witness :
    ∃ blk1 new, fnImplicitReturn exIsExpNode exI32
        (.block AstTag.BlockNode (Nodes.mk 8 [exVarDcl])) []
        = some (blk1, [] ++ new)
      ∧ (ErrorCode.ErrorNoRet ∈ errorCodes new
          ↔ (exIsExpNode exVarDcl = false ∧ AstTag.VarNameDclNode ≠ AstTag.ReturnNode))
      ∧ ((exIsExpNode exVarDcl = false ∧ AstTag.VarNameDclNode ≠ AstTag.ReturnNode) →
          blk1 = .block AstTag.BlockNode (Nodes.mk 8 [exVarDcl])
          ∧ new = [(ErrorCode.ErrorNoRet, exVarDcl)]) :=
  fnImplicitReturn_ErrorNoRet_iff exIsExpNode exI32 AstTag.BlockNode
    (Nodes.mk 8 [exVarDcl]) exVarDcl AstTag.VarNameDclNode [] rfl rfl rfl

/-- C7 (witness): the assignment `x = 1` to an immutable variable, with a right side
that coerces: the one error recorded is ErrorNoMut at the left side. -/
theorem assignPass_first_failing_check_witness :
    isLval exVarUse = some true ∧ (exCoerces exVarUse exOne).1 = true
    ∧ exPermImmutable exVarUse = false
    ∧ ∃ node1 new,
      assignPass exAstPass exCoerces exPermImmutable exTypeCheckCtx
          (.assign AstTag.AssignNode 0 exVarUse exOne .voidType)
        = some ({ pstate := exTypeCheckCtx.pstate, errs := exTypeCheckCtx.errs ++ new }, node1)
      ∧ (isLval exVarUse = some false → new = [(ErrorCode.ErrorBadLval, exVarUse)])
      ∧ (isLval exVarUse = some true → (exCoerces exVarUse exOne).1 = false →
          new = [(ErrorCode.ErrorInvType, (exCoerces exVarUse exOne).2)])
      ∧ (isLval exVarUse = some true → (exCoerces exVarUse exOne).1 = true →
          exPermImmutable exVarUse = false → new = [(ErrorCode.ErrorNoMut, exVarUse)])
      ∧ (isLval exVarUse = some true → (exCoerces exVarUse exOne).1 = true →
          exPermImmutable exVarUse = true → new = []) :=
  ⟨rfl, rfl, rfl,
    assignPass_first_failing_check exAstPass exCoerces exPermImmutable exTypeCheckCtx
      exTypeCheckCtx exTypeCheckCtx AstTag.AssignNode 0 exVarUse exOne .voidType exVarUse exOne
      AstTag.VarNameUseTag rfl rfl rfl rfl (by simp [exOne, AstNode.vtype])
      (by simp [exCoerces, exOne, AstNode.vtype])⟩

/-! ## Function calls -/

theorem passNodes_length (astPass : AstPass) :
    ∀ (nodes : List AstNode) (c c1 : Ctx) (nodes1 : List AstNode),
    passNodes astPass c nodes = some (c1, nodes1) → nodes1.length = nodes.length := by
  intro nodes
  induction nodes with
  | nil =>
    intro c c1 nodes1 h
    simp [passNodes] at h
    simp [h.2.symm]
  | cons node rest ih =>
    intro c c1 nodes1 h
    simp only [passNodes] at h
    cases h1 : astPass c node with
    | none => simp [h1] at h
    | some r1 =>
      obtain ⟨c2, node1⟩ := r1
      simp only [h1] at h
      cases h2 : passNodes astPass c2 rest with
      | none => simp [h2] at h
      | some r2 =>
        obtain ⟨c3, rest1⟩ := r2
        simp only [h2, Option.some.injEq, Prod.mk.injEq] at h
        rw [← h.2]
        simp [ih c2 c3 rest1 h2]

theorem fnCallCoerceArgs_eq (typeCoerces : AstNode → AstNode → Bool × AstNode) :
    ∀ (args parms : List AstNode) (errs : Errors), args.length ≤ parms.length →
    fnCallCoerceArgs typeCoerces parms args errs
      = some (coercedArgs typeCoerces parms args,
          errs ++ coerceErrors typeCoerces parms args, parms.drop args.length) := by
  intro args
  induction args with
  | nil =>
    intro parms errs _
    cases parms <;> simp [fnCallCoerceArgs, coercedArgs, coerceErrors]
  | cons arg args ih =>
    intro parms errs hlen
    cases parms with
    | nil => simp at hlen
    | cons parm parms =>
      have hlen1 : args.length ≤ parms.length := by simpa using hlen
      simp only [fnCallCoerceArgs]
      rw [ih parms _ hlen1]
      by_cases hok : (typeCoerces parm arg).1 = true
      · simp [coercedArgs, coerceErrors, hok]
      · have hok : (typeCoerces parm arg).1 = false := by simpa using hok
        simp [coercedArgs, coerceErrors, hok, errorMsgNode]

theorem coerceErrors_codes (typeCoerces : AstNode → AstNode → Bool × AstNode)
    (parms args : List AstNode) :
    ∀ code ∈ errorCodes (coerceErrors typeCoerces parms args), code = ErrorCode.ErrorInvType := by
  intro code hcode
  simp only [errorCodes, coerceErrors, List.mem_map, List.mem_filterMap] at hcode
  obtain ⟨d, ⟨r, _, hr⟩, hd⟩ := hcode
  by_cases h : r.1 = true
  · simp [h] at hr
  · simp [h] at hr
    rw [← hd, ← hr]

theorem inodesSlots_length :
    ∀ l : List (Name × AstNode), (inodesSlots l).length = 2 * l.length := by
  intro l
  induction l with
  | nil => rfl
  | cons symnode rest ih =>
    simp only [inodesSlots, List.length_cons, ih]
    omega

theorem fnCallAddDefaults_elems :
    ∀ (parmp : List AstNode) (argsunder : Nat) (args args1 : Nodes AstNode),
    fnCallAddDefaults argsunder parmp args = some args1 →
    ∃ extra, args1.elems = args.elems ++ extra := by
  intro parmp
  induction parmp with
  | nil =>
    intro argsunder args args1 h
    cases argsunder with
    | zero =>
      simp only [fnCallAddDefaults, Option.some.injEq] at h
      exact ⟨[], by simp [h]⟩
    | succ n => simp [fnCallAddDefaults] at h
  | cons parm parmp ih =>
    intro argsunder args args1 h
    cases argsunder with
    | zero =>
      simp only [fnCallAddDefaults, Option.some.injEq] at h
      exact ⟨[], by simp [h]⟩
    | succ n =>
      cases parm with
      | vardcl t nm vt p v s =>
        simp only [fnCallAddDefaults] at h
        cases hadd : nodesAdd args v with
        | none => simp [hadd] at h
        | some args2 =>
          simp only [hadd] at h
          obtain ⟨extra, hextra⟩ := ih n args2 args1 h
          obtain ⟨helems, -⟩ := nodesAdd_some args args2 v hadd
          exact ⟨v :: extra, by rw [hextra, helems]; simp⟩
      | _ => simp [fnCallAddDefaults] at h

theorem fnCallCheckSig_many (typeGetVtype : AstNode → AstNode)
    (typeCoerces : AstNode → AstNode → Bool × AstNode) (tag : AstTag)
    (fn : AstNode) (args : Nodes AstNode) (vtype : AstNode) (errs : Errors)
    (rettype : AstNode) (parms : Inodes AstNode)
    (hsig : typeGetVtype fn = .fnsig AstTag.FnSigType rettype parms)
    (hmany : parms.used < args.used) :
    fnCallCheckSig typeGetVtype typeCoerces tag fn args vtype errs
      = some (.fncall tag fn args rettype,
          errs ++ [(ErrorCode.ErrorManyArgs, .fncall tag fn args rettype)]) := by
  have hlt : (parms.used : Int) - (args.used : Int) < 0 := by omega
  simp [fnCallCheckSig, hsig, AstNode.asttype, hlt, errorMsgNode]

theorem fnCallCheckSig_eq (typeGetVtype : AstNode → AstNode)
    (typeCoerces : AstNode → AstNode → Bool × AstNode) (tag : AstTag)
    (fn : AstNode) (args : Nodes AstNode) (vtype : AstNode) (errs : Errors)
    (rettype : AstNode) (parms : Inodes AstNode)
    (hsig : typeGetVtype fn = .fnsig AstTag.FnSigType rettype parms)
    (heq : args.used = parms.used) :
    fnCallCheckSig typeGetVtype typeCoerces tag fn args vtype errs
      = some (.fncall tag fn
          (Nodes.mk args.avail (coercedArgs typeCoerces (inodesSlots parms.elems) args.elems))
          rettype,
          errs ++ coerceErrors typeCoerces (inodesSlots parms.elems) args.elems) := by
  have hau : args.used = args.elems.length := rfl
  have hpu : parms.used = parms.elems.length := rfl
  have hnlt : ¬ (parms.used : Int) - (args.used : Int) < 0 := by omega
  have hngt : ¬ (parms.used : Int) - (args.used : Int) > 0 := by omega
  have hlen : args.elems.length ≤ (inodesSlots parms.elems).length := by
    rw [inodesSlots_length]
    omega
  simp [fnCallCheckSig, hsig, AstNode.asttype, hnlt, hngt,
    fnCallCoerceArgs_eq typeCoerces args.elems (inodesSlots parms.elems) errs hlen]

theorem fnCallCheckSig_le (typeGetVtype : AstNode → AstNode)
    (typeCoerces : AstNode → AstNode → Bool × AstNode) (tag : AstTag)
    (fn : AstNode) (args : Nodes AstNode) (vtype : AstNode) (errs : Errors)
    (rettype : AstNode) (parms : Inodes AstNode) (node1 : AstNode) (errs1 : Errors)
    (hsig : typeGetVtype fn = .fnsig AstTag.FnSigType rettype parms)
    (hle : args.used ≤ parms.used)
    (h : fnCallCheckSig typeGetVtype typeCoerces tag fn args vtype errs = some (node1, errs1)) :
    ∃ args1 few extra, node1 = .fncall tag fn args1 rettype
      ∧ errs1 = errs ++ (coerceErrors typeCoerces (inodesSlots parms.elems) args.elems ++ few)
      ∧ args1.elems
          = coercedArgs typeCoerces (inodesSlots parms.elems) args.elems ++ extra
      ∧ (few = [] ∨ (extra = [] ∧ few = [(ErrorCode.ErrorFewArgs,
            .fncall tag fn (Nodes.mk args.avail
              (coercedArgs typeCoerces (inodesSlots parms.elems) args.elems)) rettype)])) := by
  have hau : args.used = args.elems.length := rfl
  have hpu : parms.used = parms.elems.length := rfl
  by_cases heq : args.used = parms.used
  · rw [fnCallCheckSig_eq typeGetVtype typeCoerces tag fn args vtype errs rettype parms hsig
      heq] at h
    simp only [Option.some.injEq, Prod.mk.injEq] at h
    exact ⟨_, [], [], h.1.symm, by simp [h.2], by simp, Or.inl rfl⟩
  · have hnlt : ¬ (parms.used : Int) - (args.used : Int) < 0 := by omega
    have hgt : (parms.used : Int) - (args.used : Int) > 0 := by omega
    have hlen : args.elems.length ≤ (inodesSlots parms.elems).length := by
      rw [inodesSlots_length]
      omega
    simp only [fnCallCheckSig, hsig, AstNode.asttype, ↓reduceIte, hnlt, hgt,
      fnCallCoerceArgs_eq typeCoerces args.elems (inodesSlots parms.elems) errs hlen] at h
    cases hdrop : List.drop args.elems.length (inodesSlots parms.elems) with
    | nil => simp [hdrop] at h
    | cons parm parmp =>
      cases parm with
      | vardcl t nm vt p v s =>
        simp only [hdrop] at h
        by_cases hnull : isNull v = true
        · simp only [hnull, ↓reduceIte, Option.some.injEq, Prod.mk.injEq, errorMsgNode] at h
          exact ⟨_, _, [], h.1.symm, by rw [← h.2]; simp, by simp, Or.inr ⟨rfl, rfl⟩⟩
        · simp only [hnull, Bool.false_eq_true, ↓reduceIte] at h
          cases hadd : fnCallAddDefaults (parms.used - args.used)
              (AstNode.vardcl t nm vt p v s :: parmp)
              (Nodes.mk args.avail
                (coercedArgs typeCoerces (inodesSlots parms.elems) args.elems)) with
          | none => simp [hadd] at h
          | some args1 =>
            simp only [hadd, Option.some.injEq, Prod.mk.injEq] at h
            obtain ⟨extra, hextra⟩ := fnCallAddDefaults_elems _ _ _ _ hadd
            exact ⟨args1, [], extra, h.1.symm, by rw [← h.2]; simp, hextra, Or.inl rfl⟩
      | _ => simp [hdrop] at h

theorem fnCallPass_eq (astPass : AstPass) (typeGetVtype : AstNode → AstNode)
    (isMethodType : AstNode → Bool) (f : AstNode → AstNode → Int)
    (typeCoerces : AstNode → AstNode → Bool × AstNode)
    (c c1 c2 : Ctx) (tag : AstTag) (fn : AstNode) (args : Nodes AstNode) (vtype : AstNode)
    (elems1 : List AstNode) (fn1 fn2 : AstNode) (errs1 : Errors)
    (hargs : passNodes astPass c args.elems = some (c1, elems1))
    (hfn : astPass c1 fn = some (c2, fn1))
    (hpass : c2.pstate.pass = Pass.TypeCheck)
    (hres : fnCallResolveFn typeGetVtype isMethodType f
      (.fncall tag fn1 (Nodes.mk args.avail elems1) vtype) c2.errs = some (fn2, errs1, true)) :
    fnCallPass astPass typeGetVtype isMethodType f typeCoerces c (.fncall tag fn args vtype)
      = (fnCallCheckSig typeGetVtype typeCoerces tag fn2 (Nodes.mk args.avail elems1) vtype
          errs1).map (fun r => ({ pstate := c2.pstate, errs := r.2 }, r.1)) := by
  simp only [fnCallPass, hargs, hfn, hpass, fnCallTypeCheck, hres]
  cases fnCallCheckSig typeGetVtype typeCoerces tag fn2 (Nodes.mk args.avail elems1) vtype
      errs1 with
  | none => rfl
  | some r => rfl

/-- C9: in the TypeCheck pass, for a call whose callee has been resolved and has a
function signature as its type. With more arguments than the signature has parameters,
fnCallPass records ErrorManyArgs and nothing else and leaves the argument list as the
walk of the arguments left it. With as many arguments as parameters it returns without
ErrorManyArgs, and without any error when there is no argument. Whatever fnCallPass
returns, ErrorManyArgs has been recorded if and only if the arguments outnumber the
parameters. -/
theorem fnCallPass_ErrorManyArgs_iff (astPass : AstPass) (typeGetVtype : AstNode → AstNode)
    (isMethodType : AstNode → Bool) (f : AstNode → AstNode → Int)
    (typeCoerces : AstNode → AstNode → Bool × AstNode)
    (c c1 c2 : Ctx) (tag : AstTag) (fn : AstNode) (args : Nodes AstNode) (vtype : AstNode)
    (elems1 : List AstNode) (fn1 fn2 : AstNode) (errs1 : Errors)
    (rettype : AstNode) (parms : Inodes AstNode)
    (hargs : passNodes astPass c args.elems = some (c1, elems1))
    (hfn : astPass c1 fn = some (c2, fn1))
    (hpass : c2.pstate.pass = Pass.TypeCheck)
    (hres : fnCallResolveFn typeGetVtype isMethodType f
      (.fncall tag fn1 (Nodes.mk args.avail elems1) vtype) c2.errs = some (fn2, errs1, true))
    (hsig : typeGetVtype fn2 = .fnsig AstTag.FnSigType rettype parms) :
    (parms.used < args.used →
      fnCallPass astPass typeGetVtype isMethodType f typeCoerces c (.fncall tag fn args vtype)
        = some ({ pstate := c2.pstate,
                  errs := errs1 ++ [(ErrorCode.ErrorManyArgs,
                    .fncall tag fn2 (Nodes.mk args.avail elems1) rettype)] },
                .fncall tag fn2 (Nodes.mk args.avail elems1) rettype))
    ∧ (args.used = parms.used →
        ∃ args1 new,
          fnCallPass astPass typeGetVtype isMethodType f typeCoerces c
              (.fncall tag fn args vtype)
            = some ({ pstate := c2.pstate, errs := errs1 ++ new },
                .fncall tag fn2 args1 rettype)
          ∧ ErrorCode.ErrorManyArgs ∉ errorCodes new
          ∧ (args.used = 0 → new = []))
    ∧ (∀ r, fnCallPass astPass typeGetVtype isMethodType f typeCoerces c
          (.fncall tag fn args vtype) = some r →
        ∃ new, r.1.errs = errs1 ++ new
          ∧ (ErrorCode.ErrorManyArgs ∈ errorCodes new ↔ parms.used < args.used)) := by
  have hlen : elems1.length = args.elems.length := passNodes_length astPass _ _ _ _ hargs
  have hused : (Nodes.mk args.avail elems1).used = args.used := hlen
  have hau : args.used = args.elems.length := rfl
  rw [fnCallPass_eq astPass typeGetVtype isMethodType f typeCoerces c c1 c2 tag fn args vtype
    elems1 fn1 fn2 errs1 hargs hfn hpass hres]
  refine ⟨?_, ?_, ?_⟩
  · intro hmany
    rw [fnCallCheckSig_many typeGetVtype typeCoerces tag fn2 _ vtype errs1 rettype parms hsig
      (by rw [hused]; exact hmany)]
    rfl
  · intro heq
    rw [fnCallCheckSig_eq typeGetVtype typeCoerces tag fn2 _ vtype errs1 rettype parms hsig
      (by rw [hused]; exact heq)]
    refine ⟨_, _, rfl, ?_, ?_⟩
    · intro hmem
      have := coerceErrors_codes typeCoerces _ _ _ hmem
      cases this
    · intro h0
      have he : elems1 = [] := List.length_eq_zero.mp (by omega)
      simp [he, coerceErrors]
  · intro r hr
    by_cases hmany : parms.used < args.used
    · rw [fnCallCheckSig_many typeGetVtype typeCoerces tag fn2 _ vtype errs1 rettype parms hsig
        (by rw [hused]; exact hmany)] at hr
      simp only [Option.map_some', Option.some.injEq] at hr
      refine ⟨[(ErrorCode.ErrorManyArgs,
        .fncall tag fn2 (Nodes.mk args.avail elems1) rettype)], by rw [← hr], ?_⟩
      simp [errorCodes, hmany]
    · cases hcheck : fnCallCheckSig typeGetVtype typeCoerces tag fn2
          (Nodes.mk args.avail elems1) vtype errs1 with
      | none => simp [hcheck] at hr
      | some res =>
        obtain ⟨node1, errs2⟩ := res
        simp only [hcheck, Option.map_some', Option.some.injEq] at hr
        obtain ⟨args1, few, extra, -, herrs, -, hfew⟩ := fnCallCheckSig_le typeGetVtype
          typeCoerces tag fn2 (Nodes.mk args.avail elems1) vtype errs1 rettype parms node1
          errs2 hsig (by rw [hused]; omega) hcheck
        refine ⟨_, by rw [← hr]; exact herrs, ?_⟩
        constructor
        · intro hmem
          exfalso
          simp only [errorCodes, List.map_append, List.mem_append] at hmem
          rcases hmem with hmem | hmem
          · have := coerceErrors_codes typeCoerces _ _ _ hmem
            cases this
          · rcases hfew with hfew | ⟨-, hfew⟩
            · simp [hfew] at hmem
            · simp [hfew] at hmem
        · intro h
          exact absurd h hmany

/-- C9 (witness): the call `g(1)` of the parameterless function `g` records
ErrorManyArgs and leaves the argument `1` as it is. -/
theorem fnCallPass_ErrorManyArgs_iff_witness :
    fnCallPass exAstPass exTypeGetVtype exIsMethodType exScoreTwo exCoerces exTypeCheckCtx
        exCallOneArg
      = some ({ pstate := exTypeCheckCtx.pstate,
                errs := [] ++ [(ErrorCode.ErrorManyArgs,
                  .fncall AstTag.FnCallNode
                    (.nameuse AstTag.VarNameUseTag 3 .null exFnDcl
                      (.fnsig AstTag.FnSigType exI32 (newInodes 0)))
                    (Nodes.mk 1 [exOne]) exI32)] },
              .fncall AstTag.FnCallNode
                (.nameuse AstTag.VarNameUseTag 3 .null exFnDcl
                  (.fnsig AstTag.FnSigType exI32 (newInodes 0)))
                (Nodes.mk 1 [exOne]) exI32) :=
  (fnCallPass_ErrorManyArgs_iff exAstPass exTypeGetVtype exIsMethodType exScoreTwo exCoerces
    exTypeCheckCtx exTypeCheckCtx exTypeCheckCtx AstTag.FnCallNode
    (.nameuse AstTag.VarNameUseTag 3 .null exFnDcl (.fnsig AstTag.FnSigType exI32 (newInodes 0)))
    (Nodes.mk 1 [exOne]) .voidType [exOne]
    (.nameuse AstTag.VarNameUseTag 3 .null exFnDcl (.fnsig AstTag.FnSigType exI32 (newInodes 0)))
    (.nameuse AstTag.VarNameUseTag 3 .null exFnDcl (.fnsig AstTag.FnSigType exI32 (newInodes 0)))
    [] exI32 (newInodes 0) rfl rfl rfl rfl rfl).1 (by decide)

theorem fnImplicitReturn_ends_in_return (isExpNode : AstNode → Bool) (rettype : AstNode)
    (blktag : AstTag) (stmts : Nodes AstNode) (laststmt : AstNode) (lasttag : AstTag)
    (errs : Errors)
    (hlast : nodesLast stmts = some laststmt) (htag : laststmt.asttype = some lasttag)
    (hcap : stmts.used ≤ stmts.avail) (hfit : stmts.used = stmts.avail → stmts.avail < 2 ^ 30) :
    ∃ stmts1 new, fnImplicitReturn isExpNode rettype (.block blktag stmts) errs
        = some (.block blktag stmts1, errs ++ new)
      ∧ (new = [] → ∃ last1, nodesLast stmts1 = some last1
          ∧ last1.asttype = some AstTag.ReturnNode) := by
  by_cases hvoid : isVoidType rettype = true
  · by_cases hr : lasttag = AstTag.ReturnNode
    · refine ⟨stmts, [], by simp [fnImplicitReturn, hlast, htag, hvoid, hr], ?_⟩
      intro _
      exact ⟨laststmt, hlast, by rw [htag, hr]⟩
    · obtain ⟨stmts1, hadd⟩ := nodesAdd_after_last stmts laststmt newReturnNode hlast hcap hfit
      obtain ⟨helems, -⟩ := nodesAdd_some stmts stmts1 newReturnNode hadd
      refine ⟨stmts1, [], by simp [fnImplicitReturn, hlast, htag, hvoid, hr, hadd], ?_⟩
      intro _
      exact ⟨newReturnNode, by simp [nodesLast, helems], rfl⟩
  · have hvoid : isVoidType rettype = false := by simpa using hvoid
    by_cases hexp : isExpNode laststmt = true
    · refine ⟨nodesSetLast stmts (.stmtexp AstTag.ReturnNode laststmt), [],
        by simp [fnImplicitReturn, hlast, htag, hvoid, hexp], ?_⟩
      intro _
      exact ⟨.stmtexp AstTag.ReturnNode laststmt, by simp [nodesLast, nodesSetLast], rfl⟩
    · have hexp : isExpNode laststmt = false := by simpa using hexp
      by_cases hr : lasttag = AstTag.ReturnNode
      · refine ⟨stmts, [], by simp [fnImplicitReturn, hlast, htag, hvoid, hexp, hr], ?_⟩
        intro _
        exact ⟨laststmt, hlast, by rw [htag, hr]⟩
      · refine ⟨stmts, [(ErrorCode.ErrorNoRet, laststmt)],
          by simp [fnImplicitReturn, hlast, htag, hvoid, hexp, hr, errorMsgNode], ?_⟩
        intro h
        cases h

/-! ## Function calls: missing arguments, callee, argument errors -/

theorem coerceErrors_eq_filter (typeCoerces : AstNode → AstNode → Bool × AstNode) :
    ∀ (parms args : List AstNode), coerceErrors typeCoerces parms args
      = ((parms.zip args).filter (fun pa => !(typeCoerces pa.1 pa.2).1)).map
          (fun pa => (ErrorCode.ErrorInvType, (typeCoerces pa.1 pa.2).2)) := by
  intro parms
  induction parms with
  | nil => intro args; simp [coerceErrors]
  | cons parm parms ih =>
    intro args
    cases args with
    | nil => simp [coerceErrors]
    | cons arg args =>
      have h := ih args
      simp only [coerceErrors] at h
      by_cases hok : (typeCoerces parm arg).1 = true
      · simp [coerceErrors, hok, h]
      · have hok : (typeCoerces parm arg).1 = false := by simpa using hok
        simp [coerceErrors, hok, h]

/-- In the TypeCheck pass, whatever fnCallPass returns for a call with no more
arguments than parameters: the arguments stand as the coercions against the slots
`inodesSlots` left them, one ErrorInvType has been recorded for each coercion that
failed, anchored at the argument and in the order of the arguments, and the only other
error, after them, may be one ErrorFewArgs, with nothing appended then. -/
theorem fnCallPass_coercion_errors (astPass : AstPass) (typeGetVtype : AstNode → AstNode)
    (isMethodType : AstNode → Bool) (f : AstNode → AstNode → Int)
    (typeCoerces : AstNode → AstNode → Bool × AstNode)
    (c c1 c2 : Ctx) (tag : AstTag) (fn : AstNode) (args : Nodes AstNode) (vtype : AstNode)
    (elems1 : List AstNode) (fn1 fn2 : AstNode) (errs1 : Errors)
    (rettype : AstNode) (parms : Inodes AstNode) (r : Ctx × AstNode)
    (hargs : passNodes astPass c args.elems = some (c1, elems1))
    (hfn : astPass c1 fn = some (c2, fn1))
    (hpass : c2.pstate.pass = Pass.TypeCheck)
    (hres : fnCallResolveFn typeGetVtype isMethodType f
      (.fncall tag fn1 (Nodes.mk args.avail elems1) vtype) c2.errs = some (fn2, errs1, true))
    (hsig : typeGetVtype fn2 = .fnsig AstTag.FnSigType rettype parms)
    (hle : args.used ≤ parms.used)
    (hr : fnCallPass astPass typeGetVtype isMethodType f typeCoerces c
      (.fncall tag fn args vtype) = some r) :
    ∃ args1 few extra, r.2 = .fncall tag fn2 args1 rettype
      ∧ r.1.errs = errs1
          ++ ((((inodesSlots parms.elems).zip elems1).filter
                (fun pa => !(typeCoerces pa.1 pa.2).1)).map
                (fun pa => (ErrorCode.ErrorInvType, (typeCoerces pa.1 pa.2).2))
              ++ few)
      ∧ args1.elems
          = List.zipWith (fun parm arg => (typeCoerces parm arg).2)
              (inodesSlots parms.elems) elems1 ++ extra
      ∧ (few = [] ∨ (extra = [] ∧ ∃ anchor, few = [(ErrorCode.ErrorFewArgs, anchor)])) := by
  have hlen : elems1.length = args.elems.length := passNodes_length astPass _ _ _ _ hargs
  have hused : (Nodes.mk args.avail elems1).used = args.used := hlen
  rw [fnCallPass_eq astPass typeGetVtype isMethodType f typeCoerces c c1 c2 tag fn args vtype
    elems1 fn1 fn2 errs1 hargs hfn hpass hres] at hr
  cases hcheck : fnCallCheckSig typeGetVtype typeCoerces tag fn2
      (Nodes.mk args.avail elems1) vtype errs1 with
  | none => simp [hcheck] at hr
  | some res =>
    obtain ⟨node1, errs2⟩ := res
    simp only [hcheck, Option.map_some', Option.some.injEq] at hr
    obtain ⟨args1, few, extra, hnode, herrs, helems, hfew⟩ := fnCallCheckSig_le typeGetVtype
      typeCoerces tag fn2 (Nodes.mk args.avail elems1) vtype errs1 rettype parms node1
      errs2 hsig (by rw [hused]; exact hle) hcheck
    refine ⟨args1, few, extra, by rw [← hr]; exact hnode, ?_, helems, ?_⟩
    · rw [← hr, ← coerceErrors_eq_filter]
      exact herrs
    · rcases hfew with hfew | ⟨hextra, hfew⟩
      · exact Or.inl hfew
      · exact Or.inr ⟨hextra, _, hfew⟩

theorem fnCallCheckSig_result (typeGetVtype : AstNode → AstNode)
    (typeCoerces : AstNode → AstNode → Bool × AstNode) (tag : AstTag)
    (fn : AstNode) (args : Nodes AstNode) (vtype : AstNode) (errs : Errors)
    (sigtag : AstTag) (rettype : AstNode) (parms : Inodes AstNode)
    (hsigtag : (typeGetVtype fn).asttype = some sigtag)
    (hlayout : sigtag = AstTag.FnSigType → typeGetVtype fn = .fnsig sigtag rettype parms) :
    (sigtag ≠ AstTag.FnSigType →
      fnCallCheckSig typeGetVtype typeCoerces tag fn args vtype errs
        = some (.fncall tag fn args vtype, errs ++ [(ErrorCode.ErrorNotFn, fn)]))
    ∧ (sigtag = AstTag.FnSigType → ∀ node1 errs1,
        fnCallCheckSig typeGetVtype typeCoerces tag fn args vtype errs = some (node1, errs1) →
        ∃ args1 new, node1 = .fncall tag fn args1 rettype ∧ errs1 = errs ++ new
          ∧ ∀ code ∈ errorCodes new, code = ErrorCode.ErrorManyArgs
              ∨ code = ErrorCode.ErrorInvType ∨ code = ErrorCode.ErrorFewArgs)
    ∧ (sigtag = AstTag.FnSigType → parms.used ≤ args.used →
        ∃ node1 errs1,
          fnCallCheckSig typeGetVtype typeCoerces tag fn args vtype errs
            = some (node1, errs1)) := by
  refine ⟨?_, ?_, ?_⟩
  · intro hne
    simp [fnCallCheckSig, hsigtag, hne, errorMsgNode]
  · intro hfn node1 errs1 h
    have hsig := hlayout hfn
    rw [hfn] at hsig
    by_cases hmany : parms.used < args.used
    · rw [fnCallCheckSig_many typeGetVtype typeCoerces tag fn args vtype errs rettype parms
        hsig hmany] at h
      simp only [Option.some.injEq, Prod.mk.injEq] at h
      refine ⟨args, _, h.1.symm, h.2.symm, ?_⟩
      intro code hcode
      simp [errorCodes] at hcode
      exact Or.inl hcode
    · obtain ⟨args1, few, extra, hnode, herrs, -, hfew⟩ := fnCallCheckSig_le typeGetVtype
        typeCoerces tag fn args vtype errs rettype parms node1 errs1 hsig (by omega) h
      refine ⟨args1, _, hnode, herrs, ?_⟩
      intro code hcode
      simp only [errorCodes, List.map_append, List.mem_append] at hcode
      rcases hcode with hcode | hcode
      · exact Or.inr (Or.inl (coerceErrors_codes typeCoerces _ _ _ hcode))
      · rcases hfew with hfew | ⟨-, hfew⟩
        · simp [hfew] at hcode
        · simp [hfew] at hcode
          exact Or.inr (Or.inr hcode)
  · intro hfn hle
    have hsig := hlayout hfn
    rw [hfn] at hsig
    by_cases hmany : parms.used < args.used
    · exact ⟨_, _, fnCallCheckSig_many typeGetVtype typeCoerces tag fn args vtype errs rettype
        parms hsig hmany⟩
    · exact ⟨_, _, fnCallCheckSig_eq typeGetVtype typeCoerces tag fn args vtype errs rettype
        parms hsig (by omega)⟩

/-- C12: in the TypeCheck pass, for a call whose callee is not a member name-use. When
the type of the callee after the automatic dereference is not a function signature,
fnCallPass records ErrorNotFn at the callee and nothing else. When it is one, whatever
fnCallPass returns has the return type of the signature as the value type of the call
and no ErrorNotFn, whichever error about the arguments has been recorded; and
fnCallPass does return when there are at least as many arguments as parameters. -/
theorem fnCallPass_ErrorNotFn_iff (astPass : AstPass) (typeGetVtype : AstNode → AstNode)
    (isMethodType : AstNode → Bool) (f : AstNode → AstNode → Int)
    (typeCoerces : AstNode → AstNode → Bool × AstNode)
    (c c1 c2 : Ctx) (tag : AstTag) (fn : AstNode) (args : Nodes AstNode) (vtype : AstNode)
    (elems1 : List AstNode) (fn1 fn2 : AstNode) (fntag sigtag : AstTag)
    (rettype : AstNode) (parms : Inodes AstNode)
    (hargs : passNodes astPass c args.elems = some (c1, elems1))
    (hfn : astPass c1 fn = some (c2, fn1))
    (hpass : c2.pstate.pass = Pass.TypeCheck)
    (hfntag : fn1.asttype = some fntag) (hnotmbr : fntag ≠ AstTag.MbrNameUseTag)
    (hderef : derefAuto typeGetVtype fn1 = some fn2)
    (hsigtag : (typeGetVtype fn2).asttype = some sigtag)
    (hlayout : sigtag = AstTag.FnSigType → typeGetVtype fn2 = .fnsig sigtag rettype parms) :
    (sigtag ≠ AstTag.FnSigType →
      fnCallPass astPass typeGetVtype isMethodType f typeCoerces c (.fncall tag fn args vtype)
        = some ({ pstate := c2.pstate, errs := c2.errs ++ [(ErrorCode.ErrorNotFn, fn2)] },
            .fncall tag fn2 (Nodes.mk args.avail elems1) vtype))
    ∧ (sigtag = AstTag.FnSigType → ∀ r,
        fnCallPass astPass typeGetVtype isMethodType f typeCoerces c
          (.fncall tag fn args vtype) = some r →
        ∃ args1 new, r.2 = .fncall tag fn2 args1 rettype ∧ r.2.vtype = some rettype
          ∧ r.1.errs = c2.errs ++ new ∧ ErrorCode.ErrorNotFn ∉ errorCodes new)
    ∧ (sigtag = AstTag.FnSigType → parms.used ≤ args.used →
        ∃ r, fnCallPass astPass typeGetVtype isMethodType f typeCoerces c
          (.fncall tag fn args vtype) = some r) := by
  have hlen : elems1.length = args.elems.length := passNodes_length astPass _ _ _ _ hargs
  have hused : (Nodes.mk args.avail elems1).used = args.used := hlen
  have hres : fnCallResolveFn typeGetVtype isMethodType f
      (.fncall tag fn1 (Nodes.mk args.avail elems1) vtype) c2.errs
      = some (fn2, c2.errs, true) := by
    simp [fnCallResolveFn, hfntag, hnotmbr, hderef]
  rw [fnCallPass_eq astPass typeGetVtype isMethodType f typeCoerces c c1 c2 tag fn args vtype
    elems1 fn1 fn2 c2.errs hargs hfn hpass hres]
  obtain ⟨hnot, hsig, hdef⟩ := fnCallCheckSig_result typeGetVtype typeCoerces tag
    fn2 (Nodes.mk args.avail elems1) vtype c2.errs sigtag rettype parms hsigtag hlayout
  refine ⟨?_, ?_, ?_⟩
  · intro hne
    rw [hnot hne]
    rfl
  · intro heq r hr
    cases hcheck : fnCallCheckSig typeGetVtype typeCoerces tag fn2
        (Nodes.mk args.avail elems1) vtype c2.errs with
    | none => simp [hcheck] at hr
    | some res =>
      obtain ⟨node1, errs2⟩ := res
      simp only [hcheck, Option.map_some', Option.some.injEq] at hr
      obtain ⟨args1, new, hnode, herrs, hcodes⟩ := hsig heq node1 errs2 hcheck
      refine ⟨args1, new, by rw [← hr]; exact hnode, by rw [← hr]; simp [hnode, AstNode.vtype],
        by rw [← hr]; exact herrs, ?_⟩
      intro hmem
      rcases hcodes _ hmem with h | h | h <;> cases h
  · intro heq hle
    obtain ⟨node1, errs2, hcheck⟩ := hdef heq (by rw [hused]; exact hle)
    rw [hcheck]
    exact ⟨_, rfl⟩

theorem fnCallFindMethod_errs (typeGetVtype : AstNode → AstNode)
    (isMethodType : AstNode → Bool) (f : AstNode → AstNode → Int) (node : AstNode)
    (methsym : Name) (errs errs1 : Errors) (method : AstNode)
    (h : fnCallFindMethod typeGetVtype isMethodType f node methsym errs
      = some (method, errs1)) :
    errs1 = errs
    ∨ (isNull method = true ∧ errs1 = errs ++ [(ErrorCode.ErrorNoMeth, node)]) := by
  unfold fnCallFindMethod at h
  cases hobj : fnCallObjType typeGetVtype node with
  | none => simp [hobj] at h
  | some objtype =>
    simp only [hobj] at h
    by_cases hmt : isMethodType objtype = true
    · simp only [hmt, Bool.not_true, Bool.false_eq_true, ↓reduceIte] at h
      cases objtype with
      | methtype t id methods =>
        simp only at h
        cases hloop : fnCallFindMethodLoop f node methsym methods.elems 0x7fffffff .null with
        | none => simp [hloop] at h
        | some m =>
          simp only [hloop, Option.some.injEq, Prod.mk.injEq] at h
          exact Or.inl h.2.symm
      | _ => simp at h
    · have hmt : isMethodType objtype = false := by simpa using hmt
      simp only [hmt, Bool.not_false, ↓reduceIte, Option.some.injEq, Prod.mk.injEq] at h
      right
      rw [← h.1, ← h.2]
      exact ⟨rfl, rfl⟩

/-- C14: in the TypeCheck pass, for a call whose callee is a member name-use. When
fnCallFindMethod finds no method, fnCallPass records ErrorNoMeth at the call and leaves
the callee and the argument list as they were. When it finds one, whatever fnCallPass
returns has as callee a VarNameUseTag name-use whose declaration is that method and
whose value type is the method's type, and no ErrorNoMeth has been recorded; and
fnCallPass does return when the type of the method is not a function signature or there
are at least as many arguments as parameters. -/
theorem fnCallPass_member_resolution (astPass : AstPass) (typeGetVtype : AstNode → AstNode)
    (isMethodType : AstNode → Bool) (f : AstNode → AstNode → Int)
    (typeCoerces : AstNode → AstNode → Bool × AstNode)
    (c c1 c2 : Ctx) (tag : AstTag) (fn : AstNode) (args : Nodes AstNode) (vtype : AstNode)
    (elems1 : List AstNode) (methsym : Name) (mod dclnode fnvtype : AstNode)
    (method methvtype : AstNode) (errs1 : Errors) (sigtag : AstTag)
    (rettype : AstNode) (parms : Inodes AstNode)
    (hargs : passNodes astPass c args.elems = some (c1, elems1))
    (hfn : astPass c1 fn
      = some (c2, .nameuse AstTag.MbrNameUseTag methsym mod dclnode fnvtype))
    (hpass : c2.pstate.pass = Pass.TypeCheck)
    (hfind : fnCallFindMethod typeGetVtype isMethodType f
      (.fncall tag (.nameuse AstTag.MbrNameUseTag methsym mod dclnode fnvtype)
        (Nodes.mk args.avail elems1) vtype) methsym c2.errs = some (method, errs1))
    (hmv : isNull method = false → method.vtype = some methvtype)
    (hsigtag : isNull method = false →
      (typeGetVtype (.nameuse AstTag.VarNameUseTag methsym mod method methvtype)).asttype
        = some sigtag)
    (hlayout : sigtag = AstTag.FnSigType →
      typeGetVtype (.nameuse AstTag.VarNameUseTag methsym mod method methvtype)
        = .fnsig sigtag rettype parms) :
    (isNull method = true →
      ∃ before,
        fnCallPass astPass typeGetVtype isMethodType f typeCoerces c
            (.fncall tag fn args vtype)
          = some ({ pstate := c2.pstate,
                    errs := c2.errs ++ (before ++ [(ErrorCode.ErrorNoMeth,
                      .fncall tag (.nameuse AstTag.MbrNameUseTag methsym mod dclnode fnvtype)
                        (Nodes.mk args.avail elems1) vtype)]) },
                  .fncall tag (.nameuse AstTag.MbrNameUseTag methsym mod dclnode fnvtype)
                    (Nodes.mk args.avail elems1) vtype))
    ∧ (isNull method = false → ∀ r,
        fnCallPass astPass typeGetVtype isMethodType f typeCoerces c
          (.fncall tag fn args vtype) = some r →
        ∃ args1 vtype1 new,
          r.2 = .fncall tag (.nameuse AstTag.VarNameUseTag methsym mod method methvtype)
            args1 vtype1
          ∧ r.1.errs = c2.errs ++ new ∧ ErrorCode.ErrorNoMeth ∉ errorCodes new)
    ∧ (isNull method = false → (sigtag = AstTag.FnSigType → parms.used ≤ args.used) →
        ∃ r, fnCallPass astPass typeGetVtype isMethodType f typeCoerces c
          (.fncall tag fn args vtype) = some r) := by
  have hlen : elems1.length = args.elems.length := passNodes_length astPass _ _ _ _ hargs
  have hused : (Nodes.mk args.avail elems1).used = args.used := hlen
  have herrs := fnCallFindMethod_errs typeGetVtype isMethodType f _ methsym c2.errs errs1
    method hfind
  have hfound : isNull method = false →
      fnCallPass astPass typeGetVtype isMethodType f typeCoerces c (.fncall tag fn args vtype)
        = (fnCallCheckSig typeGetVtype typeCoerces tag
            (.nameuse AstTag.VarNameUseTag methsym mod method methvtype)
            (Nodes.mk args.avail elems1) vtype c2.errs).map
            (fun r => ({ pstate := c2.pstate, errs := r.2 }, r.1)) := by
    intro hnull
    have herrs1 : errs1 = c2.errs := by
      rcases herrs with herrs | ⟨h, _⟩
      · exact herrs
      · rw [hnull] at h; cases h
    have hres : fnCallResolveFn typeGetVtype isMethodType f
        (.fncall tag (.nameuse AstTag.MbrNameUseTag methsym mod dclnode fnvtype)
          (Nodes.mk args.avail elems1) vtype) c2.errs
        = some (.nameuse AstTag.VarNameUseTag methsym mod method methvtype, c2.errs, true) := by
      simp [fnCallResolveFn, AstNode.asttype, hfind, hnull, hmv hnull, herrs1]
    exact fnCallPass_eq astPass typeGetVtype isMethodType f typeCoerces c c1 c2 tag fn args
      vtype elems1 _ _ c2.errs hargs hfn hpass hres
  refine ⟨?_, ?_, ?_⟩
  · intro hnull
    have hpassed : fnCallPass astPass typeGetVtype isMethodType f typeCoerces c
        (.fncall tag fn args vtype)
        = some ({ pstate := c2.pstate,
                  errs := errs1 ++ [(ErrorCode.ErrorNoMeth,
                    .fncall tag (.nameuse AstTag.MbrNameUseTag methsym mod dclnode fnvtype)
                      (Nodes.mk args.avail elems1) vtype)] },
                .fncall tag (.nameuse AstTag.MbrNameUseTag methsym mod dclnode fnvtype)
                  (Nodes.mk args.avail elems1) vtype) := by
      simp [fnCallPass, hargs, hfn, hpass, fnCallTypeCheck, fnCallResolveFn, AstNode.asttype,
        hfind, hnull, errorMsgNode]
    rcases herrs with herrs | ⟨_, herrs⟩
    · exact ⟨[], by rw [hpassed, herrs]; simp⟩
    · exact ⟨[(ErrorCode.ErrorNoMeth,
        .fncall tag (.nameuse AstTag.MbrNameUseTag methsym mod dclnode fnvtype)
          (Nodes.mk args.avail elems1) vtype)], by rw [hpassed, herrs]; simp⟩
  · intro hnull r hr
    rw [hfound hnull] at hr
    obtain ⟨hnot, hsig, -⟩ := fnCallCheckSig_result typeGetVtype typeCoerces
      tag (.nameuse AstTag.VarNameUseTag methsym mod method methvtype)
      (Nodes.mk args.avail elems1) vtype c2.errs sigtag rettype parms (hsigtag hnull) hlayout
    cases hcheck : fnCallCheckSig typeGetVtype typeCoerces tag
        (.nameuse AstTag.VarNameUseTag methsym mod method methvtype)
        (Nodes.mk args.avail elems1) vtype c2.errs with
    | none => simp [hcheck] at hr
    | some res =>
      obtain ⟨node1, errs2⟩ := res
      simp only [hcheck, Option.map_some', Option.some.injEq] at hr
      by_cases heq : sigtag = AstTag.FnSigType
      · obtain ⟨args1, new, hnode, herrs2, hcodes⟩ := hsig heq node1 errs2 hcheck
        refine ⟨args1, rettype, new, by rw [← hr]; exact hnode, by rw [← hr]; exact herrs2, ?_⟩
        intro hmem
        rcases hcodes _ hmem with h | h | h <;> cases h
      · rw [hnot heq] at hcheck
        simp only [Option.some.injEq, Prod.mk.injEq] at hcheck
        refine ⟨_, vtype, [(ErrorCode.ErrorNotFn, _)], by rw [← hr, ← hcheck.1],
          by rw [← hr, ← hcheck.2], ?_⟩
        simp [errorCodes]
  · intro hnull hle
    rw [hfound hnull]
    obtain ⟨hnot, -, hdef⟩ := fnCallCheckSig_result typeGetVtype typeCoerces
      tag (.nameuse AstTag.VarNameUseTag methsym mod method methvtype)
      (Nodes.mk args.avail elems1) vtype c2.errs sigtag rettype parms (hsigtag hnull) hlayout
    by_cases heq : sigtag = AstTag.FnSigType
    · obtain ⟨node1, errs2, hcheck⟩ := hdef heq (by rw [hused]; exact hle heq)
      rw [hcheck]
      exact ⟨_, rfl⟩
    · rw [hnot heq]
      exact ⟨_, rfl⟩

/-- C12 (witness): the call `g(1)` of the parameterless function `g`: the callee's type
is a function signature, so ErrorNotFn is not recorded and the call gets the value type
`i32` although ErrorManyArgs is recorded. -/
theorem fnCallPass_ErrorNotFn_iff_witness :
    fnCallPass exAstPass exTypeGetVtype exIsMethodType exScoreTwo exCoerces exTypeCheckCtx
        exCallOneArg
      = some ({ pstate := exTypeCheckCtx.pstate,
                errs := [(ErrorCode.ErrorManyArgs,
                  .fncall AstTag.FnCallNode
                    (.nameuse AstTag.VarNameUseTag 3 .null exFnDcl
                      (.fnsig AstTag.FnSigType exI32 (newInodes 0)))
                    (Nodes.mk 1 [exOne]) exI32)] },
              .fncall AstTag.FnCallNode
                (.nameuse AstTag.VarNameUseTag 3 .null exFnDcl
                  (.fnsig AstTag.FnSigType exI32 (newInodes 0)))
                (Nodes.mk 1 [exOne]) exI32)
    ∧ ∃ args1 new,
        AstNode.fncall AstTag.FnCallNode
            (.nameuse AstTag.VarNameUseTag 3 .null exFnDcl
              (.fnsig AstTag.FnSigType exI32 (newInodes 0)))
            (Nodes.mk 1 [exOne]) exI32
          = .fncall AstTag.FnCallNode
              (.nameuse AstTag.VarNameUseTag 3 .null exFnDcl
                (.fnsig AstTag.FnSigType exI32 (newInodes 0))) args1 exI32
        ∧ (AstNode.fncall AstTag.FnCallNode
            (.nameuse AstTag.VarNameUseTag 3 .null exFnDcl
              (.fnsig AstTag.FnSigType exI32 (newInodes 0)))
            (Nodes.mk 1 [exOne]) exI32).vtype = some exI32
        ∧ [(ErrorCode.ErrorManyArgs,
              AstNode.fncall AstTag.FnCallNode
                (.nameuse AstTag.VarNameUseTag 3 .null exFnDcl
                  (.fnsig AstTag.FnSigType exI32 (newInodes 0)))
                (Nodes.mk 1 [exOne]) exI32)] = exTypeCheckCtx.errs ++ new
        ∧ ErrorCode.ErrorNotFn ∉ errorCodes new :=
  ⟨rfl,
    (fnCallPass_ErrorNotFn_iff exAstPass exTypeGetVtype exIsMethodType exScoreTwo exCoerces
      exTypeCheckCtx exTypeCheckCtx exTypeCheckCtx AstTag.FnCallNode
      (.nameuse AstTag.VarNameUseTag 3 .null exFnDcl
        (.fnsig AstTag.FnSigType exI32 (newInodes 0)))
      (Nodes.mk 1 [exOne]) .voidType [exOne]
      (.nameuse AstTag.VarNameUseTag 3 .null exFnDcl
        (.fnsig AstTag.FnSigType exI32 (newInodes 0)))
      (.nameuse AstTag.VarNameUseTag 3 .null exFnDcl
        (.fnsig AstTag.FnSigType exI32 (newInodes 0)))
      AstTag.VarNameUseTag AstTag.FnSigType exI32 (newInodes 0) rfl rfl rfl rfl (by decide)
      rfl rfl (fun _ => rfl)).2.1 rfl _ rfl⟩

/-- C14 (witness): the call `p.scale()` with the score 2 for the method `scale`: the
callee becomes a name-use of `exMethod` with the method's type, and no ErrorNoMeth is
recorded. -/
theorem fnCallPass_member_resolution_witness :
    isNull exMethod = false
    ∧ fnCallPass exAstPass exTypeGetVtype exIsMethodType exScoreTwo exCoerces exTypeCheckCtx
        exMethodCall
      = some ({ pstate := exTypeCheckCtx.pstate, errs := [] },
          .fncall AstTag.FnCallNode
            (.nameuse AstTag.VarNameUseTag 7 .null exMethod exMethodSig)
            (Nodes.mk 1 [AstNode.exp (AstTag.other 2) 0 exStruct]) .voidType)
    ∧ ∃ args1 vtype1 new,
        AstNode.fncall AstTag.FnCallNode
            (.nameuse AstTag.VarNameUseTag 7 .null exMethod exMethodSig)
            (Nodes.mk 1 [AstNode.exp (AstTag.other 2) 0 exStruct]) .voidType
          = .fncall AstTag.FnCallNode
              (.nameuse AstTag.VarNameUseTag 7 .null exMethod exMethodSig) args1 vtype1
        ∧ ([] : Errors) = exTypeCheckCtx.errs ++ new
        ∧ ErrorCode.ErrorNoMeth ∉ errorCodes new :=
  ⟨rfl, rfl,
    (fnCallPass_member_resolution exAstPass exTypeGetVtype exIsMethodType exScoreTwo exCoerces
      exTypeCheckCtx exTypeCheckCtx exTypeCheckCtx AstTag.FnCallNode
      (.nameuse AstTag.MbrNameUseTag 7 .null .null .voidType)
      (Nodes.mk 1 [AstNode.exp (AstTag.other 2) 0 exStruct]) .voidType
      [AstNode.exp (AstTag.other 2) 0 exStruct] 7 .null .null .voidType exMethod exMethodSig []
      AstTag.FnSigType .voidType
      (inodesAdd (newInodes 1) 13 (.vardcl AstTag.VarNameDclNode 13 (.typ (AstTag.other 4) 0)
        .null .null 1))
      rfl rfl rfl rfl (fun _ => rfl) (fun _ => rfl) (fun _ => rfl)).2.1 rfl _ rfl⟩

/-! ## Variable declarations: type check -/

theorem vtype_some_asttype (node vtype : AstNode) (h : node.vtype = some vtype) :
    ∃ t, node.asttype = some t := by
  cases node <;> simp [AstNode.vtype] at h <;> exact ⟨_, rfl⟩

theorem varDclTypeCheck_eq (astPass : AstWalk)
    (typeCoerces : AstNode → AstNode → Bool × AstNode) (c c1 : CompState)
    (tag : AstTag) (namesym : Name) (vtype perm value : AstNode) (scope : Int)
    (value1 valuevtype : AstNode) (valuetag : AstTag)
    (hwalk : astPass c value = some (c1, value1))
    (htag : value1.asttype = some valuetag)
    (hvt : value1.vtype = some valuevtype) :
    varDclTypeCheck astPass typeCoerces c (.vardcl tag namesym vtype perm value scope)
      = some ({ pstate := c1.pstate,
                errs := c1.errs
                  ++ ((if scope ≤ 1 ∧ ¬ (valuetag = AstTag.FLitNode ∨ valuetag = AstTag.ULitNode)
                        then [(ErrorCode.ErrorNotLit, value1)] else [])
                    ++ (if isVoidType vtype = false ∧ (typeCoerces vtype value1).1 = false
                        then [(ErrorCode.ErrorInvType, (typeCoerces vtype value1).2)] else [])),
                nametbl := c1.nametbl },
              .vardcl tag namesym (if isVoidType vtype then valuevtype else vtype) perm
                (if isVoidType vtype then value1 else (typeCoerces vtype value1).2) scope) := by
  simp only [varDclTypeCheck, hwalk, litIsLiteral, htag]
  by_cases hs : scope ≤ 1
  · by_cases hlit : valuetag = AstTag.FLitNode ∨ valuetag = AstTag.ULitNode
    · by_cases hvoid : isVoidType vtype = true
      · simp [hs, hlit, hvoid, hvt]
      · have hvoid : isVoidType vtype = false := by simpa using hvoid
        by_cases hco : (typeCoerces vtype value1).1 = true
        · simp [hs, hlit, hvoid, hco]
        · have hco : (typeCoerces vtype value1).1 = false := by simpa using hco
          simp [hs, hlit, hvoid, hco, errorMsgNode]
    · by_cases hvoid : isVoidType vtype = true
      · simp [hs, hlit, hvoid, hvt, errorMsgNode]
      · have hvoid : isVoidType vtype = false := by simpa using hvoid
        by_cases hco : (typeCoerces vtype value1).1 = true
        · simp [hs, hlit, hvoid, hco, errorMsgNode]
        · have hco : (typeCoerces vtype value1).1 = false := by simpa using hco
          simp [hs, hlit, hvoid, hco, errorMsgNode]
  · by_cases hvoid : isVoidType vtype = true
    · simp [hs, hvoid, hvt]
    · have hvoid : isVoidType vtype = false := by simpa using hvoid
      by_cases hco : (typeCoerces vtype value1).1 = true
      · simp [hs, hvoid, hco]
      · have hco : (typeCoerces vtype value1).1 = false := by simpa using hco
        simp [hs, hvoid, hco, errorMsgNode]

/-- C15: for a declaration whose initializer, once walked, is a typed node:
when the declared type is void, varDclTypeCheck sets the declared type to the value
type of the initializer, leaves the initializer as the walk left it and records no
ErrorInvType; otherwise it keeps the declared type, puts the coerced initializer in
place, and records ErrorInvType at the initializer if and only if the coercion fails.
The only other error it may record, before that one, is ErrorNotLit. -/
theorem varDclTypeCheck_declared_type (astPass : AstWalk)
    (typeCoerces : AstNode → AstNode → Bool × AstNode) (c c1 : CompState)
    (tag : AstTag) (namesym : Name) (vtype perm value : AstNode) (scope : Int)
    (value1 valuevtype : AstNode)
    (hwalk : astPass c value = some (c1, value1))
    (hvt : value1.vtype = some valuevtype) :
    ∃ notlit inv,
      (notlit = [] ∨ notlit = [(ErrorCode.ErrorNotLit, value1)])
      ∧ (isVoidType vtype = true →
          varDclTypeCheck astPass typeCoerces c (.vardcl tag namesym vtype perm value scope)
            = some ({ pstate := c1.pstate, errs := c1.errs ++ notlit, nametbl := c1.nametbl },
                    .vardcl tag namesym valuevtype perm value1 scope))
      ∧ (isVoidType vtype = false →
          varDclTypeCheck astPass typeCoerces c (.vardcl tag namesym vtype perm value scope)
            = some ({ pstate := c1.pstate, errs := c1.errs ++ (notlit ++ inv),
                      nametbl := c1.nametbl },
                    .vardcl tag namesym vtype perm (typeCoerces vtype value1).2 scope)
          ∧ (ErrorCode.ErrorInvType ∈ errorCodes inv ↔ (typeCoerces vtype value1).1 = false)
          ∧ ((typeCoerces vtype value1).1 = false →
              inv = [(ErrorCode.ErrorInvType, (typeCoerces vtype value1).2)])
          ∧ ((typeCoerces vtype value1).1 = true → inv = [])) := by
  obtain ⟨valuetag, htag⟩ := vtype_some_asttype value1 valuevtype hvt
  have heq := varDclTypeCheck_eq astPass typeCoerces c c1 tag namesym vtype perm value scope
    value1 valuevtype valuetag hwalk htag hvt
  refine ⟨if scope ≤ 1 ∧ ¬ (valuetag = AstTag.FLitNode ∨ valuetag = AstTag.ULitNode)
      then [(ErrorCode.ErrorNotLit, value1)] else [],
    if (typeCoerces vtype value1).1 = false
      then [(ErrorCode.ErrorInvType, (typeCoerces vtype value1).2)] else [], ?_, ?_, ?_⟩
  · by_cases h : scope ≤ 1 ∧ ¬ (valuetag = AstTag.FLitNode ∨ valuetag = AstTag.ULitNode)
    · exact Or.inr (if_pos h)
    · exact Or.inl (if_neg h)
  · intro hvoid
    rw [heq]
    simp [hvoid]
  · intro hvoid
    refine ⟨?_, ?_, ?_, ?_⟩
    · rw [heq]
      simp [hvoid]
    · by_cases hco : (typeCoerces vtype value1).1 = true
      · simp [hco, errorCodes]
      · have hco : (typeCoerces vtype value1).1 = false := by simpa using hco
        simp [hco, errorCodes]
    · intro hco
      simp [hco]
    · intro hco
      simp [hco]

/-- C16 (counterexample): the global declaration `imm s = "hi"` has scope depth 0 and a
string literal as initializer, and varDclTypeCheck records ErrorNotLit at the
initializer. -/
theorem varDclTypeCheck_string_literal_counterexample :
    exStrLit.asttype = some AstTag.SLitNode
    ∧ dclValue exGlobalStr = some exStrLit
    ∧ varDclTypeCheck exAstWalk exCoerces exTypeCheckState exGlobalStr
      = some ({ pstate := exTypeCheckState.pstate,
                errs := [(ErrorCode.ErrorNotLit, exStrLit)], nametbl := [] },
              .vardcl AstTag.VarNameDclNode 8 (.typ (AstTag.other 5) 40)
                (.typ (AstTag.other 3) 2) exStrLit 0) :=
  ⟨rfl, rfl, rfl⟩

/-- C16 (amended): for a declaration whose initializer, once walked, is a typed node,
varDclTypeCheck records ErrorNotLit (at the initializer) if and only if the scope depth
of the declaration is at most 1 and the initializer is neither a float literal nor an
unsigned literal; a declaration of scope depth 2 or more never records it. -/
theorem varDclTypeCheck_ErrorNotLit_iff (astPass : AstWalk)
    (typeCoerces : AstNode → AstNode → Bool × AstNode) (c c1 : CompState)
    (tag : AstTag) (namesym : Name) (vtype perm value : AstNode) (scope : Int)
    (value1 valuevtype : AstNode) (valuetag : AstTag)
    (hwalk : astPass c value = some (c1, value1))
    (htag : value1.asttype = some valuetag)
    (hvt : value1.vtype = some valuevtype) :
    ∃ c2 name1 new,
      varDclTypeCheck astPass typeCoerces c (.vardcl tag namesym vtype perm value scope)
        = some (c2, name1)
      ∧ c2.errs = c1.errs ++ new
      ∧ (ErrorCode.ErrorNotLit ∈ errorCodes new
          ↔ scope ≤ 1 ∧ ¬ (valuetag = AstTag.FLitNode ∨ valuetag = AstTag.ULitNode))
      ∧ (ErrorCode.ErrorNotLit ∈ errorCodes new → (ErrorCode.ErrorNotLit, value1) ∈ new)
      ∧ (2 ≤ scope → ErrorCode.ErrorNotLit ∉ errorCodes new) := by
  have heq := varDclTypeCheck_eq astPass typeCoerces c c1 tag namesym vtype perm value scope
    value1 valuevtype valuetag hwalk htag hvt
  have hiff : ErrorCode.ErrorNotLit ∈ errorCodes
      ((if scope ≤ 1 ∧ ¬ (valuetag = AstTag.FLitNode ∨ valuetag = AstTag.ULitNode)
          then [(ErrorCode.ErrorNotLit, value1)] else [])
        ++ (if isVoidType vtype = false ∧ (typeCoerces vtype value1).1 = false
          then [(ErrorCode.ErrorInvType, (typeCoerces vtype value1).2)] else []))
      ↔ scope ≤ 1 ∧ ¬ (valuetag = AstTag.FLitNode ∨ valuetag = AstTag.ULitNode) := by
    by_cases h1 : scope ≤ 1 ∧ ¬ (valuetag = AstTag.FLitNode ∨ valuetag = AstTag.ULitNode)
    · simp only [h1, not_false_eq_true, and_self, if_true, iff_true]
      simp [errorCodes]
    · by_cases h2 : isVoidType vtype = false ∧ (typeCoerces vtype value1).1 = false
      · simp only [if_neg h1, if_pos h2, iff_false_right h1]
        simp [errorCodes]
      · simp only [if_neg h1, if_neg h2, iff_false_right h1]
        simp [errorCodes]
  refine ⟨_, _, _, heq, rfl, hiff, ?_, ?_⟩
  · intro hmem
    have h1 := hiff.mp hmem
    rw [if_pos h1]
    simp
  · intro h2 hmem
    have h1 := (hiff.mp hmem).1
    omega

/-- C15 (witness): the declaration `imm x i32 = 0` with a coercion that fails: the
declared type stays `i32` and ErrorInvType is recorded at the initializer. -/
theorem varDclTypeCheck_declared_type_witness :
    ∃ notlit inv,
      (notlit = [] ∨ notlit = [(ErrorCode.ErrorNotLit, .exp AstTag.ULitNode 0 exI32)])
      ∧ (isVoidType exI32 = true →
          varDclTypeCheck exAstWalk exCoerceFails exTypeCheckState exVarDcl
            = some ({ pstate := exTypeCheckState.pstate,
                      errs := exTypeCheckState.errs ++ notlit,
                      nametbl := exTypeCheckState.nametbl },
                    .vardcl AstTag.VarNameDclNode 5 exI32 (.typ (AstTag.other 3) 2)
                      (.exp AstTag.ULitNode 0 exI32) 2))
      ∧ (isVoidType exI32 = false →
          varDclTypeCheck exAstWalk exCoerceFails exTypeCheckState exVarDcl
            = some ({ pstate := exTypeCheckState.pstate,
                      errs := exTypeCheckState.errs ++ (notlit ++ inv),
                      nametbl := exTypeCheckState.nametbl },
                    .vardcl AstTag.VarNameDclNode 5 exI32 (.typ (AstTag.other 3) 2)
                      (exCoerceFails exI32 (.exp AstTag.ULitNode 0 exI32)).2 2)
          ∧ (ErrorCode.ErrorInvType ∈ errorCodes inv
              ↔ (exCoerceFails exI32 (.exp AstTag.ULitNode 0 exI32)).1 = false)
          ∧ ((exCoerceFails exI32 (.exp AstTag.ULitNode 0 exI32)).1 = false →
              inv = [(ErrorCode.ErrorInvType,
                (exCoerceFails exI32 (.exp AstTag.ULitNode 0 exI32)).2)])
          ∧ ((exCoerceFails exI32 (.exp AstTag.ULitNode 0 exI32)).1 = true → inv = [])) :=
  varDclTypeCheck_declared_type exAstWalk exCoerceFails exTypeCheckState exTypeCheckState
    AstTag.VarNameDclNode 5 exI32 (.typ (AstTag.other 3) 2) (.exp AstTag.ULitNode 0 exI32) 2
    (.exp AstTag.ULitNode 0 exI32) exI32 rfl rfl

/-- C16 (witness): the global declaration `imm s = "hi"`: scope depth 0 and an
initializer that is neither a float nor an unsigned literal. -/
theorem varDclTypeCheck_ErrorNotLit_iff_witness :
    ∃ c2 name1 new,
      varDclTypeCheck exAstWalk exCoerces exTypeCheckState exGlobalStr = some (c2, name1)
      ∧ c2.errs = exTypeCheckState.errs ++ new
      ∧ (ErrorCode.ErrorNotLit ∈ errorCodes new
          ↔ (0 : Int) ≤ 1
            ∧ ¬ (AstTag.SLitNode = AstTag.FLitNode ∨ AstTag.SLitNode = AstTag.ULitNode))
      ∧ (ErrorCode.ErrorNotLit ∈ errorCodes new → (ErrorCode.ErrorNotLit, exStrLit) ∈ new)
      ∧ ((2 : Int) ≤ 0 → ErrorCode.ErrorNotLit ∉ errorCodes new) :=
  varDclTypeCheck_ErrorNotLit_iff exAstWalk exCoerces exTypeCheckState exTypeCheckState
    AstTag.VarNameDclNode 8 .voidType (.typ (AstTag.other 3) 2) exStrLit 0 exStrLit
    (.typ (AstTag.other 5) 40) AstTag.SLitNode rfl rfl rfl

theorem fnImplicitReturn_errs (isExpNode : AstNode → Bool) (rettype blk blk1 : AstNode)
    (errs errs1 : Errors)
    (h : fnImplicitReturn isExpNode rettype blk errs = some (blk1, errs1)) :
    errs1 = errs ∨ ∃ anchor, errs1 = errs ++ [(ErrorCode.ErrorNoRet, anchor)] := by
  unfold fnImplicitReturn at h
  cases blk with
  | block blktag stmts =>
    simp only at h
    cases hlast : nodesLast stmts with
    | none => simp [hlast] at h
    | some laststmt =>
      simp only [hlast] at h
      cases htag : laststmt.asttype with
      | none => simp [htag] at h
      | some lasttag =>
        simp only [htag] at h
        split at h
        · split at h
          · cases hadd : nodesAdd stmts newReturnNode with
            | none => simp [hadd] at h
            | some stmts1 =>
              simp only [hadd, Option.some.injEq, Prod.mk.injEq] at h
              exact Or.inl h.2.symm
          · simp at h; exact Or.inl h.2.symm
        · split at h
          · simp at h; exact Or.inl h.2.symm
          · split at h
            · simp [errorMsgNode] at h; exact Or.inr ⟨laststmt, h.2.symm⟩
            · simp at h; exact Or.inl h.2.symm
  | _ => simp at h

theorem varDclTypeCheck_codes (astPass : AstWalk)
    (typeCoerces : AstNode → AstNode → Bool × AstNode) (c c2 : CompState)
    (tag : AstTag) (namesym : Name) (vtype perm value : AstNode) (scope : Int)
    (name1 : AstNode)
    (h : varDclTypeCheck astPass typeCoerces c (.vardcl tag namesym vtype perm value scope)
      = some (c2, name1)) :
    ∃ c1 value1 new, astPass c value = some (c1, value1) ∧ c2.errs = c1.errs ++ new
      ∧ ∀ code ∈ errorCodes new,
          code = ErrorCode.ErrorNotLit ∨ code = ErrorCode.ErrorInvType := by
  simp only [varDclTypeCheck] at h
  cases hwalk : astPass c value with
  | none => simp [hwalk] at h
  | some r =>
    obtain ⟨c1, value1⟩ := r
    simp only [hwalk] at h
    have hstep : ∀ errs1 : Errors, (∃ lit, errs1 = c1.errs ++ lit
          ∧ ∀ code ∈ errorCodes lit, code = ErrorCode.ErrorNotLit) →
        (if isVoidType vtype = true then
            match value1.vtype with
            | none => none
            | some valuevtype =>
              some ({ pstate := c1.pstate, errs := errs1, nametbl := c1.nametbl },
                    AstNode.vardcl tag namesym valuevtype perm value1 scope)
          else if (!(typeCoerces vtype value1).1) = true then
            some ({ pstate := c1.pstate,
                    errs := errorMsgNode errs1 (typeCoerces vtype value1).2
                      ErrorCode.ErrorInvType,
                    nametbl := c1.nametbl },
                  AstNode.vardcl tag namesym vtype perm (typeCoerces vtype value1).2 scope)
          else
            some ({ pstate := c1.pstate, errs := errs1, nametbl := c1.nametbl },
                  AstNode.vardcl tag namesym vtype perm (typeCoerces vtype value1).2 scope))
          = some (c2, name1) →
        ∃ new, c2.errs = c1.errs ++ new
          ∧ ∀ code ∈ errorCodes new,
              code = ErrorCode.ErrorNotLit ∨ code = ErrorCode.ErrorInvType := by
      rintro errs1 ⟨lit, hlit, hcodes⟩ hres
      split at hres
      · cases hv : value1.vtype with
        | none => simp [hv] at hres
        | some vv =>
          simp only [hv, Option.some.injEq, Prod.mk.injEq] at hres
          refine ⟨lit, by rw [← hres.1, hlit], fun code hc => Or.inl (hcodes code hc)⟩
      · split at hres
        · simp only [Option.some.injEq, Prod.mk.injEq] at hres
          refine ⟨lit ++ [(ErrorCode.ErrorInvType, (typeCoerces vtype value1).2)], ?_, ?_⟩
          · rw [← hres.1, hlit]
            simp [errorMsgNode]
          · intro code hc
            simp only [errorCodes, List.map_append, List.mem_append] at hc
            rcases hc with hc | hc
            · exact Or.inl (hcodes code hc)
            · simp at hc
              exact Or.inr hc
        · simp only [Option.some.injEq, Prod.mk.injEq] at hres
          refine ⟨lit, by rw [← hres.1, hlit], fun code hc => Or.inl (hcodes code hc)⟩
    by_cases hs : scope ≤ 1
    · simp only [hs, ↓reduceIte] at h
      cases hl : litIsLiteral value1 with
      | none => simp [hl] at h
      | some lit =>
        simp only [hl] at h
        by_cases hlit : lit = true
        · simp only [hlit, Bool.not_true, Bool.false_eq_true, ↓reduceIte] at h
          obtain ⟨new, h1, h2⟩ := hstep c1.errs ⟨[], by simp, by simp [errorCodes]⟩ h
          exact ⟨c1, value1, new, rfl, h1, h2⟩
        · have hlit : lit = false := by simpa using hlit
          simp only [hlit, Bool.not_false, ↓reduceIte] at h
          obtain ⟨new, h1, h2⟩ := hstep (errorMsgNode c1.errs value1 ErrorCode.ErrorNotLit)
            ⟨[(ErrorCode.ErrorNotLit, value1)], rfl, by simp [errorCodes]⟩ h
          exact ⟨c1, value1, new, rfl, h1, h2⟩
    · simp only [hs, ↓reduceIte] at h
      obtain ⟨new, h1, h2⟩ := hstep c1.errs ⟨[], by simp, by simp [errorCodes]⟩ h
      exact ⟨c1, value1, new, rfl, h1, h2⟩

theorem varDclFnTypeCheck_walk (astPass : AstWalk) (c c3 : CompState)
    (tag : AstTag) (namesym : Name) (vtype perm value : AstNode) (scope : Int)
    (node3 : AstNode)
    (h : varDclFnTypeCheck astPass c (.vardcl tag namesym vtype perm value scope)
      = some (c3, node3)) :
    ∃ s s1 value1, astPass s value = some (s1, value1) ∧ s.errs = c.errs
      ∧ c3.errs = s1.errs := by
  simp only [varDclFnTypeCheck] at h
  split at h
  · simp at h
  · rename_i s1 value1 hw
    simp only [Option.some.injEq, Prod.mk.injEq] at h
    exact ⟨_, s1, value1, hw, rfl, by rw [← h.1]⟩

/-- C17: in the TypeCheck pass, with a walk of the initializer (as it is, or as the
implicit-return step leaves a function body) that records no ErrorNoType itself: for a
declaration without initializer, varDclPass records ErrorNoType at the declaration
exactly when its declared type, as typeGetVtype gives it, is void; and whatever
varDclPass returns, ErrorNoType has been recorded if and only if the declaration has no
initializer and that type is void. -/
theorem varDclPass_ErrorNoType_iff (astPass : AstWalk) (typeGetVtype : AstNode → AstNode)
    (isExpNode : AstNode → Bool) (typeCoerces : AstNode → AstNode → Bool × AstNode)
    (inodesHook : NameTbl → AstNode → Inodes AstNode → NameTbl)
    (nameUnhook : NameTbl → AstNode → NameTbl)
    (c c1 c2 : CompState) (tag : AstTag) (namesym : Name) (vtype perm value : AstNode)
    (scope : Int) (perm1 vtype1 : AstNode)
    (hperm : astPass c perm = some (c1, perm1))
    (hvtype : astPass c1 vtype = some (c2, vtype1))
    (hpass : c2.pstate.pass = Pass.TypeCheck)
    (hquiet : ∀ s n s1 n1, astPass s n = some (s1, n1) →
      (n = value ∨ ∃ rettype errs errs1,
        fnImplicitReturn isExpNode rettype value errs = some (n, errs1)) →
      ∃ new, s1.errs = s.errs ++ new ∧ ErrorCode.ErrorNoType ∉ errorCodes new) :
    (isNull value = true →
      varDclPass astPass typeGetVtype isExpNode typeCoerces inodesHook nameUnhook c
          (.vardcl tag namesym vtype perm value scope)
        = some ({ pstate := c2.pstate,
                  errs := c2.errs ++ (if isVoidType (typeGetVtype vtype1) = true
                    then [(ErrorCode.ErrorNoType, .vardcl tag namesym vtype1 perm1 value scope)]
                    else []),
                  nametbl := c2.nametbl },
                .vardcl tag namesym vtype1 perm1 value scope))
    ∧ (∀ r, varDclPass astPass typeGetVtype isExpNode typeCoerces inodesHook nameUnhook c
          (.vardcl tag namesym vtype perm value scope) = some r →
        ∃ new, r.1.errs = c2.errs ++ new
          ∧ (ErrorCode.ErrorNoType ∈ errorCodes new
              ↔ (isNull value = true ∧ isVoidType (typeGetVtype vtype1) = true))) := by
  have hnull : isNull value = true →
      varDclPass astPass typeGetVtype isExpNode typeCoerces inodesHook nameUnhook c
          (.vardcl tag namesym vtype perm value scope)
        = some ({ pstate := c2.pstate,
                  errs := c2.errs ++ (if isVoidType (typeGetVtype vtype1) = true
                    then [(ErrorCode.ErrorNoType, .vardcl tag namesym vtype1 perm1 value scope)]
                    else []),
                  nametbl := c2.nametbl },
                .vardcl tag namesym vtype1 perm1 value scope) := by
    intro hn
    by_cases hvoid : isVoidType (typeGetVtype vtype1) = true
    · simp [varDclPass, hperm, hvtype, hpass, varDclPassTypeCheck, hn, hvoid, errorMsgNode]
    · simp [varDclPass, hperm, hvtype, hpass, varDclPassTypeCheck, hn, hvoid]
  refine ⟨hnull, ?_⟩
  intro r hr
  by_cases hn : isNull value = true
  · rw [hnull hn] at hr
    cases hr
    refine ⟨_, rfl, ?_⟩
    by_cases hvoid : isVoidType (typeGetVtype vtype1) = true
    · simp [errorCodes, hn, hvoid]
    · simp [errorCodes, hn, hvoid]
  · have hn : isNull value = false := by simpa using hn
    have hgoal : ∀ new, r.1.errs = c2.errs ++ new →
        ErrorCode.ErrorNoType ∉ errorCodes new →
        ∃ new, r.1.errs = c2.errs ++ new
          ∧ (ErrorCode.ErrorNoType ∈ errorCodes new
              ↔ (isNull value = true ∧ isVoidType (typeGetVtype vtype1) = true)) := by
      intro new h1 h2
      refine ⟨new, h1, ?_⟩
      simp [hn, h2]
    simp only [varDclPass, hperm, hvtype, hpass, varDclPassTypeCheck, hn, Bool.not_false,
      ↓reduceIte] at hr
    cases hvt : (typeGetVtype vtype1).asttype with
    | none => simp [hvt] at hr
    | some vtag =>
      simp only [hvt] at hr
      by_cases hfn : vtag = AstTag.FnSig
      · simp only [hfn, ↓reduceIte] at hr
        cases vtype1 with
        | fnsig sigtag rettype parms =>
          simp only at hr
          cases himp : fnImplicitReturn isExpNode rettype value c2.errs with
          | none => simp [himp] at hr
          | some ir =>
            obtain ⟨value1, errs1⟩ := ir
            simp only [himp] at hr
            obtain ⟨r1, r2⟩ := r
            obtain ⟨s, s1, value2, hw, hs, hr1⟩ := varDclFnTypeCheck_walk astPass _ r1 _ _ _ _
              _ _ r2 hr
            obtain ⟨wnew, hw1, hw2⟩ := hquiet s value1 s1 value2 hw
              (Or.inr ⟨rettype, c2.errs, errs1, himp⟩)
            simp only at hs hr1
            rcases fnImplicitReturn_errs isExpNode rettype value value1 c2.errs errs1 himp
              with he | ⟨anchor, he⟩
            · apply hgoal wnew
              · simp [hr1, hw1, hs, he]
              · exact hw2
            · apply hgoal ([(ErrorCode.ErrorNoRet, anchor)] ++ wnew)
              · simp [hr1, hw1, hs, he]
              · intro hmem
                simp only [errorCodes, List.map_append, List.mem_append] at hmem
                rcases hmem with hmem | hmem
                · simp at hmem
                · exact hw2 hmem
        | _ => simp at hr
      · simp only [hfn, ↓reduceIte] at hr
        obtain ⟨r1, r2⟩ := r
        obtain ⟨c3, value1, new, hw, h1, h2⟩ := varDclTypeCheck_codes astPass typeCoerces c2 r1
          tag namesym vtype1 perm1 value scope r2 hr
        obtain ⟨wnew, hw1, hw2⟩ := hquiet c2 value c3 value1 hw (Or.inl rfl)
        apply hgoal (wnew ++ new)
        · simp [h1, hw1]
        · intro hmem
          simp only [errorCodes, List.map_append, List.mem_append] at hmem
          rcases hmem with hmem | hmem
          · exact hw2 hmem
          · rcases h2 _ hmem with h | h <;> cases h

/-- C17 (witness): with a dispatcher that sends every declaration to varDclPass, the
global declaration `imm u` with neither a type nor an initializer records
ErrorNoType. -/
theorem varDclPass_ErrorNoType_iff_witness :
    isNull AstNode.null = true ∧ isVoidType (exTypeGetVtype .voidType) = true
    ∧ varDclPass exDispatch exTypeGetVtype exIsExpNode exCoerces (fun tbl _ _ => tbl)
          (fun tbl _ => tbl) exTypeCheckState exUntypedDcl
        = some ({ pstate := exTypeCheckState.pstate,
                  errs := exTypeCheckState.errs
                    ++ (if isVoidType (exTypeGetVtype .voidType) = true
                      then [(ErrorCode.ErrorNoType, exUntypedDcl)] else []),
                  nametbl := exTypeCheckState.nametbl },
                exUntypedDcl) :=
  ⟨rfl, rfl,
    (varDclPass_ErrorNoType_iff exDispatch exTypeGetVtype exIsExpNode exCoerces
      (fun tbl _ _ => tbl) (fun tbl _ => tbl) exTypeCheckState exTypeCheckState
      exTypeCheckState AstTag.VarNameDclNode 9 .voidType (.typ (AstTag.other 3) 2) .null 0
      (.typ (AstTag.other 3) 2) .voidType rfl rfl rfl
      (by
        intro s n s1 n1 h hn
        rcases hn with hn | ⟨rettype, errs, errs1, himp⟩
        · subst hn
          simp only [exDispatch, Option.some.injEq, Prod.mk.injEq] at h
          exact ⟨[], by rw [← h.1]; simp, by simp [errorCodes]⟩
        · simp [fnImplicitReturn] at himp)).1 rfl⟩

/-! ## Name resolution -/

theorem nameLookup_nameHook (tbl : NameTbl) (owner namenode : AstNode) (namesym : Name) :
    nameLookup (nameHook tbl owner namenode namesym) namesym = namenode := by
  simp [nameLookup, nameHook]

theorem varDclNameResolve_eq (astPass : AstWalk) (c c1 : CompState)
    (tag : AstTag) (namesym : Name) (vtype perm value : AstNode) (scope scope1 : Int)
    (h : varDclHookLocal c (.vardcl tag namesym vtype perm value scope) = some (c1, scope1)) :
    varDclNameResolve astPass c (.vardcl tag namesym vtype perm value scope)
      = if isNull value = true then some (c1, .vardcl tag namesym vtype perm value scope1)
        else (astPass c1 value).map
          (fun r => (r.1, AstNode.vardcl tag namesym vtype perm r.2 scope1)) := by
  simp only [varDclNameResolve, h]
  by_cases hn : isNull value = true
  · simp [hn]
  · have hn : isNull value = false := by simpa using hn
    simp only [hn, Bool.not_false, Bool.false_eq_true, ↓reduceIte]
    cases astPass c1 value with
    | none => rfl
    | some r => rfl

/-- C18 (counterexample): the two declarations `imm x i32 = 0` and `imm x i32 = 1` of
one block, resolved one after the other at scope depth 2: two ErrorDupName errors are
recorded, the first at the second declaration and the second at the first
declaration. -/
theorem varDclNameResolve_duplicate_counterexample :
    ∃ c1 first1 c2 second1,
      varDclNameResolve exAstWalk exNameResState exDclFirst = some (c1, first1)
      ∧ varDclNameResolve exAstWalk c1 exDclSecond = some (c2, second1)
      ∧ c2.errs = [(ErrorCode.ErrorDupName, exDclSecond), (ErrorCode.ErrorDupName, first1)]
      ∧ (errorCodes c2.errs).count ErrorCode.ErrorDupName = 2 :=
  ⟨{ pstate := exNameResState.pstate, errs := [],
     nametbl := [{ namesym := 5, owner := emptyBlock,
                   node := .vardcl AstTag.VarNameDclNode 5 exI32 (.typ (AstTag.other 3) 2)
                     (.exp AstTag.ULitNode 0 exI32) 2 }] },
   .vardcl AstTag.VarNameDclNode 5 exI32 (.typ (AstTag.other 3) 2)
     (.exp AstTag.ULitNode 0 exI32) 2,
   { pstate := exNameResState.pstate,
     errs := [(ErrorCode.ErrorDupName, exDclSecond),
              (ErrorCode.ErrorDupName, .vardcl AstTag.VarNameDclNode 5 exI32
                (.typ (AstTag.other 3) 2) (.exp AstTag.ULitNode 0 exI32) 2)],
     nametbl := [{ namesym := 5, owner := emptyBlock,
                   node := .vardcl AstTag.VarNameDclNode 5 exI32 (.typ (AstTag.other 3) 2)
                     (.exp AstTag.ULitNode 0 exI32) 2 }] },
   exDclSecond, rfl, rfl, rfl, rfl⟩

/-- C18 (amended): when a local declaration is resolved at a scope depth greater than 1
while its name is bound to a declaration of that same scope depth, varDclNameResolve
records two ErrorDupName errors for the pair: the first anchored at the declaration
being resolved (the second of the pair), the second anchored at the bound declaration
(the first of the pair); it then walks the initializer, if there is one. -/
theorem varDclNameResolve_duplicate_errors (astPass : AstWalk) (c : CompState)
    (tag : AstTag) (namesym : Name) (vtype perm value : AstNode) (scope : Int)
    (btag : AstTag) (bsym : Name) (bvtype bperm bvalue : AstNode) (bscope : Int)
    (hdepth : 1 < c.pstate.scope)
    (hbound : nameLookup c.nametbl namesym = .vardcl btag bsym bvtype bperm bvalue bscope)
    (hsame : c.pstate.scope = bscope) :
    varDclNameResolve astPass c (.vardcl tag namesym vtype perm value scope)
      = if isNull value = true then
          some ({ pstate := c.pstate,
                  errs := c.errs
                    ++ [(ErrorCode.ErrorDupName, .vardcl tag namesym vtype perm value scope),
                        (ErrorCode.ErrorDupName,
                          .vardcl btag bsym bvtype bperm bvalue bscope)],
                  nametbl := c.nametbl },
                .vardcl tag namesym vtype perm value scope)
        else (astPass { pstate := c.pstate,
                        errs := c.errs
                          ++ [(ErrorCode.ErrorDupName,
                                .vardcl tag namesym vtype perm value scope),
                              (ErrorCode.ErrorDupName,
                                .vardcl btag bsym bvtype bperm bvalue bscope)],
                        nametbl := c.nametbl } value).map
          (fun r => (r.1, AstNode.vardcl tag namesym vtype perm r.2 scope)) := by
  apply varDclNameResolve_eq
  have hgt : c.pstate.scope > 1 := hdepth
  subst hsame
  simp only [varDclHookLocal, hgt, ↓reduceIte, hbound, errorMsgNode, List.append_assoc,
    List.singleton_append]

/-- C18 (witness): the second declaration `imm x i32 = 1` resolved while `x` is bound to
the first declaration at the same scope depth 2. -/
theorem varDclNameResolve_duplicate_errors_witness :
    (varDclNameResolve exAstWalk
        { pstate := exNameResState.pstate, errs := [],
          nametbl := nameHook [] emptyBlock
            (.vardcl AstTag.VarNameDclNode 5 exI32 (.typ (AstTag.other 3) 2)
              (.exp AstTag.ULitNode 0 exI32) 2) 5 }
        exDclSecond).map (fun r => r.1.errs)
      = some [(ErrorCode.ErrorDupName, exDclSecond),
              (ErrorCode.ErrorDupName, .vardcl AstTag.VarNameDclNode 5 exI32
                (.typ (AstTag.other 3) 2) (.exp AstTag.ULitNode 0 exI32) 2)] := by
  have h := varDclNameResolve_duplicate_errors exAstWalk
    { pstate := exNameResState.pstate, errs := [],
      nametbl := nameHook [] emptyBlock
        (.vardcl AstTag.VarNameDclNode 5 exI32 (.typ (AstTag.other 3) 2)
          (.exp AstTag.ULitNode 0 exI32) 2) 5 }
    AstTag.VarNameDclNode 5 exI32 (.typ (AstTag.other 3) 2) exOne 0
    AstTag.VarNameDclNode 5 exI32 (.typ (AstTag.other 3) 2) (.exp AstTag.ULitNode 0 exI32) 2
    (by decide) rfl rfl
  rw [show exDclSecond = AstNode.vardcl AstTag.VarNameDclNode 5 exI32
    (.typ (AstTag.other 3) 2) exOne 0 from rfl, h]
  rfl

/-- C19: for a declaration resolved at a scope depth greater than 1, whose name is
either unbound or bound to a declaration: varDclNameResolve records ErrorDupName if and
only if the binding exists and its scope depth equals the current depth. When it does
not, the scope field of the declaration becomes the current depth and the declaration
becomes the binding of its name; when it does, the name table and the scope field stay
as they were. The initializer, if there is one, is walked after that. -/
theorem varDclNameResolve_binding (astPass : AstWalk) (c : CompState)
    (tag : AstTag) (namesym : Name) (vtype perm value : AstNode) (scope bscope : Int)
    (hdepth : 1 < c.pstate.scope)
    (hbound : isNull (nameLookup c.nametbl namesym) = false →
      dclScope (nameLookup c.nametbl namesym) = some bscope) :
    ∃ c1 scope1 new,
      varDclNameResolve astPass c (.vardcl tag namesym vtype perm value scope)
        = (if isNull value = true then some (c1, .vardcl tag namesym vtype perm value scope1)
           else (astPass c1 value).map
             (fun r => (r.1, AstNode.vardcl tag namesym vtype perm r.2 scope1)))
      ∧ c1.pstate = c.pstate ∧ c1.errs = c.errs ++ new
      ∧ (ErrorCode.ErrorDupName ∈ errorCodes new
          ↔ (isNull (nameLookup c.nametbl namesym) = false ∧ c.pstate.scope = bscope))
      ∧ (¬ (isNull (nameLookup c.nametbl namesym) = false ∧ c.pstate.scope = bscope) →
          new = [] ∧ scope1 = c.pstate.scope
          ∧ c1.nametbl = nameHook c.nametbl c.pstate.blk
              (.vardcl tag namesym vtype perm value c.pstate.scope) namesym
          ∧ nameLookup c1.nametbl namesym
              = .vardcl tag namesym vtype perm value c.pstate.scope)
      ∧ ((isNull (nameLookup c.nametbl namesym) = false ∧ c.pstate.scope = bscope) →
          c1.nametbl = c.nametbl ∧ scope1 = scope) := by
  have hgt : c.pstate.scope > 1 := hdepth
  cases hb : nameLookup c.nametbl namesym with
  | null =>
    refine ⟨{ pstate := c.pstate, errs := c.errs,
              nametbl := nameHook c.nametbl c.pstate.blk
                (.vardcl tag namesym vtype perm value c.pstate.scope) namesym },
      c.pstate.scope, [], ?_, rfl, by simp, ?_, ?_, ?_⟩
    · apply varDclNameResolve_eq
      simp only [varDclHookLocal, hgt, ↓reduceIte, hb]
    · simp [errorCodes, isNull]
    · intro _
      exact ⟨rfl, rfl, rfl, nameLookup_nameHook _ _ _ _⟩
    · intro h
      simp [isNull] at h
  | vardcl btag bsym bvtype bperm bvalue bscope1 =>
    have hbs : bscope1 = bscope := by
      have := hbound (by rw [hb]; rfl)
      rw [hb] at this
      simpa [dclScope] using this
    subst hbs
    by_cases hsame : c.pstate.scope = bscope1
    · subst hsame
      refine ⟨{ pstate := c.pstate,
                errs := c.errs
                  ++ [(ErrorCode.ErrorDupName, .vardcl tag namesym vtype perm value scope),
                      (ErrorCode.ErrorDupName,
                        .vardcl btag bsym bvtype bperm bvalue c.pstate.scope)],
                nametbl := c.nametbl },
        scope, _, ?_, rfl, rfl, ?_, ?_, ?_⟩
      · apply varDclNameResolve_eq
        simp only [varDclHookLocal, hgt, ↓reduceIte, hb, errorMsgNode,
          List.append_assoc, List.singleton_append]
      · simp [errorCodes, isNull]
      · intro h
        exact absurd ⟨rfl, rfl⟩ h
      · intro _
        exact ⟨rfl, rfl⟩
    · refine ⟨{ pstate := c.pstate, errs := c.errs,
                nametbl := nameHook c.nametbl c.pstate.blk
                  (.vardcl tag namesym vtype perm value c.pstate.scope) namesym },
        c.pstate.scope, [], ?_, rfl, by simp, ?_, ?_, ?_⟩
      · apply varDclNameResolve_eq
        simp only [varDclHookLocal, hgt, ↓reduceIte, hb, hsame]
      · simp [errorCodes, hsame]
      · intro _
        exact ⟨rfl, rfl, rfl, nameLookup_nameHook _ _ _ _⟩
      · intro h
        exact absurd h.2 hsame
  | _ =>
    have := hbound (by rw [hb]; rfl)
    rw [hb] at this
    simp [dclScope] at this

/-- C19 (witness): the declaration `imm x i32 = 0` resolved at scope depth 2 with an
empty name table: it gets the scope 2 and becomes the binding of `x`. -/
theorem varDclNameResolve_binding_witness :
    ∃ c1 scope1 new,
      varDclNameResolve exAstWalk exNameResState exDclFirst
        = (if isNull (AstNode.exp AstTag.ULitNode 0 exI32) = true then
             some (c1, .vardcl AstTag.VarNameDclNode 5 exI32 (.typ (AstTag.other 3) 2)
               (.exp AstTag.ULitNode 0 exI32) scope1)
           else (exAstWalk c1 (.exp AstTag.ULitNode 0 exI32)).map
             (fun r => (r.1, AstNode.vardcl AstTag.VarNameDclNode 5 exI32
               (.typ (AstTag.other 3) 2) r.2 scope1)))
      ∧ c1.pstate = exNameResState.pstate ∧ c1.errs = exNameResState.errs ++ new
      ∧ (ErrorCode.ErrorDupName ∈ errorCodes new
          ↔ (isNull (nameLookup exNameResState.nametbl 5) = false
              ∧ exNameResState.pstate.scope = 2))
      ∧ (¬ (isNull (nameLookup exNameResState.nametbl 5) = false
              ∧ exNameResState.pstate.scope = 2) →
          new = [] ∧ scope1 = exNameResState.pstate.scope
          ∧ c1.nametbl = nameHook exNameResState.nametbl exNameResState.pstate.blk
              (.vardcl AstTag.VarNameDclNode 5 exI32 (.typ (AstTag.other 3) 2)
                (.exp AstTag.ULitNode 0 exI32) exNameResState.pstate.scope) 5
          ∧ nameLookup c1.nametbl 5
              = .vardcl AstTag.VarNameDclNode 5 exI32 (.typ (AstTag.other 3) 2)
                  (.exp AstTag.ULitNode 0 exI32) exNameResState.pstate.scope)
      ∧ ((isNull (nameLookup exNameResState.nametbl 5) = false
              ∧ exNameResState.pstate.scope = 2) →
          c1.nametbl = exNameResState.nametbl ∧ scope1 = 0) :=
  varDclNameResolve_binding exAstWalk exNameResState AstTag.VarNameDclNode 5 exI32
    (.typ (AstTag.other 3) 2) (.exp AstTag.ULitNode 0 exI32) 0 2 (by decide)
    (by intro h; cases h)

/-- C20: in the NameResolution pass, for a name-use whose module reference is NULL or a
module, nameUsePass leaves a name-use whose declaration reference is non-null and
records nothing, or leaves one whose declaration reference is NULL and records one
ErrorUnkName anchored at that name-use. -/
theorem nameUsePass_resolved_or_ErrorUnkName (c : CompState) (tag : AstTag) (namesym : Name)
    (mod dclnode vtype : AstNode)
    (hpass : c.pstate.pass = Pass.NameResolution)
    (hmod : isNull mod = true ∨ ∃ t id namednodes, mod = .module t id namednodes) :
    ∃ dclnode1 new,
      nameUsePass c (.nameuse tag namesym mod dclnode vtype)
        = some ({ pstate := c.pstate, errs := c.errs ++ new, nametbl := c.nametbl },
                .nameuse tag namesym mod dclnode1 vtype)
      ∧ (isNull dclnode1 = false ∨
          new = [(ErrorCode.ErrorUnkName, .nameuse tag namesym mod dclnode1 vtype)])
      ∧ (ErrorCode.ErrorUnkName ∈ errorCodes new ↔ isNull dclnode1 = true)
      ∧ (isNull dclnode1 = false → new = []) := by
  have hfinish : ∀ d : AstNode,
      (if isNull d = true then
          some (({ pstate := c.pstate,
                   errs := errorMsgNode c.errs (.nameuse tag namesym mod d vtype)
                     ErrorCode.ErrorUnkName,
                   nametbl := c.nametbl } : CompState),
                AstNode.nameuse tag namesym mod d vtype)
        else some (c, AstNode.nameuse tag namesym mod d vtype))
      = some ({ pstate := c.pstate,
                errs := c.errs ++ (if isNull d = true
                  then [(ErrorCode.ErrorUnkName, .nameuse tag namesym mod d vtype)] else []),
                nametbl := c.nametbl },
              .nameuse tag namesym mod d vtype) := by
    intro d
    by_cases hd : isNull d = true
    · simp [hd, errorMsgNode]
    · simp [hd]
  have hprops : ∀ d : AstNode,
      (isNull d = false ∨
        (if isNull d = true
          then [(ErrorCode.ErrorUnkName, AstNode.nameuse tag namesym mod d vtype)] else [])
          = [(ErrorCode.ErrorUnkName, .nameuse tag namesym mod d vtype)])
      ∧ (ErrorCode.ErrorUnkName ∈ errorCodes (if isNull d = true
          then [(ErrorCode.ErrorUnkName, AstNode.nameuse tag namesym mod d vtype)] else [])
          ↔ isNull d = true)
      ∧ (isNull d = false → (if isNull d = true
          then [(ErrorCode.ErrorUnkName, AstNode.nameuse tag namesym mod d vtype)] else [])
          = []) := by
    intro d
    by_cases hd : isNull d = true
    · simp [hd, errorCodes]
    · simp [hd, errorCodes]
  by_cases hglobal : (isNull mod || sameModule mod c.pstate.mod) = true
  · refine ⟨nameLookup c.nametbl namesym, _, ?_, hprops _⟩
    simp only [nameUsePass, hpass, hglobal, ↓reduceIte]
    exact hfinish _
  · have hnn : isNull mod = false := by
      cases h : isNull mod
      · rfl
      · simp [h] at hglobal
    rcases hmod with hmod | ⟨t, id, namednodes, rfl⟩
    · rw [hmod] at hnn; cases hnn
    · cases hfind : inodesFind namednodes namesym with
      | none =>
        refine ⟨dclnode, _, ?_, hprops _⟩
        simp only [nameUsePass, hpass, hglobal, Bool.false_eq_true, ↓reduceIte, hfind]
        exact hfinish _
      | some symnode =>
        refine ⟨symnode.2, _, ?_, hprops _⟩
        simp only [nameUsePass, hpass, hglobal, Bool.false_eq_true, ↓reduceIte, hfind]
        exact hfinish _

/-- C20 (witness): the use of a name that no declaration binds records ErrorUnkName. -/
theorem nameUsePass_resolved_or_ErrorUnkName_witness :
    ∃ dclnode1 new,
      nameUsePass exNameResState exUnknownUse
        = some ({ pstate := exNameResState.pstate, errs := exNameResState.errs ++ new,
                  nametbl := exNameResState.nametbl },
                .nameuse AstTag.NameUseNode 99 .null dclnode1 .voidType)
      ∧ (isNull dclnode1 = false ∨
          new = [(ErrorCode.ErrorUnkName,
            .nameuse AstTag.NameUseNode 99 .null dclnode1 .voidType)])
      ∧ (ErrorCode.ErrorUnkName ∈ errorCodes new ↔ isNull dclnode1 = true)
      ∧ (isNull dclnode1 = false → new = []) :=
  nameUsePass_resolved_or_ErrorUnkName exNameResState AstTag.NameUseNode 99 .null .null
    .voidType rfl (Or.inl rfl)

/-! ## Ordered and named sequences -/

/-- For a list within its capacity that has room for at least one slot and whose
capacity is below `2^30`, nodesAdd returns a list with one element more: its last
element is the added node and the elements before it are the previous ones in their
order. The capacity is unchanged when the list was not full and doubled when it was. -/
theorem nodesAdd_appends {α : Type} (nodes : Nodes α) (node : α)
    (hpos : 0 < nodes.avail) (hcap : nodes.used ≤ nodes.avail) (hfit : nodes.avail < 2 ^ 30) :
    ∃ nodes1, nodesAdd nodes node = some nodes1
      ∧ nodes1.used = nodes.used + 1
      ∧ nodesLast nodes1 = some node
      ∧ nodes1.elems.take nodes.used = nodes.elems
      ∧ (∀ i, i < nodes.used → nodes1.elems[i]? = nodes.elems[i]?)
      ∧ nodes1.elems[nodes.used]? = some node
      ∧ nodes1.used ≤ nodes1.avail
      ∧ (nodes.used < nodes.avail → nodes1.avail = nodes.avail)
      ∧ (nodes.avail ≤ nodes.used → nodes1.avail = nodes.avail * 2) := by
  obtain ⟨nodes1, hadd⟩ := nodesAdd_defined nodes node hpos hcap hfit
  obtain ⟨helems, hused, hwithin, hsame, hdouble⟩ := nodesAdd_some nodes nodes1 node hadd
  refine ⟨nodes1, hadd, hused, ?_, ?_, ?_, ?_, hwithin, hsame, hdouble⟩
  · simp [nodesLast, helems]
  · simp [helems, Nodes.used]
  · intro i hi
    rw [helems]
    exact List.getElem?_append_left hi
  · rw [helems]
    simp [Nodes.used]

/-- C26: on a list of capacity 0, as `newNodes(0)` creates it, nodesAdd has no defined
result: the block it grows to has twice 0 slots, and the node is written in slot 0,
outside the block. No list with the node as its last element comes out. -/
theorem nodesAdd_capacity_zero_undefined :
    (newNodes 0 : Nodes AstNode).used = 0 ∧ (newNodes 0 : Nodes AstNode).avail = 0
    ∧ nodesGrow (newNodes 0 : Nodes AstNode) = some (Nodes.mk 0 [])
    ∧ nodesAdd (newNodes 0) exOne = none :=
  ⟨rfl, rfl, rfl, rfl⟩

theorem nameUsePass_nameres_eq (c : CompState) (tag : AstTag) (namesym : Name)
    (mod dclnode vtype dclnode1 : AstNode)
    (hpass : c.pstate.pass = Pass.NameResolution)
    (hdcl : (if (isNull mod || sameModule mod c.pstate.mod) = true then
          some (nameLookup c.nametbl namesym)
        else
          match mod with
          | .module _ _ namednodes =>
            match inodesFind namednodes namesym with
            | some symnode => some symnode.2
            | none => some dclnode
          | _ => none) = some dclnode1) :
    nameUsePass c (.nameuse tag namesym mod dclnode vtype)
      = some ({ pstate := c.pstate,
                errs := c.errs ++ (if isNull dclnode1 = true then
                  [(ErrorCode.ErrorUnkName, .nameuse tag namesym mod dclnode1 vtype)] else []),
                nametbl := c.nametbl },
              .nameuse tag namesym mod dclnode1 vtype) := by
  simp only [nameUsePass, hpass, hdcl]
  by_cases hd : isNull dclnode1 = true
  · simp [hd, errorMsgNode]
  · simp [hd]

/-- C21 (counterexample): the use `exModule::x` resolved while `exModule` itself is the
module being resolved and a local `x` shadows the global one: the named nodes of the
module hold the global declaration, but dclnode is bound to the local declaration, the
top binding of the name chain. -/
theorem nameUsePass_current_module_counterexample :
    inodesFind (inodesAdd (newInodes 4) 5 exDclFirst) 5 = some (5, exDclFirst)
    ∧ nameLookup exModuleState.nametbl 5 = exVarDcl
    ∧ dclScope exDclFirst = some 0 ∧ dclScope exVarDcl = some 2
    ∧ nameUsePass exModuleState exQualifiedUse
      = some (exModuleState, .nameuse AstTag.NameUseNode 5 exModule exVarDcl .voidType) :=
  ⟨rfl, rfl, rfl, rfl, rfl⟩

/-- C21 (amended): in the NameResolution pass, for a name-use that carries a reference
to a module: when that module is not the module being resolved, dclnode becomes the
node that inodesFind gives for the name in the named nodes of the referenced module,
whatever the name chain binds the name to, and stays as it was when inodesFind finds
nothing; when that module is the module being resolved, dclnode becomes the top binding
of the name chain. ErrorUnkName is recorded when dclnode is NULL afterwards. -/
theorem nameUsePass_module_lookup (c : CompState) (tag : AstTag) (namesym : Name)
    (modtag : AstTag) (modid : Nat) (namednodes : Inodes AstNode) (dclnode vtype : AstNode)
    (hpass : c.pstate.pass = Pass.NameResolution) :
    (sameModule (.module modtag modid namednodes) c.pstate.mod = false →
      ∀ symnode, inodesFind namednodes namesym = some symnode →
        nameUsePass c (.nameuse tag namesym (.module modtag modid namednodes) dclnode vtype)
          = some ({ pstate := c.pstate,
                    errs := c.errs ++ (if isNull symnode.2 = true then
                      [(ErrorCode.ErrorUnkName,
                        .nameuse tag namesym (.module modtag modid namednodes) symnode.2 vtype)]
                      else []),
                    nametbl := c.nametbl },
                  .nameuse tag namesym (.module modtag modid namednodes) symnode.2 vtype))
    ∧ (sameModule (.module modtag modid namednodes) c.pstate.mod = false →
        inodesFind namednodes namesym = none →
        nameUsePass c (.nameuse tag namesym (.module modtag modid namednodes) dclnode vtype)
          = some ({ pstate := c.pstate,
                    errs := c.errs ++ (if isNull dclnode = true then
                      [(ErrorCode.ErrorUnkName,
                        .nameuse tag namesym (.module modtag modid namednodes) dclnode vtype)]
                      else []),
                    nametbl := c.nametbl },
                  .nameuse tag namesym (.module modtag modid namednodes) dclnode vtype))
    ∧ (sameModule (.module modtag modid namednodes) c.pstate.mod = true →
        nameUsePass c (.nameuse tag namesym (.module modtag modid namednodes) dclnode vtype)
          = some ({ pstate := c.pstate,
                    errs := c.errs ++ (if isNull (nameLookup c.nametbl namesym) = true then
                      [(ErrorCode.ErrorUnkName,
                        .nameuse tag namesym (.module modtag modid namednodes)
                          (nameLookup c.nametbl namesym) vtype)]
                      else []),
                    nametbl := c.nametbl },
                  .nameuse tag namesym (.module modtag modid namednodes)
                    (nameLookup c.nametbl namesym) vtype)) := by
  refine ⟨?_, ?_, ?_⟩
  · intro hsame symnode hfind
    apply nameUsePass_nameres_eq c tag namesym _ dclnode vtype symnode.2 hpass
    simp [isNull, hsame, hfind]
  · intro hsame hfind
    apply nameUsePass_nameres_eq c tag namesym _ dclnode vtype dclnode hpass
    simp [isNull, hsame, hfind]
  · intro hsame
    apply nameUsePass_nameres_eq c tag namesym _ dclnode vtype _ hpass
    simp [hsame]

/-- C21 (witness): the use `exModule::x` resolved while another module is resolved and a
local `x` shadows the global one: dclnode is the global declaration held by the named
nodes of `exModule`. -/
theorem nameUsePass_module_lookup_witness :
    nameUsePass exOtherModuleState exQualifiedUse
      = some ({ pstate := exOtherModuleState.pstate,
                errs := exOtherModuleState.errs ++ (if isNull exDclFirst = true then
                  [(ErrorCode.ErrorUnkName,
                    .nameuse AstTag.NameUseNode 5
                      (.module AstTag.ModuleNode 1 (inodesAdd (newInodes 4) 5 exDclFirst))
                      exDclFirst .voidType)]
                  else []),
                nametbl := exOtherModuleState.nametbl },
              .nameuse AstTag.NameUseNode 5
                (.module AstTag.ModuleNode 1 (inodesAdd (newInodes 4) 5 exDclFirst))
                exDclFirst .voidType) :=
  (nameUsePass_module_lookup exOtherModuleState AstTag.NameUseNode 5 AstTag.ModuleNode 1
    (inodesAdd (newInodes 4) 5 exDclFirst) .null .voidType rfl).1 rfl (5, exDclFirst) rfl

/-! ## Address-of and dereference -/

/-- C22: in the TypeCheck pass, for a borrow (the allocator of the reference type is
void) whose inner expression is a VarNameUseTag name-use of a VarNameDclNode
declaration, addrPass, through addrTypeCheckBorrow, records one ErrorBadPerm anchored at
the address-of node when permMatches of the reference's permission and the variable's
permission is false, and records nothing when it is true. -/
theorem addrPass_borrow_permission (astPass : AstPass) (isValueNode : AstNode → Bool)
    (permMatches : AstNode → AstNode → Bool)
    (allocAllocate : Ctx → AstNode → Option (Ctx × AstNode))
    (c c1 : Ctx) (tag ptag : AstTag) (exp pvtype perm : AstNode)
    (namesym : Name) (mod usevtype : AstNode)
    (dclsym : Name) (dclvtype dclperm dclvalue : AstNode) (dclscope : Int)
    (hwalk : astPass c exp = some (c1, .nameuse AstTag.VarNameUseTag namesym mod
      (.vardcl AstTag.VarNameDclNode dclsym dclvtype dclperm dclvalue dclscope) usevtype))
    (hpass : c1.pstate.pass = Pass.TypeCheck)
    (hvalue : isValueNode (.nameuse AstTag.VarNameUseTag namesym mod
      (.vardcl AstTag.VarNameDclNode dclsym dclvtype dclperm dclvalue dclscope) usevtype) = true) :
    addrPass astPass isValueNode permMatches allocAllocate c
        (.addr tag exp (.ptr ptag pvtype perm .voidType))
      = some ({ pstate := c1.pstate,
                errs := c1.errs ++ (if permMatches perm dclperm = true then []
                  else [(ErrorCode.ErrorBadPerm,
                    .addr tag (.nameuse AstTag.VarNameUseTag namesym mod
                        (.vardcl AstTag.VarNameDclNode dclsym dclvtype dclperm dclvalue dclscope)
                        usevtype)
                      (.ptr ptag (if isNull pvtype = true then usevtype else pvtype) perm
                        .voidType))]) },
              .addr tag (.nameuse AstTag.VarNameUseTag namesym mod
                  (.vardcl AstTag.VarNameDclNode dclsym dclvtype dclperm dclvalue dclscope)
                  usevtype)
                (.ptr ptag (if isNull pvtype = true then usevtype else pvtype) perm .voidType)) := by
  by_cases hpv : isNull pvtype = true
  · have hp : pvtype = .null := by cases pvtype <;> simp [isNull] at hpv ⊢
    subst hp
    by_cases hm : permMatches perm dclperm = true
    · simp [addrPass, hwalk, hpass, hvalue, isNull, isVoidType, addrTypeCheckBorrow,
        AstNode.asttype, AstNode.vtype, hm]
    · simp [addrPass, hwalk, hpass, hvalue, isNull, isVoidType, addrTypeCheckBorrow,
        AstNode.asttype, AstNode.vtype, hm, errorMsgNode]
  · have hpv : isNull pvtype = false := by simpa using hpv
    by_cases hm : permMatches perm dclperm = true
    · simp [addrPass, hwalk, hpass, hvalue, hpv, isVoidType, addrTypeCheckBorrow,
        AstNode.asttype, hm]
    · simp [addrPass, hwalk, hpass, hvalue, hpv, isVoidType, addrTypeCheckBorrow,
        AstNode.asttype, hm, errorMsgNode]

/-- C22 (witness): the borrow `&mut x` of the immutable variable `x`, with a permission
test that fails: one ErrorBadPerm is recorded at the address-of node. -/
theorem addrPass_borrow_permission_witness :
    addrPass exAstPass exIsExpNode exPermMatchesNone exAllocAllocate exTypeCheckCtx exBorrowMut
      = some ({ pstate := exTypeCheckCtx.pstate,
                errs := exTypeCheckCtx.errs
                  ++ (if exPermMatchesNone exMutPerm (.typ (AstTag.other 3) 2) = true then []
                    else [(ErrorCode.ErrorBadPerm,
                      .addr AstTag.AddrNode
                        (.nameuse AstTag.VarNameUseTag 5 .null
                          (.vardcl AstTag.VarNameDclNode 5 exI32 (.typ (AstTag.other 3) 2)
                            (.exp AstTag.ULitNode 0 exI32) 2) exI32)
                        (.ptr AstTag.RefType (if isNull exI32 = true then exI32 else exI32)
                          exMutPerm .voidType))]) },
              .addr AstTag.AddrNode
                (.nameuse AstTag.VarNameUseTag 5 .null
                  (.vardcl AstTag.VarNameDclNode 5 exI32 (.typ (AstTag.other 3) 2)
                    (.exp AstTag.ULitNode 0 exI32) 2) exI32)
                (.ptr AstTag.RefType (if isNull exI32 = true then exI32 else exI32)
                  exMutPerm .voidType)) :=
  addrPass_borrow_permission exAstPass exIsExpNode exPermMatchesNone exAllocAllocate
    exTypeCheckCtx exTypeCheckCtx AstTag.AddrNode AstTag.RefType exVarUse exI32 exMutPerm
    5 .null exI32 5 exI32 (.typ (AstTag.other 3) 2) (.exp AstTag.ULitNode 0 exI32) 2
    rfl rfl rfl

/-- C23 (counterexample): the borrow `&imm 1` of a literal, which is not a name-use of a
variable declaration: the type check records ErrorNotLval at the address-of node, and
ErrorBadPerm is not recorded. -/
theorem addrPass_borrow_literal_counterexample :
    exOne.asttype = some AstTag.ULitNode
    ∧ addrPass exAstPass exIsExpNode exPermMatchesNone exAllocAllocate exTypeCheckCtx
        exBorrowLit
      = some ({ pstate := exTypeCheckCtx.pstate,
                errs := [(ErrorCode.ErrorNotLval, exBorrowLit)] }, exBorrowLit)
    ∧ ErrorCode.ErrorBadPerm ∉ errorCodes [(ErrorCode.ErrorNotLval, exBorrowLit)] :=
  ⟨rfl, rfl, by decide⟩

/-- C23 (amended): in the TypeCheck pass, for a borrow whose inner expression is a value
node with a type but not a VarNameUseTag name-use of a VarNameDclNode declaration (its tag
is another one, or its declaration has another tag), addrPass records one error, ErrorNotLval,
anchored at the address-of node; it does not record ErrorBadPerm. -/
theorem addrPass_borrow_not_variable (astPass : AstPass) (isValueNode : AstNode → Bool)
    (permMatches : AstNode → AstNode → Bool)
    (allocAllocate : Ctx → AstNode → Option (Ctx × AstNode))
    (c c1 : Ctx) (tag ptag exptag : AstTag) (exp exp1 expvtype pvtype perm : AstNode)
    (hwalk : astPass c exp = some (c1, exp1))
    (hpass : c1.pstate.pass = Pass.TypeCheck)
    (hvalue : isValueNode exp1 = true)
    (hvt : exp1.vtype = some expvtype)
    (htag : exp1.asttype = some exptag)
    (hnotvar : exptag ≠ AstTag.VarNameUseTag
      ∨ ∃ t namesym mod dclnode usevtype dcltag, exp1 = .nameuse t namesym mod dclnode usevtype
          ∧ dclnode.asttype = some dcltag ∧ dcltag ≠ AstTag.VarNameDclNode) :
    addrPass astPass isValueNode permMatches allocAllocate c
        (.addr tag exp (.ptr ptag pvtype perm .voidType))
      = some ({ pstate := c1.pstate,
                errs := c1.errs ++ [(ErrorCode.ErrorNotLval,
                  .addr tag exp1
                    (.ptr ptag (if isNull pvtype = true then expvtype else pvtype) perm
                      .voidType))] },
              .addr tag exp1
                (.ptr ptag (if isNull pvtype = true then expvtype else pvtype) perm .voidType))
    ∧ ErrorCode.ErrorBadPerm ∉ errorCodes [(ErrorCode.ErrorNotLval,
        AstNode.addr tag exp1
          (.ptr ptag (if isNull pvtype = true then expvtype else pvtype) perm .voidType))] := by
  refine ⟨?_, by simp [errorCodes]⟩
  have hborrow : ∀ ptype : AstNode,
      addrTypeCheckBorrow permMatches (.addr tag exp1 ptype) ptype c1.errs
        = some (c1.errs ++ [(ErrorCode.ErrorNotLval, .addr tag exp1 ptype)]) := by
    intro ptype
    rcases hnotvar with hne | ⟨t, namesym, mod, dclnode, usevtype, dcltag, rfl, hd, hdne⟩
    · simp [addrTypeCheckBorrow, htag, hne, errorMsgNode]
    · by_cases hne : exptag = AstTag.VarNameUseTag
      · simp [addrTypeCheckBorrow, htag, hne, hd, hdne, errorMsgNode]
      · simp [addrTypeCheckBorrow, htag, hne, errorMsgNode]
  by_cases hpv : isNull pvtype = true
  · have hp : pvtype = .null := by cases pvtype <;> simp [isNull] at hpv ⊢
    subst hp
    simp [addrPass, hwalk, hpass, hvalue, isNull, isVoidType, hvt, hborrow]
  · have hpv : isNull pvtype = false := by simpa using hpv
    simp [addrPass, hwalk, hpass, hvalue, hpv, isVoidType, hborrow]

/-- C23 (witness): the borrow `&imm 1` of a literal records ErrorNotLval. -/
theorem addrPass_borrow_not_variable_witness :
    addrPass exAstPass exIsExpNode exPermMatchesNone exAllocAllocate exTypeCheckCtx
        (.addr AstTag.AddrNode exOne (.ptr AstTag.RefType exI32 exImmPerm .voidType))
      = some ({ pstate := exTypeCheckCtx.pstate,
                errs := exTypeCheckCtx.errs ++ [(ErrorCode.ErrorNotLval,
                  .addr AstTag.AddrNode exOne
                    (.ptr AstTag.RefType (if isNull exI32 = true then exI32 else exI32)
                      exImmPerm .voidType))] },
              .addr AstTag.AddrNode exOne
                (.ptr AstTag.RefType (if isNull exI32 = true then exI32 else exI32) exImmPerm
                  .voidType))
    ∧ ErrorCode.ErrorBadPerm ∉ errorCodes [(ErrorCode.ErrorNotLval,
        AstNode.addr AstTag.AddrNode exOne
          (.ptr AstTag.RefType (if isNull exI32 = true then exI32 else exI32) exImmPerm
            .voidType))] :=
  addrPass_borrow_not_variable exAstPass exIsExpNode exPermMatchesNone exAllocAllocate
    exTypeCheckCtx exTypeCheckCtx AstTag.AddrNode AstTag.RefType AstTag.ULitNode exOne exOne
    exI32 exI32 exImmPerm rfl rfl rfl rfl rfl (Or.inl (by decide))

/-- C24: in the TypeCheck pass, for a dereference whose inner expression has a type with
a tag: when that type is a reference or pointer type, derefPass sets the value type of
the node to what the type points to and records nothing; otherwise it records
ErrorNotPtr at the node and leaves its value type as it was. -/
theorem derefPass_ErrorNotPtr_iff (astPass : AstPass) (c c1 : Ctx) (tag ptag : AstTag)
    (exp vtype exp1 ptype pvtype perm alloc : AstNode)
    (hwalk : astPass c exp = some (c1, exp1))
    (hpass : c1.pstate.pass = Pass.TypeCheck)
    (hvt : exp1.vtype = some ptype)
    (hptag : ptype.asttype = some ptag)
    (hlayout : (ptag = AstTag.RefType ∨ ptag = AstTag.PtrType) →
      ptype = .ptr ptag pvtype perm alloc) :
    ∃ node1 new,
      derefPass astPass c (.deref tag exp vtype)
        = some ({ pstate := c1.pstate, errs := c1.errs ++ new }, node1)
      ∧ (ErrorCode.ErrorNotPtr ∈ errorCodes new
          ↔ ¬ (ptag = AstTag.RefType ∨ ptag = AstTag.PtrType))
      ∧ ((ptag = AstTag.RefType ∨ ptag = AstTag.PtrType) →
          node1 = .deref tag exp1 pvtype ∧ new = [])
      ∧ (¬ (ptag = AstTag.RefType ∨ ptag = AstTag.PtrType) →
          node1 = .deref tag exp1 vtype ∧ new = [(ErrorCode.ErrorNotPtr, node1)]) := by
  by_cases hp : ptag = AstTag.RefType ∨ ptag = AstTag.PtrType
  · have hl := hlayout hp
    refine ⟨.deref tag exp1 pvtype, [], ?_, ?_, ?_, ?_⟩
    · subst hl
      simp [derefPass, hwalk, hpass, hvt, AstNode.asttype, hp]
    · simp [errorCodes, hp]
    · intro _; exact ⟨rfl, rfl⟩
    · intro h; exact absurd hp h
  · refine ⟨.deref tag exp1 vtype, [(ErrorCode.ErrorNotPtr, .deref tag exp1 vtype)],
      ?_, ?_, ?_, ?_⟩
    · simp [derefPass, hwalk, hpass, hvt, hptag, hp, errorMsgNode]
    · simp [errorCodes, hp]
    · intro h; exact absurd h hp
    · intro _; exact ⟨rfl, rfl⟩

/-- C24 (witness): the dereference `*r` of a variable of type `&imm i32` gets the value
type `i32`. -/
theorem derefPass_ErrorNotPtr_iff_witness :
    ∃ node1 new,
      derefPass exAstPass exTypeCheckCtx (.deref AstTag.DerefNode exRefUse .voidType)
        = some ({ pstate := exTypeCheckCtx.pstate, errs := exTypeCheckCtx.errs ++ new }, node1)
      ∧ (ErrorCode.ErrorNotPtr ∈ errorCodes new
          ↔ ¬ (AstTag.RefType = AstTag.RefType ∨ AstTag.RefType = AstTag.PtrType))
      ∧ ((AstTag.RefType = AstTag.RefType ∨ AstTag.RefType = AstTag.PtrType) →
          node1 = .deref AstTag.DerefNode exRefUse exI32 ∧ new = [])
      ∧ (¬ (AstTag.RefType = AstTag.RefType ∨ AstTag.RefType = AstTag.PtrType) →
          node1 = .deref AstTag.DerefNode exRefUse .voidType
          ∧ new = [(ErrorCode.ErrorNotPtr, node1)]) :=
  derefPass_ErrorNotPtr_iff exAstPass exTypeCheckCtx exTypeCheckCtx AstTag.DerefNode
    AstTag.RefType exRefUse .voidType exRefUse
    (.ptr AstTag.RefType exI32 exImmPerm .voidType) exI32 exImmPerm .voidType
    rfl rfl rfl rfl (fun _ => rfl)

/-- C25: for an expression whose type, as typeGetVtype gives it, has a tag: when the
tag is RefType (and the value type of the expression is that reference type),
derefAuto puts in the slot a new DerefNode whose inner expression is the original one
and whose value type is what the reference type points to; for any other tag it
leaves the slot as it is. -/
theorem derefAuto_wraps_reference (typeGetVtype : AstNode → AstNode) (node : AstNode)
    (t ptag : AstTag) (pvtype perm alloc : AstNode)
    (htag : (typeGetVtype node).asttype = some t)
    (hlayout : t = AstTag.RefType → node.vtype = some (.ptr ptag pvtype perm alloc)) :
    (t = AstTag.RefType →
      derefAuto typeGetVtype node = some (.deref AstTag.DerefNode node pvtype))
    ∧ (t ≠ AstTag.RefType → derefAuto typeGetVtype node = some node) := by
  constructor
  · intro ht
    simp [derefAuto, htag, ht, hlayout ht]
  · intro ht
    simp [derefAuto, htag, ht]

/-- C25 (witness): the use of a variable of type `&imm i32` is wrapped in a dereference
of value type `i32`. -/
theorem derefAuto_wraps_reference_witness :
    derefAuto exTypeGetVtype exRefUse = some (.deref AstTag.DerefNode exRefUse exI32) :=
  (derefAuto_wraps_reference exTypeGetVtype exRefUse AstTag.RefType AstTag.RefType exI32
    exImmPerm .voidType rfl (fun _ => rfl)).1 rfl

/-! ## Struct equality, tuple returns, implicit return twice -/

/-- C28: structEqual answers true for every two structs; it does so for the struct `A`
without fields and the struct `B` with one field, whose field lists differ in
length. -/
theorem structEqual_always_true :
    (∀ node1 node2 : StructNode, structEqual node1 node2 = true)
    ∧ exStructNoField.fields.used = 0 ∧ exStructOneField.fields.used = 1
    ∧ structEqual exStructNoField exStructOneField = true :=
  ⟨fun _ _ => rfl, rfl, rfl, rfl⟩

/-- C29: inside a function that returns `(i32, i32)`, the return of the value tuple
`1, 5, 7` (three values for two return types) records no error: returnTypeCheck coerces
the first two values, leaves the third one alone and gives the tuple the return type of
the function. -/
theorem returnTypeCheck_too_many_values :
    (Nodes.mk 2 [exI32, exI32]).used = 2
    ∧ (Nodes.mk 4 [exOne, exFive, exSeven]).used = 3
    ∧ returnTypeCheck (fun ifnode => ifnode) exCoerceOk exTupleFnCtx
        (.breakret AstTag.ReturnNode exTupleThree .null)
      = some ({ pstate := exTupleFnCtx.pstate, errs := [] },
          .breakret AstTag.ReturnNode
            (.tuple AstTag.VTupleTag (Nodes.mk 4 [exOne, exFive, exSeven]) exTupleType)
            .null) :=
  ⟨rfl, rfl, rfl⟩

/-- With a tuple as return type, returnTypeCheck records ErrorBadTerm at the expression
when the expression is not a value tuple, and when it is a value tuple with fewer
values than there are return types. -/
theorem returnTypeCheck_tuple_errors (ifRemoveReturns : AstNode → AstNode)
    (coerce : Ctx → AstNode → AstNode → Option (Ctx × Bool × AstNode))
    (c : Ctx) (tag sigtag exptag : AstTag) (exp dealias : AstNode)
    (rettypes : Nodes AstNode) (parms : Inodes AstNode) (rvtype : AstNode)
    (hsig : c.pstate.fnsig = .fnsig sigtag (.tuple AstTag.TTupleTag rettypes rvtype) parms)
    (hexptag : exp.asttype = some exptag) (hnotif : exptag ≠ AstTag.IfTag) :
    (exptag ≠ AstTag.VTupleTag →
      returnTypeCheck ifRemoveReturns coerce c (.breakret tag exp dealias)
        = some ({ pstate := c.pstate, errs := c.errs ++ [(ErrorCode.ErrorBadTerm, exp)] },
                .breakret tag exp dealias))
    ∧ (∀ retnodes evtype, exp = .tuple AstTag.VTupleTag retnodes evtype →
        retnodes.used < rettypes.used →
        returnTypeCheck ifRemoveReturns coerce c (.breakret tag exp dealias)
          = some ({ pstate := c.pstate, errs := c.errs ++ [(ErrorCode.ErrorBadTerm, exp)] },
                  .breakret tag exp dealias)) := by
  constructor
  · intro hne
    have hrt : (AstNode.tuple AstTag.TTupleTag rettypes rvtype).asttype
        = some AstTag.TTupleTag := rfl
    simp [returnTypeCheck, hexptag, hsig, hrt, hnotif, hne, errorMsgNode]
  · intro retnodes evtype hexp hfew
    subst hexp
    have hgt : rettypes.used > retnodes.used := hfew
    simp [returnTypeCheck, hsig, AstNode.asttype, hgt, errorMsgNode]

/-- C30: with an `isExpNode` that is false on nodes tagged ReturnNode, applying
fnImplicitReturn to a block that a first application has given back leaves that block as
it is; and when the first application recorded no error, the second one records
none. -/
theorem fnImplicitReturn_idempotent (isExpNode : AstNode → Bool)
    (rettype blk blk1 : AstNode) (errs errs1 errs2 : Errors)
    (hret : ∀ node, node.asttype = some AstTag.ReturnNode → isExpNode node = false)
    (hfirst : fnImplicitReturn isExpNode rettype blk errs = some (blk1, errs1)) :
    ∃ new, fnImplicitReturn isExpNode rettype blk1 errs2 = some (blk1, errs2 ++ new)
      ∧ (errs1 = errs → new = []) := by
  unfold fnImplicitReturn at hfirst
  cases blk with
  | block blktag stmts =>
    simp only at hfirst
    cases hlast : nodesLast stmts with
    | none => simp [hlast] at hfirst
    | some laststmt =>
      simp only [hlast] at hfirst
      cases htag : laststmt.asttype with
      | none => simp [htag] at hfirst
      | some lasttag =>
        simp only [htag] at hfirst
        by_cases hvoid : isVoidType rettype = true
        · simp only [hvoid, ↓reduceIte] at hfirst
          by_cases hr : lasttag = AstTag.ReturnNode
          · simp only [hr, ne_eq, not_true_eq_false, ↓reduceIte, Option.some.injEq,
              Prod.mk.injEq] at hfirst
            refine ⟨[], ?_, fun _ => rfl⟩
            rw [← hfirst.1]
            simp [fnImplicitReturn, hlast, htag, hvoid, hr]
          · simp only [ne_eq, hr, not_false_eq_true, ↓reduceIte] at hfirst
            cases hadd : nodesAdd stmts newReturnNode with
            | none => simp [hadd] at hfirst
            | some stmts1 =>
              simp only [hadd, Option.some.injEq, Prod.mk.injEq] at hfirst
              obtain ⟨helems, -⟩ := nodesAdd_some stmts stmts1 newReturnNode hadd
              refine ⟨[], ?_, fun _ => rfl⟩
              rw [← hfirst.1]
              have hl : nodesLast stmts1 = some newReturnNode := by
                simp [nodesLast, helems]
              simp only [fnImplicitReturn, hl]
              simp [newReturnNode, AstNode.asttype, hvoid]
        · have hvoid : isVoidType rettype = false := by simpa using hvoid
          simp only [hvoid, Bool.false_eq_true, ↓reduceIte] at hfirst
          by_cases hexp : isExpNode laststmt = true
          · simp only [hexp, ↓reduceIte, Option.some.injEq, Prod.mk.injEq] at hfirst
            refine ⟨[], ?_, fun _ => rfl⟩
            rw [← hfirst.1]
            have hl : nodesLast (nodesSetLast stmts (.stmtexp AstTag.ReturnNode laststmt))
                = some (.stmtexp AstTag.ReturnNode laststmt) := by
              simp [nodesLast, nodesSetLast]
            have hne : isExpNode (.stmtexp AstTag.ReturnNode laststmt) = false :=
              hret _ rfl
            simp [fnImplicitReturn, hl, AstNode.asttype, hvoid, hne]
          · have hexp : isExpNode laststmt = false := by simpa using hexp
            simp only [hexp, Bool.false_eq_true, ↓reduceIte] at hfirst
            by_cases hr : lasttag = AstTag.ReturnNode
            · simp only [hr, ne_eq, not_true_eq_false, ↓reduceIte, Option.some.injEq,
                Prod.mk.injEq] at hfirst
              refine ⟨[], ?_, fun _ => rfl⟩
              rw [← hfirst.1]
              simp [fnImplicitReturn, hlast, htag, hvoid, hexp, hr]
            · simp only [ne_eq, hr, not_false_eq_true, ↓reduceIte, Option.some.injEq,
                Prod.mk.injEq] at hfirst
              refine ⟨[(ErrorCode.ErrorNoRet, laststmt)], ?_, ?_⟩
              · rw [← hfirst.1]
                simp [fnImplicitReturn, hlast, htag, hvoid, hexp, hr, errorMsgNode]
              · intro heq
                exfalso
                rw [← hfirst.2] at heq
                have := congrArg List.length heq
                simp [errorMsgNode] at this
  | _ => simp at hfirst

/-- C30 (witness): the body holding the one statement `g()` of a function returning
`i32`: the first application wraps the call in a return, the second one changes
nothing. -/
theorem fnImplicitReturn_idempotent_witness :
    fnImplicitReturn exIsExpTag exI32
        (.block AstTag.BlockNode (Nodes.mk 8 [exCallStmt])) []
      = some (.block AstTag.BlockNode (Nodes.mk 8 [.stmtexp AstTag.ReturnNode exCallStmt]), [])
    ∧ ∃ new, fnImplicitReturn exIsExpTag exI32
        (.block AstTag.BlockNode (Nodes.mk 8 [.stmtexp AstTag.ReturnNode exCallStmt])) []
        = some (.block AstTag.BlockNode (Nodes.mk 8 [.stmtexp AstTag.ReturnNode exCallStmt]),
            [] ++ new)
      ∧ (([] : Errors) = [] → new = []) :=
  ⟨rfl,
    fnImplicitReturn_idempotent exIsExpTag exI32
      (.block AstTag.BlockNode (Nodes.mk 8 [exCallStmt]))
      (.block AstTag.BlockNode (Nodes.mk 8 [.stmtexp AstTag.ReturnNode exCallStmt])) [] [] []
      (by
        intro node h
        simp [exIsExpTag, h])
      rfl⟩

/-! ## Logic operators -/

/-- In every pass, once the operands have been walked, logicPass gives back the sink as
the walks left it and the value type the node had: the type check adds no error,
whatever `typeCoerces` answers. -/
theorem logicPass_sink (astPass : AstPass) (typeCoerces : AstNode → AstNode → Bool × AstNode)
    (boolType : AstNode) (c c1 c2 : Ctx) (tag : AstTag) (lexp rexp vtype lexp1 rexp1 : AstNode)
    (hl : astPass c lexp = some (c1, lexp1)) (hr : astPass c1 rexp = some (c2, rexp1)) :
    ∃ lexp2 rexp2, logicPass astPass typeCoerces boolType c (.logic tag lexp rexp vtype)
      = some (c2, .logic tag lexp2 rexp2 vtype) := by
  by_cases hpass : c2.pstate.pass = Pass.TypeCheck
  · exact ⟨(typeCoerces boolType lexp1).2, (typeCoerces boolType rexp1).2,
      by simp [logicPass, hl, hr, hpass]⟩
  · exact ⟨lexp1, rexp1, by simp [logicPass, hl, hr, hpass]⟩

/-- C31: in the TypeCheck pass, with operands that do not coerce to bool, logicNotPass
on `!1` and logicPass on `1 and 5` record no error: the sink is as empty as before. The
value type of each node stays bool. -/
theorem logicPass_failed_coercion_no_error :
    (exCoerceFails exBool exOne).1 = false
    ∧ (exCoerceFails exBool exFive).1 = false
    ∧ exTypeCheckCtx.errs = []
    ∧ logicNotPass exAstPass exCoerceFails exBool exTypeCheckCtx
        (newLogicAstNode exBool AstTag.NotLogicNode exOne .null)
      = some ({ pstate := exTypeCheckCtx.pstate, errs := [] },
          .logic AstTag.NotLogicNode exOne .null exBool)
    ∧ logicPass exAstPass exCoerceFails exBool exTypeCheckCtx
        (newLogicAstNode exBool AstTag.AndLogicNode exOne exFive)
      = some ({ pstate := exTypeCheckCtx.pstate, errs := [] },
          .logic AstTag.AndLogicNode exOne exFive exBool) :=
  ⟨rfl, rfl, rfl, rfl, rfl⟩

/-! ## Blocks -/

/-- C32: blockPass in the NameResolution pass on the block holding the one declaration
`imm x i32 = 0`. Entered at scope depth 1, the declaration is walked at depth 1: it is
not taken as a local variable, is not hooked and keeps its scope field 0. Entered at
scope depth 2, the declaration is walked at depth 2 (its scope field becomes 2, not 3)
and the binding it hooks is still in the name table when blockPass returns. -/
theorem blockPass_no_scope_no_unhook :
    exFnBodyState.pstate.scope = 1 ∧ exFnBodyState.nametbl = []
    ∧ blockPass exDclWalk exFnBodyState
        (.block AstTag.BlockNode (Nodes.mk 8 [exDclFirst]))
      = some (exFnBodyState, .block AstTag.BlockNode (Nodes.mk 8 [exDclFirst]))
    ∧ exNameResState.pstate.scope = 2 ∧ exNameResState.nametbl = []
    ∧ blockPass exDclWalk exNameResState
        (.block AstTag.BlockNode (Nodes.mk 8 [exDclFirst]))
      = some ({ pstate := exNameResState.pstate, errs := [],
                nametbl := [Hook.mk 5 emptyBlock exVarDcl] },
          .block AstTag.BlockNode (Nodes.mk 8 [exVarDcl])) :=
  ⟨rfl, rfl, rfl, rfl, rfl, rfl⟩

/-! ## Function bodies -/

/-- C33: varDclFnNameResolve walks the body once, in the state whose scope depth is 1
and whose name table is the one `inodesHook` leaves for the owner `name` and the
parameters of the signature. When that walk returns, the function returns with the
scope depth it was entered with, whatever depth the walk left, and with the name table
that `nameUnhook` leaves for the same owner `name`. -/
theorem varDclFnNameResolve_frame (astPass : AstWalk)
    (inodesHook : NameTbl → AstNode → Inodes AstNode → NameTbl)
    (nameUnhook : NameTbl → AstNode → NameTbl)
    (c c1 : CompState) (tag sigtag : AstTag) (namesym : Name)
    (rettype perm value value1 : AstNode) (parms : Inodes AstNode) (scope : Int)
    (hbody : astPass
        { pstate := { c.pstate with scope := 1 }, errs := c.errs,
          nametbl := inodesHook c.nametbl
            (.vardcl tag namesym (.fnsig sigtag rettype parms) perm value scope) parms }
        value = some (c1, value1)) :
    ∃ c2, varDclFnNameResolve astPass inodesHook nameUnhook c
        (.vardcl tag namesym (.fnsig sigtag rettype parms) perm value scope)
      = some (c2, .vardcl tag namesym (.fnsig sigtag rettype parms) perm value1 scope)
    ∧ c2.pstate.scope = c.pstate.scope
    ∧ c2.pstate.pass = c1.pstate.pass ∧ c2.errs = c1.errs
    ∧ c2.nametbl = nameUnhook c1.nametbl
        (.vardcl tag namesym (.fnsig sigtag rettype parms) perm value scope) := by
  refine ⟨{ pstate := { c1.pstate with scope := c.pstate.scope }, errs := c1.errs,
            nametbl := nameUnhook c1.nametbl
              (.vardcl tag namesym (.fnsig sigtag rettype parms) perm value scope) },
    ?_, rfl, rfl, rfl, rfl⟩
  simp only [varDclFnNameResolve, hbody]

/-- C33 (witness): the function `fn f(a i32, b i32 = 5) i32`, resolved at module level
with a walk of the body that leaves the scope depth at 7: the body is walked with the
two parameters hooked, and on return the scope depth is 0 again and the name table is
empty again. -/
theorem varDclFnNameResolve_frame_witness :
    (exInodesHook exGlobalState.nametbl exFnWithParms exParms).length = 2
    ∧ exNameUnhook (exInodesHook [] exFnWithParms exParms) exFnWithParms = []
    ∧ ∃ c2, varDclFnNameResolve exScopeWalk exInodesHook exNameUnhook exGlobalState
        (.vardcl AstTag.VarNameDclNode 3 (.fnsig AstTag.FnSig exI32 exParms) .null
          (.block AstTag.BlockNode (Nodes.mk 8 [exCallStmt])) 0)
      = some (c2, .vardcl AstTag.VarNameDclNode 3 (.fnsig AstTag.FnSig exI32 exParms) .null
          (.block AstTag.BlockNode (Nodes.mk 8 [exCallStmt])) 0)
    ∧ c2.pstate.scope = exGlobalState.pstate.scope
    ∧ c2.pstate.pass = Pass.NameResolution ∧ c2.errs = []
    ∧ c2.nametbl = exNameUnhook (exInodesHook [] exFnWithParms exParms)
        (.vardcl AstTag.VarNameDclNode 3 (.fnsig AstTag.FnSig exI32 exParms) .null
          (.block AstTag.BlockNode (Nodes.mk 8 [exCallStmt])) 0) :=
  ⟨rfl, rfl,
    varDclFnNameResolve_frame exScopeWalk exInodesHook exNameUnhook exGlobalState
      { pstate := { exGlobalState.pstate with scope := 7 }, errs := [],
        nametbl := exInodesHook [] exFnWithParms exParms }
      AstTag.VarNameDclNode AstTag.FnSig 3 exI32 .null
      (.block AstTag.BlockNode (Nodes.mk 8 [exCallStmt]))
      (.block AstTag.BlockNode (Nodes.mk 8 [exCallStmt])) exParms 0 rfl⟩

/-! ## Permissions -/

/-- C34: permMatches, as the table of the specification gives it, is transitive over
the seven permissions. -/
theorem permMatches_trans (a b c : Perm)
    (hab : permMatches a b = true) (hbc : permMatches b c = true) :
    permMatches a c = true := by
  cases a <;> cases b <;> cases c <;> simp [permMatches] at hab hbc ⊢

/-- C34 (witness): `mutx` accepts `mut`, `mut` accepts `uni`, and `mutx` accepts
`uni`. -/
theorem permMatches_trans_witness :
    permMatches Perm.MutxPerm Perm.MutPerm = true
    ∧ permMatches Perm.MutPerm Perm.UniPerm = true
    ∧ permMatches Perm.MutxPerm Perm.UniPerm = true :=
  ⟨rfl, rfl, permMatches_trans Perm.MutxPerm Perm.MutPerm Perm.UniPerm rfl rfl⟩

/-! ## Name uses after a name error -/

/-- C35: the use of a name that no declaration binds. The NameResolution pass records
ErrorUnkName and leaves `dclnode` NULL; on the node it leaves, the TypeCheck step of
nameUsePass reads `dclnode->vtype` through NULL and has no result. -/
theorem nameUsePass_typecheck_unresolved_undefined :
    nameUsePass exNameResState exUnknownUse
      = some ({ pstate := exNameResState.pstate,
                errs := [(ErrorCode.ErrorUnkName, exUnknownUse)], nametbl := [] },
          .nameuse AstTag.NameUseNode 99 .null .null .voidType)
    ∧ exTypeCheckState.pstate.pass = Pass.TypeCheck
    ∧ nameUsePass exTypeCheckState (.nameuse AstTag.NameUseNode 99 .null .null .voidType)
      = none :=
  ⟨rfl, rfl, rfl⟩

/-- In the TypeCheck pass nameUsePass has a result exactly when the declaration the
name-use points to has a value type; with a NULL `dclnode` it has none. -/
theorem nameUsePass_typecheck_defined_iff (c : CompState) (tag : AstTag) (namesym : Name)
    (mod dclnode vtype : AstNode) (hpass : c.pstate.pass = Pass.TypeCheck) :
    ((nameUsePass c (.nameuse tag namesym mod dclnode vtype)).isSome = true
        ↔ (dclnode.vtype).isSome = true)
    ∧ nameUsePass c (.nameuse tag namesym mod .null vtype) = none := by
  constructor
  · cases h : dclnode.vtype <;> simp [nameUsePass, hpass, h]
  · simp [nameUsePass, hpass, AstNode.vtype]

/-! ## Capacity of node lists -/

/-- For a list with room for at least one slot whose count is within its capacity, and
a capacity below `2^30`, nodesAdd returns a list whose count is within its capacity and
that has room for at least one slot; the capacity is doubled when the list was full and
is unchanged otherwise. -/
theorem nodesAdd_capacity {α : Type} (nodes : Nodes α) (node : α)
    (hpos : 0 < nodes.avail) (hinv : nodes.used ≤ nodes.avail) (hfit : nodes.avail < 2 ^ 30) :
    ∃ nodes1, nodesAdd nodes node = some nodes1
      ∧ nodes1.used ≤ nodes1.avail ∧ 0 < nodes1.avail
      ∧ (nodes.used = nodes.avail → nodes1.avail = 2 * nodes.avail)
      ∧ (nodes.used < nodes.avail → nodes1.avail = nodes.avail) := by
  obtain ⟨nodes1, hadd⟩ := nodesAdd_defined nodes node hpos hinv hfit
  obtain ⟨-, hused, hwithin, hsame, hdouble⟩ := nodesAdd_some nodes nodes1 node hadd
  refine ⟨nodes1, hadd, hwithin, by omega, ?_, hsame⟩
  intro heq
  rw [hdouble (by omega)]
  omega

/-- C36: the list of subtypes of a new struct is created by `newNodes(0)`. On the first
nodesAdd the list is full, the block it is moved to has twice 0 slots, and the node is
written in slot 0 of that block, outside of it: nodesAdd has no defined result. -/
theorem nodesAdd_zero_capacity :
    (newStructNode 20).subtypes.avail = 0
    ∧ (newStructNode 20).subtypes.used = 0
    ∧ nodesGrow (newStructNode 20).subtypes = some (Nodes.mk 0 [])
    ∧ nodesAdd (newStructNode 20).subtypes exI32 = none :=
  ⟨rfl, rfl, rfl, rfl⟩

/-! ## The value type of an assignment -/

/-- C37: in the TypeCheck pass, once both sides have been walked, assignPass gives the
assignment node the value type of its right side as the checks leave it: the
expression `typeCoerces` leaves in the slot when the left side is an lval (whether the
coercion or the mutability test fails or not), and the walked right side when the left
side is not an lval (ErrorBadLval, no coercion is tried). -/
theorem assignPass_vtype (astPass : AstPass)
    (typeCoerces : AstNode → AstNode → Bool × AstNode) (permIsMutable : AstNode → Bool)
    (c c1 c2 : Ctx) (tag : AstTag) (assignType : Int) (lval rval vtype lval1 rval1 : AstNode)
    (lvalok : Bool) (rvtype : AstNode)
    (hl : astPass c lval = some (c1, lval1)) (hr : astPass c1 rval = some (c2, rval1))
    (hpass : c2.pstate.pass = Pass.TypeCheck)
    (hlv : isLval lval1 = some lvalok)
    (hvt : (if lvalok then (typeCoerces lval1 rval1).2 else rval1).vtype = some rvtype) :
    ∃ new, assignPass astPass typeCoerces permIsMutable c
        (.assign tag assignType lval rval vtype)
      = some ({ pstate := c2.pstate, errs := c2.errs ++ new },
          .assign tag assignType lval1
            (if lvalok then (typeCoerces lval1 rval1).2 else rval1) rvtype) := by
  cases lvalok with
  | false =>
    simp only [Bool.false_eq_true, ↓reduceIte] at hvt ⊢
    exact ⟨[(ErrorCode.ErrorBadLval, lval1)],
      by simp [assignPass, hl, hr, hpass, assignTypeCheck, hlv, hvt, errorMsgNode]⟩
  | true =>
    simp only [↓reduceIte] at hvt ⊢
    by_cases hco : (typeCoerces lval1 rval1).1 = true
    · by_cases hmu : permIsMutable lval1 = true
      · exact ⟨[], by simp [assignPass, hl, hr, hpass, assignTypeCheck, hlv, hco, hmu, hvt]⟩
      · have hmu : permIsMutable lval1 = false := by simpa using hmu
        exact ⟨[(ErrorCode.ErrorNoMut, lval1)],
          by simp [assignPass, hl, hr, hpass, assignTypeCheck, hlv, hco, hmu, hvt,
            errorMsgNode]⟩
    · have hco : (typeCoerces lval1 rval1).1 = false := by simpa using hco
      exact ⟨[(ErrorCode.ErrorInvType, (typeCoerces lval1 rval1).2)],
        by simp [assignPass, hl, hr, hpass, assignTypeCheck, hlv, hco, hvt, errorMsgNode]⟩

/-- C37 (witness): the assignment `x = 1` to an immutable variable records ErrorNoMut
and still gets the value type `i32` of its right side. -/
theorem assignPass_vtype_witness :
    ∃ new, assignPass exAstPass exCoerces exPermImmutable exTypeCheckCtx
        (.assign AstTag.AssignNode 0 exVarUse exOne .voidType)
      = some ({ pstate := exTypeCheckCtx.pstate, errs := exTypeCheckCtx.errs ++ new },
          .assign AstTag.AssignNode 0 exVarUse exOne exI32) :=
  assignPass_vtype exAstPass exCoerces exPermImmutable exTypeCheckCtx exTypeCheckCtx
    exTypeCheckCtx AstTag.AssignNode 0 exVarUse exOne .voidType exVarUse exOne true exI32
    rfl rfl rfl rfl rfl

/-! ## Sizes -/

/-- The bitwise and with a mask of `n` one bits above `k` zero bits keeps the bits
`k .. k+n-1`. -/
theorem and_shifted_mask (x k n : Nat) :
    x &&& (2 ^ k * (2 ^ n - 1)) = 2 ^ k * ((x / 2 ^ k) % 2 ^ n) := by
  apply Nat.eq_of_testBit_eq
  intro i
  rw [Nat.testBit_and, Nat.testBit_mul_pow_two, Nat.testBit_mul_pow_two,
    Nat.testBit_two_pow_sub_one, Nat.testBit_mod_two_pow, ← Nat.shiftRight_eq_div_pow,
    Nat.testBit_shiftRight]
  by_cases hik : i ≥ k
  · have hki : k + (i - k) = i := by omega
    simp [hik, hki, Bool.and_comm]
  · simp [hik]

/-- C38 (counterexample): for an alloc type of ABI size `2^32`, in the branch of the
pointer size 32, genlSizeof gives 0, which is below the ABI size, although the multiple
of 4 asked for (`2^32` itself) fits in 64 bits. -/
theorem genlSizeof_mask32_counterexample :
    exAllocType.asttype = some AstTag.AllocType
    ∧ genlSizeof (fun _ => 2 ^ 32) 32 exAllocType = some 0
    ∧ 4 ∣ 2 ^ 32 ∧ 2 ^ 32 < 2 ^ 64 ∧ ¬ (2 ^ 32 ≤ 0) :=
  ⟨rfl, by decide, by decide, by decide, by decide⟩

/-- C38 (amended): genlSizeof gives the ABI size (below `2^64`) as it is for a type
whose tag is not AllocType. For an alloc type it gives the smallest multiple of 4 that
is at least the ABI size when the pointer size test selects the 32 branch and that
multiple is below `2^32`, and the smallest multiple of 8 that is at least the ABI size
in the other branch when that multiple is below `2^64`. -/
theorem genlSizeof_rounds (LLVMABISizeOfType : AstNode → Nat) (LLVMPointerSize : Nat)
    (vtype : AstNode) (t : AstTag)
    (htag : vtype.asttype = some t) (hsize : LLVMABISizeOfType vtype < 2 ^ 64) :
    (t ≠ AstTag.AllocType →
      genlSizeof LLVMABISizeOfType LLVMPointerSize vtype = some (LLVMABISizeOfType vtype))
    ∧ (t = AstTag.AllocType → LLVMPointerSize = 32 → LLVMABISizeOfType vtype + 3 < 2 ^ 32 →
        ∃ size, genlSizeof LLVMABISizeOfType LLVMPointerSize vtype = some size
          ∧ 4 ∣ size ∧ LLVMABISizeOfType vtype ≤ size
          ∧ ∀ m, 4 ∣ m → LLVMABISizeOfType vtype ≤ m → size ≤ m)
    ∧ (t = AstTag.AllocType → LLVMPointerSize ≠ 32 → LLVMABISizeOfType vtype + 7 < 2 ^ 64 →
        ∃ size, genlSizeof LLVMABISizeOfType LLVMPointerSize vtype = some size
          ∧ 8 ∣ size ∧ LLVMABISizeOfType vtype ≤ size
          ∧ ∀ m, 8 ∣ m → LLVMABISizeOfType vtype ≤ m → size ≤ m) := by
  refine ⟨?_, ?_, ?_⟩
  · intro hne
    simp only [genlSizeof, htag, hne, ↓reduceIte, Nat.mod_eq_of_lt hsize]
  · intro ht hp hfit
    have hm : (0xFFFFFFFC : Nat) = 2 ^ 2 * (2 ^ 30 - 1) := by norm_num
    refine ⟨4 * ((LLVMABISizeOfType vtype + 3) / 4), ?_, ⟨_, rfl⟩, by omega, ?_⟩
    · simp only [genlSizeof, htag, ht, hp, ↓reduceIte, Option.some.injEq]
      rw [hm, and_shifted_mask]
      norm_num at hfit hsize ⊢
      omega
    · rintro m ⟨q, rfl⟩ hle
      omega
  · intro ht hp hfit
    have hm : (0xFFFFFFFFFFFFFFF8 : Nat) = 2 ^ 3 * (2 ^ 61 - 1) := by norm_num
    refine ⟨8 * ((LLVMABISizeOfType vtype + 7) / 8), ?_, ⟨_, rfl⟩, by omega, ?_⟩
    · simp only [genlSizeof, htag, ht, hp, ↓reduceIte, Option.some.injEq]
      rw [hm, and_shifted_mask]
      norm_num at hfit hsize ⊢
      omega
    · rintro m ⟨q, rfl⟩ hle
      omega

/-- C38 (witness): an alloc type of ABI size 13 gets the size 16, in the 32 branch and
in the other one; a type that is not an alloc type keeps the size 13. -/
theorem genlSizeof_rounds_witness :
    genlSizeof (fun _ => 13) 32 exAllocType = some 16
    ∧ genlSizeof (fun _ => 13) 64 exAllocType = some 16
    ∧ genlSizeof (fun _ => 13) 64 exI32 = some 13
    ∧ (∃ size, genlSizeof (fun _ => 13) 32 exAllocType = some size
        ∧ 4 ∣ size ∧ 13 ≤ size ∧ ∀ m, 4 ∣ m → 13 ≤ m → size ≤ m)
    ∧ (∃ size, genlSizeof (fun _ => 13) 64 exAllocType = some size
        ∧ 8 ∣ size ∧ 13 ≤ size ∧ ∀ m, 8 ∣ m → 13 ≤ m → size ≤ m) :=
  ⟨by decide, by decide,
    (genlSizeof_rounds (fun _ => 13) 64 exI32 (AstTag.other 0) rfl (by norm_num)).1
      (by decide),
    (genlSizeof_rounds (fun _ => 13) 32 exAllocType AstTag.AllocType rfl (by norm_num)).2.1
      rfl rfl (by norm_num),
    (genlSizeof_rounds (fun _ => 13) 64 exAllocType AstTag.AllocType rfl (by norm_num)).2.2
      rfl (by decide) (by norm_num)⟩

end Cone
